import Mathlib

/-!
# Statistics core of `echo_rest_api`

A shallow embedding of `database/model/stats.go` (`dateToString`, the
aggregation stages and the cursor loops of `StatsGetGate` and
`StatsGetSpace`), of `internal/generic.go` (`MaxUint`, `InSlice`), of
`internal/http.go` (`DecodeQueryParameterID`), of `internal/error.go`
(`ErrorHandler`), of `server/handler/stats.go` (`StatsGetData`) and of the
parts of the Go packages `fmt`, `strconv` and `time` that they call
(`Sprintf` with `%d`, `Atoi`, `ParseBool`, `Parse`, `Date`, `Add`, `Format`, in
the algorithms of Go 1.22 and earlier), followed by theorems about them.  Of
the MongoDB driver the model holds what the code relies on: the stages of
the aggregation pipeline, the cursor, and the encoding of a `time.Time` as a
BSON datetime (`NewDateTimeFromTime`); of the package `sort` the guarantee
of `sort.Slice`.

Go strings are modelled as `String` (lists of characters; every character
that occurs is ASCII, so bytes and characters coincide).  Go's `uint` fields
are natural numbers, Go's `int` values are integers.
-/

namespace EchoRestApi

/-! ## `internal/error.go` -/

/-- The message constant `ErrBETimeConversion` of `internal/error.go`. -/
def ErrBETimeConversion : String := "Error occurred while converting a time field"

/-- A backend error (`internal.Error`): the message identifies the error; the
source location and the wrapped original error are not modelled. -/
structure Error where
  Message : String
deriving DecidableEq

/-- Function `internal.NewError(message, original, skip)`. -/
def NewError (message : String) : Error := ⟨message⟩

/-! ## `internal/generic.go` -/

/-- Function `MaxUint` gets the maximum of two uint values. -/
def MaxUint (x y : Nat) : Nat := if x < y then y else x

/-! ## `fmt`: the verb `%d` on an unsigned integer -/

/-- The character of a decimal digit `d < 10`. -/
def digitChar (d : Nat) : Char := Char.ofNat (48 + d)

/-- Decimal digits of `n`, most significant first, in front of `acc`. -/
def fmtDigits : Nat → Nat → List Char → List Char
  | 0, _, acc => acc
  | fuel + 1, n, acc =>
    if n < 10 then digitChar n :: acc
    else fmtDigits fuel (n / 10) (digitChar (n % 10) :: acc)

/-- Function `fmt.Sprintf("%d", n)` for an unsigned `n`: decimal, no padding, no sign. -/
def fmtUint (n : Nat) : List Char := fmtDigits (n + 1) n []

/-! ## `time`: parsing with the layout `2006-1-2 15:4:5` -/

/-- Function `isDigit(s, i)` of `time/format.go`: is `s[i]` an in-range decimal digit. -/
def isDigit (s : List Char) (i : Nat) : Bool :=
  match s.get? i with
  | none => false
  | some c => decide (48 ≤ c.toNat ∧ c.toNat ≤ 57)

/-- The value of the digit character `c`, `int(c - '0')`. -/
def digitVal (c : Char) : Int := (c.toNat : Int) - 48

/-- Function `getnum(s, fixed)`: parse a one- or two-digit number at the start of `s`
(exactly two digits when `fixed`); returns the number and the rest. -/
def getnum (s : List Char) (fixed : Bool) : Option (Int × List Char) :=
  if !isDigit s 0 then none
  else if !isDigit s 1 then
    if fixed then none else some (digitVal (s.headD (Char.ofNat 0)), s.drop 1)
  else
    some (digitVal (s.headD (Char.ofNat 0)) * 10 + digitVal ((s.drop 1).headD (Char.ofNat 0)),
      s.drop 2)

/-- Function `leadingInt(s)`: consume the leading decimal digits of `s` (the overflow
guard at 2^63 is out of reach of the four characters `Parse` passes). -/
def leadingInt : List Char → Int → Int × List Char
  | [], x => (x, [])
  | c :: cs, x =>
    if 48 ≤ c.toNat ∧ c.toNat ≤ 57 then leadingInt cs (x * 10 + digitVal c)
    else (x, c :: cs)

/-- Function `atoi(s)` of `time/format.go`: optional sign, then digits up to the end. -/
def atoi (s : List Char) : Option Int :=
  let signed : Bool × List Char :=
    match s with
    | c :: cs => if c.toNat = 45 ∨ c.toNat = 43 then (decide (c.toNat = 45), cs) else (false, s)
    | [] => (false, s)
  match leadingInt signed.2 0 with
  | (q, []) => some (if signed.1 then -q else q)
  | (_, _ :: _) => none

/-- Function `cutspace(s)`: drop the leading spaces. -/
def cutspace (s : List Char) : List Char := s.dropWhile (fun c => c.toNat = 32)

/-- The loop of `skip`, with one unit of fuel per character of the prefix. -/
def skipLoop : Nat → List Char → List Char → Option (List Char)
  | 0, value, _ => some value
  | fuel + 1, value, pre =>
    match pre with
    | [] => some value
    | p :: ps =>
      if p.toNat = 32 then
        match value with
        | v :: _ =>
          if v.toNat ≠ 32 then none else skipLoop fuel (cutspace value) (cutspace (p :: ps))
        | [] => skipLoop fuel (cutspace value) (cutspace (p :: ps))
      else
        match value with
        | [] => none
        | v :: vs => if v ≠ p then none else skipLoop fuel vs ps

/-- Function `skip(value, prefix)`: remove the literal `prefix` from the front of
`value`; a space in the prefix matches zero or more spaces. -/
def skip (value pre : List Char) : Option (List Char) := skipLoop pre.length value pre

/-- Function `isLeap(year)`. -/
def isLeap (year : Int) : Bool :=
  year % 4 = 0 ∧ (year % 100 ≠ 0 ∨ year % 400 = 0)

/-- The table `daysBefore`: days in a non-leap year before month `m + 1`. -/
def daysBefore (m : Int) : Int :=
  [0, 31, 59, 90, 120, 151, 181, 212, 243, 273, 304, 334, 365].getD m.toNat 0

/-- Function `daysIn(m, year)`. -/
def daysIn (m year : Int) : Int :=
  if m = 2 ∧ isLeap year then 29 else daysBefore m - daysBefore (m - 1)

/-- An instant `time.Time` in UTC: seconds since 0001-01-01T00:00:00Z and
nanoseconds within the second. -/
structure Time where
  sec : Int
  nsec : Int
deriving DecidableEq

/-- Function `norm(hi, lo, base)`: bring `lo` into `[0, base)`, carrying into `hi`. -/
def norm (hi lo base : Int) : Int × Int :=
  let a : Int × Int :=
    if lo < 0 then (hi - ((-lo - 1) / base + 1), lo + ((-lo - 1) / base + 1) * base)
    else (hi, lo)
  if a.2 ≥ base then (a.1 + a.2 / base, a.2 - (a.2 / base) * base) else a

/-- Function `daysSinceEpoch(year)`: days from 0001-01-01 to 1 January of `year`.
Go counts from the absolute zero year -292277022399, which is a whole number
of 400-year cycles before year 1, so the cycle arithmetic is the same. -/
def daysSinceEpoch (year : Int) : Int :=
  let y := year - 1
  let n400 := y / 400
  let y := y - 400 * n400
  let n100 := y / 100
  let y := y - 100 * n100
  let n4 := y / 4
  let y := y - 4 * n4
  146097 * n400 + 36524 * n100 + 1461 * n4 + 365 * y

/-- Function `time.Date(year, month, day, hour, min, sec, nsec, time.UTC)`. -/
def Date (year month day hour min sec nsec : Int) : Time :=
  let ym := norm year (month - 1) 12
  let year := ym.1
  let month := ym.2 + 1
  let sn := norm sec nsec 1000000000
  let ms := norm min sn.1 60
  let hm := norm hour ms.1 60
  let dh := norm day hm.1 24
  let d := daysSinceEpoch year + daysBefore (month - 1)
    + (if isLeap year ∧ month ≥ 3 then 1 else 0) + (dh.1 - 1)
  ⟨d * 86400 + (dh.2 * 3600 + hm.2 * 60 + ms.2), sn.2⟩

/-- Function `time.Parse("2006-1-2 15:4:5", value)`: the layout is the sequence of
chunks year, `-`, month, `-`, day, space, hour, `:`, minute, `:`, second.
Every failure of `Parse` is the one `none`. -/
def Parse (value : List Char) : Option Time :=
  -- stdLongYear
  if value.length < 4 || !isDigit value 0 then none else
  match atoi (value.take 4) with
  | none => none
  | some year =>
  match skip (value.drop 4) "-".toList with
  | none => none
  | some value =>
  -- stdNumMonth
  match getnum value false with
  | none => none
  | some (month, value) =>
  if month ≤ 0 ∨ 12 < month then none else
  match skip value "-".toList with
  | none => none
  | some value =>
  -- stdDay: any one- or two-digit day here, validated after the loop
  match getnum value false with
  | none => none
  | some (day, value) =>
  match skip value " ".toList with
  | none => none
  | some value =>
  -- stdHour
  match getnum value false with
  | none => none
  | some (hour, value) =>
  if hour < 0 ∨ 24 ≤ hour then none else
  match skip value ":".toList with
  | none => none
  | some value =>
  -- stdMinute
  match getnum value false with
  | none => none
  | some (min, value) =>
  if min < 0 ∨ 60 ≤ min then none else
  match skip value ":".toList with
  | none => none
  | some value =>
  -- stdSecond
  match getnum value false with
  | none => none
  | some (sec, value) =>
  if sec < 0 ∨ 60 ≤ sec then none else
  -- a fractional second that the layout does not mention is consumed (it
  -- needs a period or comma, which the output of %d never holds)
  let value :=
    if value.length ≥ 2 ∧ ((value.headD (Char.ofNat 0)).toNat = 46
        ∨ (value.headD (Char.ofNat 0)).toNat = 44) ∧ isDigit value 1 then
      (value.drop 2).dropWhile (fun c => 48 ≤ c.toNat ∧ c.toNat ≤ 57)
    else value
  -- end of layout: extra text is an error
  if value ≠ [] then none else
  -- validate the day of the month
  if day < 1 ∨ day > daysIn month year then none else
  some (Date year month day hour min sec 0)

/-! ## `time`: adding a duration and formatting -/

/-- Two's-complement wrap-around of an `int64` result. -/
def wrapInt64 (x : Int) : Int := (x + 9223372036854775808) % 18446744073709551616 - 9223372036854775808

/-- The constant `time.Hour`, in nanoseconds. -/
def Hour : Int := 3600000000000

/-- Method `t.Add(d)` for a duration `d` in nanoseconds (Go's `/` and `%` truncate
toward zero).  The saturation of `addSec` at the ends of `int64` seconds is
out of reach: a duration is less than 2^63 / 10^9 seconds. -/
def Time.Add (t : Time) (d : Int) : Time :=
  let dsec := Int.tdiv d 1000000000
  let nsec := t.nsec + Int.tmod d 1000000000
  if nsec ≥ 1000000000 then ⟨t.sec + (dsec + 1), nsec - 1000000000⟩
  else if nsec < 0 then ⟨t.sec + (dsec - 1), nsec + 1000000000⟩
  else ⟨t.sec + dsec, nsec⟩

/-- The first half of `absDate(abs, true)`: the year and the zero-based day
of the year of the day number `d` (days since 0001-01-01). -/
def absYear (d : Int) : Int × Int :=
  -- Account for 400 year cycles.
  let n := d / 146097
  let y := 400 * n
  let d := d - 146097 * n
  -- Cut off 100-year cycles.
  let n := d / 36524
  let n := n - n / 4
  let y := y + 100 * n
  let d := d - 36524 * n
  -- Cut off 4-year cycles.
  let n := d / 1461
  let y := y + 4 * n
  let d := d - 1461 * n
  -- Cut off years within a 4-year cycle.
  let n := d / 365
  let n := n - n / 4
  let y := y + n
  let d := d - 365 * n
  (y + 1, d)

/-- The month estimate of `absDate` on a day of the year counted without
29 February: month and day of the month. -/
def monthSplit (day : Int) : Int × Int :=
  -- Estimate month on assumption that every month has 31 days.
  let month := day / 31
  let e := daysBefore (month + 1)
  if day ≥ e then (month + 2, day - e + 1)
  else (month + 1, day - daysBefore month + 1)

/-- Function `absDate(abs, true)`: year, month and day of the day number `d`. -/
def absDate (d : Int) : Int × Int × Int :=
  let year := (absYear d).1
  let yday := (absYear d).2
  if isLeap year ∧ yday = 31 + 29 - 1 then (year, 2, 29) else
  let ms := monthSplit (if isLeap year ∧ yday > 31 + 29 - 1 then yday - 1 else yday)
  (year, ms.1, ms.2)

/-- Method `t.Year()`. -/
def Time.Year (t : Time) : Int := (absDate (t.sec / 86400)).1

/-- Method `t.Month()`. -/
def Time.Month (t : Time) : Int := (absDate (t.sec / 86400)).2.1

/-- Method `t.Day()`. -/
def Time.Day (t : Time) : Int := (absDate (t.sec / 86400)).2.2

/-- Method `t.Hour()`. -/
def Time.Hour (t : Time) : Int := (t.sec % 86400) / 3600

/-- Method `t.Minute()`. -/
def Time.Minute (t : Time) : Int := (t.sec % 3600) / 60

/-- Method `t.Second()`. -/
def Time.Second (t : Time) : Int := t.sec % 60

/-- Function `appendInt(b, x, width)`: decimal `x`, zero-padded to at least `width`
digits, after a minus sign when negative. -/
def appendInt (x : Int) (width : Nat) : List Char :=
  let ds := fmtUint x.natAbs
  (if x < 0 then "-".toList else []) ++ List.replicate (width - ds.length) (digitChar 0) ++ ds

/-- Method `t.Format("2006-01-02 15:04:05")`. -/
def formatSecond (t : Time) : List Char :=
  appendInt t.Year 4 ++ "-".toList ++ appendInt t.Month 2 ++ "-".toList ++ appendInt t.Day 2
    ++ " ".toList ++ appendInt t.Hour 2 ++ ":".toList ++ appendInt t.Minute 2
    ++ ":".toList ++ appendInt t.Second 2

/-- Method `t.Format("2006-01-02 15:00 - 15:")`: the characters `:00 - ` and the
final `:` are literal text of the layout. -/
def formatHour (t : Time) : List Char :=
  appendInt t.Year 4 ++ "-".toList ++ appendInt t.Month 2 ++ "-".toList ++ appendInt t.Day 2
    ++ " ".toList ++ appendInt t.Hour 2 ++ ":00 - ".toList ++ appendInt t.Hour 2 ++ ":".toList

/-- Method `t.Format("2006-01-02")`. -/
def formatDay (t : Time) : List Char :=
  appendInt t.Year 4 ++ "-".toList ++ appendInt t.Month 2 ++ "-".toList ++ appendInt t.Day 2

/-- Method `t.Format("2006-01")`. -/
def formatMonth (t : Time) : List Char :=
  appendInt t.Year 4 ++ "-".toList ++ appendInt t.Month 2

/-- Method `t.Format("2006")`. -/
def formatYear (t : Time) : List Char := appendInt t.Year 4

/-! ## `database/model/stats.go` -/

/-- A MongoDB `primitive.ObjectID`, by its hexadecimal form. -/
abbrev ObjectID := String

/-- The struct `StatsAxisX`. -/
structure StatsAxisX where
  ValueFormat : String
  IntervalType : String
deriving DecidableEq

/-- The struct `StatsDataPoint`. -/
structure StatsDataPoint where
  Label : String
  X : String
  Y : Nat
deriving DecidableEq

/-- The struct `StatsData` (the field `Type` is spelled `Type_`). -/
structure StatsData where
  Type_ : String
  Name : String
  Legend : Bool
  XValueFormat : String
  Data : List StatsDataPoint
deriving DecidableEq

/-- The struct `Stats`. -/
structure Stats where
  ID : ObjectID
  Location : String
  ChartType : String
  IsInside : Bool
  Start : Time
  End : Time
  Timezone : Int
  AxisX : StatsAxisX
  Data : List StatsData
deriving DecidableEq

/-- A decoded aggregation row; a field the document omits is zero. -/
structure StatsDataPointRaw where
  Year : Nat
  Month : Nat := 0
  Day : Nat := 0
  Hour : Nat := 0
  Minute : Nat := 0
  Second : Nat := 0
  Entered : Nat := 0
  Exited : Nat := 0
  MaxCount : Nat := 0
deriving DecidableEq

/-- The interval type constant `year`. -/
def year : String := "year"
/-- The interval type constant `month`. -/
def month : String := "month"
/-- The interval type constant `day`. -/
def day : String := "day"
/-- The interval type constant `hour`. -/
def hour : String := "hour"
/-- The interval type constant `second`. -/
def second : String := "second"

/-- The string `tStr` that `dateToString` prints with
`fmt.Sprintf("%d-%d-%d %d:%d:%d", ...)`. -/
def tStr (sd : StatsDataPointRaw) : List Char :=
  fmtUint sd.Year ++ "-".toList ++ fmtUint (MaxUint sd.Month 1) ++ "-".toList
    ++ fmtUint (MaxUint sd.Day 1) ++ " ".toList ++ fmtUint sd.Hour ++ ":".toList
    ++ fmtUint sd.Minute ++ ":".toList ++ fmtUint sd.Second

/-- The `switch mt` of `dateToString`: the label of the instant `ct`. -/
def formatLabel (ct : Time) (mt : String) : String :=
  if mt = second then String.mk (formatSecond ct)
  else if mt = hour then String.mk (formatHour ct) ++ "59"
  else if mt = day then String.mk (formatDay ct)
  else if mt = month then String.mk (formatMonth ct)
  else if mt = year then String.mk (formatYear ct)
  else ""

/-- Function `dateToString(sd, tOff, mt)`: convert a raw stats data point date to a
date string; the result is the pair (label, error) of the Go function. -/
def dateToString (sd : StatsDataPointRaw) (tOff : Int) (mt : String) : String × Option Error :=
  match Parse (tStr sd) with
  | none => ("", some (NewError ErrBETimeConversion))
  | some ct =>
    -- Apply the given timezone offset
    let ct := ct.Add (wrapInt64 (Hour * tOff))
    -- Convert the time to the required format
    (formatLabel ct mt, none)

/-! ### `server/handler/stats.go` -/

/-- The correction `s.Add(time.Hour * time.Duration(-t))` that `StatsGetData`
applies to the start and to the end of the window. -/
def correctForTimezone (s : Time) (t : Int) : Time :=
  s.Add (wrapInt64 (Hour * wrapInt64 (-t)))

/-! ### The aggregation pipelines -/

/-- A document of the `events` collection: subject reference, timestamp and
signed crossing direction. -/
structure Event where
  gate_id : ObjectID
  timestamp : Time
  crossed : Int
deriving DecidableEq

/-- A document of the `space_results` collection. -/
structure SpaceResult where
  space_id : ObjectID
  timestamp : Time
  count : Int
deriving DecidableEq

/-- The order of two instants: `a` is not after `b`. -/
def Time.le (a b : Time) : Bool := a.sec < b.sec ∨ (a.sec = b.sec ∧ a.nsec ≤ b.nsec)

/-- Function `primitive.NewDateTimeFromTime(t)` of the MongoDB driver, which
encodes every `time.Time` of a query: `t.Unix()*1e3 + t.Nanosecond()/1e6`.  A
BSON datetime is a count of whole milliseconds (here from the zero of
`Time.sec`, a whole number of seconds before the Unix epoch); what the
instant holds below a millisecond is dropped.  The timestamp of a stored
document is a BSON datetime as well. -/
def NewDateTimeFromTime (t : Time) : Int := t.sec * 1000 + t.nsec / 1000000

/-- The `switch sq.AxisX.IntervalType` of `StatsGetGate` and `StatsGetSpace`:
the `_id` of the `$group` stage, merged into the row by `$replaceRoot` and
decoded into the date fields of a `StatsDataPointRaw`.  `$year`, `$month`,
`$dayOfMonth` and `$hour` read the timestamp in UTC; an interval type outside
the four cases leaves the group key empty. -/
def groupKey (it : String) (ts : Time) : StatsDataPointRaw :=
  if it = hour then
    { Year := ts.Year.toNat, Month := ts.Month.toNat, Day := ts.Day.toNat, Hour := ts.Hour.toNat }
  else if it = day then
    { Year := ts.Year.toNat, Month := ts.Month.toNat, Day := ts.Day.toNat }
  else if it = month then
    { Year := ts.Year.toNat, Month := ts.Month.toNat }
  else if it = year then
    { Year := ts.Year.toNat }
  else { Year := 0 }

/-- The `switch sq.IsInside` of `StatsGetGate` (an `int8`). -/
def direction (IsInside : Bool) : Int :=
  match IsInside with
  | true => -1
  | false => 1

/-- The `$match` stage of `StatsGetGate`: `gate_id` equals `sq.ID`, and the
timestamp is `$gte` the BSON datetime of `sq.Start` and `$lte` that of
`sq.End`. -/
def gateMatch (sq : Stats) (e : Event) : Bool :=
  e.gate_id = sq.ID ∧ NewDateTimeFromTime sq.Start ≤ NewDateTimeFromTime e.timestamp
    ∧ NewDateTimeFromTime e.timestamp ≤ NewDateTimeFromTime sq.End

/-- The `$cond` under the `entered` sum: 1 if `$crossed` equals `direction`. -/
def enteredCond (sq : Stats) (e : Event) : Nat :=
  if e.crossed = direction sq.IsInside then 1 else 0

/-- The `$cond` under the `exited` sum: 1 if `$crossed` equals `-direction`. -/
def exitedCond (sq : Stats) (e : Event) : Nat :=
  if e.crossed = -direction sq.IsInside then 1 else 0

/-- The accumulator `entered` of one group: `$sum` of the `$cond` values. -/
def groupEntered (sq : Stats) (bucket : List Event) : Nat :=
  (bucket.map (enteredCond sq)).sum

/-- The accumulator `exited` of one group. -/
def groupExited (sq : Stats) (bucket : List Event) : Nat :=
  (bucket.map (exitedCond sq)).sum

/-- The events of the group with key `k`. -/
def gateBucket (sq : Stats) (events : List Event) (k : StatsDataPointRaw) : List Event :=
  (events.filter (gateMatch sq)).filter
    (fun e => groupKey sq.AxisX.IntervalType e.timestamp = k)

/-- The rows the aggregation of `StatsGetGate` yields: one per group key
among the matching events (here in order of first occurrence). -/
def gateRows (sq : Stats) (events : List Event) : List StatsDataPointRaw :=
  (((events.filter (gateMatch sq)).map
      (fun e => groupKey sq.AxisX.IntervalType e.timestamp)).eraseDups).map
    (fun k => { k with
      Entered := groupEntered sq (gateBucket sq events k)
      Exited := groupExited sq (gateBucket sq events k) })

/-- The `$match` stage of `StatsGetSpace`: `space_id` equals `sq.ID`, and the
timestamp is `$gte` the BSON datetime of `sq.Start` and `$lte` that of
`sq.End`. -/
def spaceMatch (sq : Stats) (r : SpaceResult) : Bool :=
  r.space_id = sq.ID ∧ NewDateTimeFromTime sq.Start ≤ NewDateTimeFromTime r.timestamp
    ∧ NewDateTimeFromTime r.timestamp ≤ NewDateTimeFromTime sq.End

/-- The accumulator `max_raw` of one group: `$max` of `$count` (null when
the group holds no value). -/
def maxRaw (bucket : List SpaceResult) : Option Int :=
  match bucket with
  | [] => none
  | r :: rs => some (rs.foldl (fun m x => max m x.count) r.count)

/-- The `$cond` of the `$project` stage: 0 if `max_raw` is less than 0 (null
sorts before every number), else `max_raw`. -/
def maxCountCond (raw : Option Int) : Int :=
  match raw with
  | none => 0
  | some v => if v < 0 then 0 else v

/-- The results of the group with key `k`. -/
def spaceBucket (sq : Stats) (results : List SpaceResult) (k : StatsDataPointRaw) :
    List SpaceResult :=
  (results.filter (spaceMatch sq)).filter
    (fun r => groupKey sq.AxisX.IntervalType r.timestamp = k)

/-- The rows the aggregation of `StatsGetSpace` yields. -/
def spaceRows (sq : Stats) (results : List SpaceResult) : List StatsDataPointRaw :=
  (((results.filter (spaceMatch sq)).map
      (fun r => groupKey sq.AxisX.IntervalType r.timestamp)).eraseDups).map
    (fun k => { k with MaxCount := (maxCountCond (maxRaw (spaceBucket sq results k))).toNat })

/-- Go's `<` on strings: byte-wise lexicographic order. -/
def lexLt : List Char → List Char → Bool
  | _, [] => false
  | [], _ :: _ => true
  | a :: as, b :: bs => a.toNat < b.toNat || (a.toNat == b.toNat && lexLt as bs)

/-- Go's `a <= b` on strings. -/
def strLe (a b : String) : Bool := !lexLt b.data a.data

/-! ## Vocabulary of the specification -/

/-- A calendar field the key omits (zero) takes its minimum valid value 1. -/
def defaulted (x : Nat) : Nat := if x = 0 then 1 else x

/-- The number of days of month `m` of year `y` in the Gregorian calendar. -/
def monthLength (y m : Nat) : Nat :=
  if m = 2 then (if y % 4 = 0 ∧ (y % 100 ≠ 0 ∨ y % 400 = 0) then 29 else 28)
  else if m = 4 ∨ m = 6 ∨ m = 9 ∨ m = 11 then 30
  else 31

/-- The defaulted fields of the key are a valid date and time of day. -/
def validCalendar (sd : StatsDataPointRaw) : Prop :=
  defaulted sd.Month ≤ 12 ∧ defaulted sd.Day ≤ monthLength sd.Year (defaulted sd.Month)
    ∧ sd.Hour ≤ 23 ∧ sd.Minute ≤ 59 ∧ sd.Second ≤ 59

instance (sd : StatsDataPointRaw) : Decidable (validCalendar sd) := by
  unfold validCalendar; infer_instance

/-- A valid bucket key: a valid calendar instant with a four-digit year. -/
def validKey (sd : StatsDataPointRaw) : Prop :=
  (1000 ≤ sd.Year ∧ sd.Year ≤ 9999) ∧ validCalendar sd

instance (sd : StatsDataPointRaw) : Decidable (validKey sd) := by
  unfold validKey; infer_instance

/-- The instant a bucket key denotes. -/
def keyTime (sd : StatsDataPointRaw) : Time :=
  Date sd.Year (defaulted sd.Month) (defaulted sd.Day) sd.Hour sd.Minute sd.Second 0

/-- The instant `t` plus `z` hours. -/
def plusHours (t : Time) (z : Int) : Time := ⟨t.sec + 3600 * z, t.nsec⟩

/-- A number below 100 in two digits, zero-padded. -/
def twoDigits (n : Int) : List Char := [digitChar (n.toNat / 10), digitChar (n.toNat % 10)]

/-- A year in four digits, zero-padded; a year from 10000 on takes the
digits it needs. -/
def yearDigits (y : Int) : List Char :=
  if y < 10000 then
    [digitChar (y.toNat / 1000), digitChar (y.toNat / 100 % 10), digitChar (y.toNat / 10 % 10),
      digitChar (y.toNat % 10)]
  else fmtUint y.toNat

/-- The text `YYYY-MM-DD HH:MM:SS`. -/
def secondText (y m d h mi s : Int) : String :=
  String.mk (yearDigits y ++ "-".toList ++ twoDigits m ++ "-".toList ++ twoDigits d ++ " ".toList
    ++ twoDigits h ++ ":".toList ++ twoDigits mi ++ ":".toList ++ twoDigits s)

/-- The text `YYYY-MM-DD HH:00 - HH:59`. -/
def hourText (y m d h : Int) : String :=
  String.mk (yearDigits y ++ "-".toList ++ twoDigits m ++ "-".toList ++ twoDigits d ++ " ".toList
    ++ twoDigits h ++ ":00 - ".toList ++ twoDigits h ++ ":59".toList)

/-- The text `YYYY-MM-DD`. -/
def dayText (y m d : Int) : String :=
  String.mk (yearDigits y ++ "-".toList ++ twoDigits m ++ "-".toList ++ twoDigits d)

/-- The text `YYYY-MM`. -/
def monthText (y m : Int) : String :=
  String.mk (yearDigits y ++ "-".toList ++ twoDigits m)

/-- The text `YYYY`. -/
def yearText (y : Int) : String := String.mk (yearDigits y)

/-- The bucket key that holds the UTC calendar fields of `t` down to the
second. -/
def timeKey (t : Time) : StatsDataPointRaw :=
  { Year := t.Year.toNat, Month := t.Month.toNat, Day := t.Day.toNat, Hour := t.Hour.toNat,
    Minute := t.Minute.toNat, Second := t.Second.toNat }

/-- The fields are a calendar date and a time of day. -/
def validCivil (y m d h mi s : Int) : Prop :=
  (1 ≤ m ∧ m ≤ 12) ∧ (1 ≤ d ∧ d ≤ daysIn m y) ∧ (0 ≤ h ∧ h ≤ 23) ∧ (0 ≤ mi ∧ mi ≤ 59)
    ∧ (0 ≤ s ∧ s ≤ 59)

instance (y m d h mi s : Int) : Decidable (validCivil y m d h mi s) := by
  unfold validCivil; infer_instance

/-! ## `internal/error.go`: the other message constants -/

/-- The message constant `ErrBEMongoIDCast`. -/
def ErrBEMongoIDCast : String := "Error occurred while casting MongoDB ObjectID"
/-- The message constant `ErrBEMongoIDEmpty`. -/
def ErrBEMongoIDEmpty : String := "The given MongoDB ObjectID is empty"
/-- The message constant `ErrBEQPInvalidChartType`. -/
def ErrBEQPInvalidChartType : String :=
  "The current request has an invalid or empty chartType query parameter"
/-- The message constant `ErrBEQPInvalidDateTime`. -/
def ErrBEQPInvalidDateTime : String :=
  "The current request has an invalid or empty date query parameter"
/-- The message constant `ErrBEQPInvalidIsInside`. -/
def ErrBEQPInvalidIsInside : String :=
  "The current request has an invalid or empty isInside query parameter"
/-- The message constant `ErrBEQPInvalidIntervalType`. -/
def ErrBEQPInvalidIntervalType : String :=
  "The current request has an invalid or empty intervalType query parameter"
/-- The message constant `ErrBEQPInvalidLocation`. -/
def ErrBEQPInvalidLocation : String :=
  "The current request has an invalid or empty location query parameter"
/-- The message constant `ErrBEQPInvalidTimezone`. -/
def ErrBEQPInvalidTimezone : String :=
  "The current request has an invalid or empty timezone query parameter"
/-- The message constant `ErrBEQPNoRawOnGate`. -/
def ErrBEQPNoRawOnGate : String :=
  "The current request is trying to retrieve non-existing raw data on gates"
/-- The message constant `ErrDBCursorClose`. -/
def ErrDBCursorClose : String := "Error occurred while closing the MongoDB cursor"
/-- The message constant `ErrDBCursorIterate`. -/
def ErrDBCursorIterate : String := "Error occurred while iterating over the MongoDB cursor"
/-- The message constant `ErrDBDecode`. -/
def ErrDBDecode : String := "Error occurred while decoding MongoDB documents"
/-- The message constant `ErrDBQuery`. -/
def ErrDBQuery : String := "Error occurred while querying MongoDB documents"
/-- The message constant `ErrDBNoData`. -/
def ErrDBNoData : String := "No data found to be grabbed in MongoDB query"

/-! ## `internal/generic.go`: `InSlice` -/

/-- Function `InSlice` checks if a string is in a slice. -/
def InSlice (p : String) (s : List String) : Bool :=
  match s with
  | [] => false
  | n :: rest => if p = n then true else InSlice p rest

/-! ## The statistics functions of `database/model/stats.go` -/

/-- The collection name constant `eventsCollectionName`. -/
def eventsCollectionName : String := "events"
/-- The collection name constant `spaceResultsCollectionName`. -/
def spaceResultsCollectionName : String := "space_results"

/-- What a `mongo.Cursor` does for the caller: the documents `Next` delivers
until it returns false (a document on which `Decode` fails is `none`), whether
`Err` reports an error afterwards, and whether `Close` fails. -/
structure Cursor where
  docs : List (Option StatsDataPointRaw)
  Err : Bool
  CloseErr : Bool
deriving DecidableEq

/-- The database handle `*mongo.Database` as the statistics functions use it:
`Aggregate` on a collection with the pipeline built from the request, which
fails (`none`) or yields a cursor. -/
structure Database where
  Aggregate : String → Stats → Option Cursor

/-- The loop `for cur.Next(...)` of `StatsGetGate` over the documents still to
come, with the points appended so far; an early `return` is the error. -/
def gateLoop (sq : Stats) :
    List (Option StatsDataPointRaw) → List StatsDataPoint → List StatsDataPoint
      → Except Error (List StatsDataPoint × List StatsDataPoint)
  | [], entered, exited => .ok (entered, exited)
  | none :: _, _, _ => .error (NewError ErrDBDecode)
  | some row :: rest, entered, exited =>
    -- Convert the retrieved DB date to a date string
    match dateToString row sq.Timezone sq.AxisX.IntervalType with
    | (_, some dErr) => .error dErr
    | (dateStr, none) =>
      -- Process the row into entered and exited point types
      gateLoop sq rest (entered ++ [⟨dateStr, dateStr, row.Entered⟩])
        (exited ++ [⟨dateStr, dateStr, row.Exited⟩])

/-- The library function `sort.Slice(x, less)` on a slice of points, as a
function of `less` and of the slice that returns the slice as the call leaves
it.  The closure `less` of the source compares the elements at two indices;
here it compares the two elements. -/
abbrev SortSlice : Type :=
  (StatsDataPoint → StatsDataPoint → Bool) → List StatsDataPoint → List StatsDataPoint

/-- Function `StatsGetGate` retrieves gate statistics from the DB.  The
result is the request `*sq` as the call leaves it and the returned error.
`sortSlice` is the library function `sort.Slice`; the two calls pass it the
closures `entered.Data[i].X < entered.Data[j].X` and
`exited.Data[i].X < exited.Data[j].X`. -/
def StatsGetGate (sortSlice : SortSlice) (m : Database)
    (sq : Stats) : Stats × Option Error :=
  -- Aggregate all matching stats entries
  match m.Aggregate eventsCollectionName sq with
  | none => (sq, some (NewError ErrDBQuery))
  | some cur =>
    -- Decode all found information
    match gateLoop sq cur.docs [] [] with
    | .error e => (sq, some e)
    | .ok (enteredData, exitedData) =>
      -- Sort the data by dates
      let entered : StatsData := ⟨sq.ChartType, "Entered", true, sq.AxisX.ValueFormat,
        sortSlice (fun pi pj => lexLt pi.X.data pj.X.data) enteredData⟩
      let exited : StatsData := ⟨sq.ChartType, "Exited", true, sq.AxisX.ValueFormat,
        sortSlice (fun pi pj => lexLt pi.X.data pj.X.data) exitedData⟩
      -- Add the entered and exited data
      let sq : Stats := { sq with Data := sq.Data ++ [entered, exited] }
      -- Check if any errors occurred
      if cur.Err then (sq, some (NewError ErrDBCursorIterate))
      -- Close the cursor once finished
      else if cur.CloseErr then (sq, some (NewError ErrDBCursorClose))
      -- Check if any data found
      else if sq.Data.length = 0 then (sq, some (NewError ErrDBNoData))
      else (sq, none)

/-- The loop `for cur.Next(...)` of `StatsGetSpace`. -/
def spaceLoop (sq : Stats) :
    List (Option StatsDataPointRaw) → List StatsDataPoint → Except Error (List StatsDataPoint)
  | [], maxCount => .ok maxCount
  | none :: _, _ => .error (NewError ErrDBDecode)
  | some row :: rest, maxCount =>
    match dateToString row sq.Timezone sq.AxisX.IntervalType with
    | (_, some dErr) => .error dErr
    | (dateStr, none) => spaceLoop sq rest (maxCount ++ [⟨dateStr, dateStr, row.MaxCount⟩])

/-- Function `StatsGetSpace` retrieves space statistics from the DB.  The
call of `sort.Slice` passes the closure
`maxCount.Data[i].X < maxCount.Data[j].X`. -/
def StatsGetSpace (sortSlice : SortSlice) (m : Database)
    (sq : Stats) : Stats × Option Error :=
  match m.Aggregate spaceResultsCollectionName sq with
  | none => (sq, some (NewError ErrDBQuery))
  | some cur =>
    match spaceLoop sq cur.docs [] with
    | .error e => (sq, some e)
    | .ok maxCountData =>
      -- Sort the data by dates
      let maxCount : StatsData := ⟨sq.ChartType, "Max count", true, sq.AxisX.ValueFormat,
        sortSlice (fun pi pj => lexLt pi.X.data pj.X.data) maxCountData⟩
      let sq : Stats := { sq with Data := sq.Data ++ [maxCount] }
      if cur.Err then (sq, some (NewError ErrDBCursorIterate))
      else if cur.CloseErr then (sq, some (NewError ErrDBCursorClose))
      else if sq.Data.length = 0 then (sq, some (NewError ErrDBNoData))
      else (sq, none)

/-- The point of the series `Entered` that the loop builds from a row. -/
def enteredPoint (sq : Stats) (row : StatsDataPointRaw) : StatsDataPoint :=
  ⟨(dateToString row sq.Timezone sq.AxisX.IntervalType).1,
    (dateToString row sq.Timezone sq.AxisX.IntervalType).1, row.Entered⟩

/-- The point of the series `Exited` that the loop builds from a row. -/
def exitedPoint (sq : Stats) (row : StatsDataPointRaw) : StatsDataPoint :=
  ⟨(dateToString row sq.Timezone sq.AxisX.IntervalType).1,
    (dateToString row sq.Timezone sq.AxisX.IntervalType).1, row.Exited⟩

/-- The point of the series `Max count` that the loop builds from a row. -/
def maxCountPoint (sq : Stats) (row : StatsDataPointRaw) : StatsDataPoint :=
  ⟨(dateToString row sq.Timezone sq.AxisX.IntervalType).1,
    (dateToString row sq.Timezone sq.AxisX.IntervalType).1, row.MaxCount⟩

/-- What `sort.Slice` asks of `less`, in the words of the package `sort` a
transitive ordering: no element is less than itself, and both `less` and its
negation are transitive. -/
def TransitiveOrdering (less : StatsDataPoint → StatsDataPoint → Bool) : Prop :=
  (∀ a, less a a = false)
  ∧ (∀ a b c, less a b = true → less b c = true → less a c = true)
  ∧ (∀ a b c, less a b = false → less b c = false → less a c = false)

/-- What `sort.Slice` guarantees, whatever `less` it is given that is a
transitive ordering: the result is a permutation of the slice in which no
later element is less than an earlier one.  The order of elements of which
neither is less than the other is unspecified (the sort is not stable). -/
def SortsByLess (sortSlice : SortSlice) : Prop :=
  ∀ less, TransitiveOrdering less → ∀ l, (sortSlice less l).Perm l
    ∧ (sortSlice less l).Pairwise (fun a b => less b a = false)

/-- The closure that the three calls of `sort.Slice` pass as `less`:
`Data[i].X < Data[j].X`, Go's order of strings. -/
abbrev lessX (pi pj : StatsDataPoint) : Bool := lexLt pi.X.data pj.X.data

/-- A list operation returns its argument sorted by `X`: a permutation in
which no later point has a smaller `X` than an earlier one. -/
def SortsByX (sortSlice : List StatsDataPoint → List StatsDataPoint) : Prop :=
  ∀ l, (sortSlice l).Perm l
    ∧ (sortSlice l).Pairwise (fun a b => lexLt b.X.data a.X.data = false)

/-- Insertion of a point into a sorted list, in front of the first point
that is not less. -/
def insertBy (less : StatsDataPoint → StatsDataPoint → Bool) (p : StatsDataPoint) :
    List StatsDataPoint → List StatsDataPoint
  | [] => [p]
  | q :: rest => if less q p then q :: insertBy less p rest else p :: q :: rest

/-- Insertion sort: one function that meets the guarantee of `sort.Slice`
(it keeps elements of which neither is less in their order). -/
def insertionSort (less : StatsDataPoint → StatsDataPoint → Bool) :
    List StatsDataPoint → List StatsDataPoint
  | [] => []
  | p :: rest => insertBy less p (insertionSort less rest)

/-- A database on which every aggregation yields the given cursor. -/
def cursorDatabase (docs : List (Option StatsDataPointRaw)) (err closeErr : Bool) : Database :=
  ⟨fun _ _ => some ⟨docs, err, closeErr⟩⟩

/-- A request of the kind the handler builds: a gate, hour buckets, the
window 2023-06-01 in UTC. -/
def exampleRequest : Stats :=
  ⟨"5f1a2b3c4d5e6f7a8b9c0d1e", "gate", "line", false, Date 2023 6 1 0 0 0 0,
    Date 2023 6 1 23 59 59 0, 0, ⟨"DD-MM-YYYY HH:mm:ss", "hour"⟩, []⟩

/-- Two rows of hour buckets, the later bucket first. -/
def exampleRows : List StatsDataPointRaw :=
  [⟨2023, 6, 1, 11, 0, 0, 2, 3, 7⟩, ⟨2023, 6, 1, 10, 0, 0, 1, 1, 4⟩]

/-! ## `server/handler/stats.go` and what it calls -/

/-- Function `primitive.ObjectIDFromHex`: 24 hexadecimal digits give an
identifier (in its lower-case form), anything else an error. -/
def ObjectIDFromHex (s : String) : Option ObjectID :=
  if s.length = 24 ∧ s.data.all (fun c =>
      (48 ≤ c.toNat ∧ c.toNat ≤ 57) ∨ (97 ≤ c.toNat ∧ c.toNat ≤ 102)
        ∨ (65 ≤ c.toNat ∧ c.toNat ≤ 70)) then
    some (String.mk (s.data.map (fun c =>
      if 65 ≤ c.toNat ∧ c.toNat ≤ 70 then Char.ofNat (c.toNat + 32) else c)))
  else none

/-- The query parameters `url.Values` of a request, in the order of the
query string. -/
abbrev QueryParams := List (String × String)

/-- Method `q.Get(key)`: the first value of the key, or the empty string. -/
def QueryParams.Get (q : QueryParams) (key : String) : String :=
  match q with
  | [] => ""
  | (k, v) :: rest => if k = key then v else QueryParams.Get rest key

/-- Function `DecodeQueryParameterID` decodes an input query parameter into
a MongoDB ObjectID. -/
def DecodeQueryParameterID (q : QueryParams) (p : String) : Except Error ObjectID :=
  if q.Get p = "" then .error (NewError ErrBEMongoIDEmpty)
  else
    match ObjectIDFromHex (q.Get p) with
    | none => .error (NewError ErrBEMongoIDCast)
    | some id => .ok id

/-- Function `strconv.Atoi`: an optional sign and decimal digits, within the
range of a 64-bit `int`. -/
def Atoi (s : String) : Option Int :=
  let signed : Bool × List Char :=
    match s.data with
    | c :: cs => if c.toNat = 45 ∨ c.toNat = 43 then (decide (c.toNat = 45), cs) else (false, s.data)
    | [] => (false, [])
  if signed.2 = [] ∨ ¬ signed.2.all (fun c => 48 ≤ c.toNat ∧ c.toNat ≤ 57) then none
  else
    let n : Int := signed.2.foldl (fun acc c => acc * 10 + digitVal c) 0
    let v : Int := if signed.1 then -n else n
    if -9223372036854775808 ≤ v ∧ v ≤ 9223372036854775807 then some v else none

/-- Function `strconv.ParseBool`. -/
def ParseBool (str : String) : Option Bool :=
  if str = "1" ∨ str = "t" ∨ str = "T" ∨ str = "true" ∨ str = "TRUE" ∨ str = "True" then
    some true
  else if str = "0" ∨ str = "f" ∨ str = "F" ∨ str = "false" ∨ str = "FALSE"
      ∨ str = "False" then
    some false
  else none

/-- Function `parseNanoseconds(value, nbytes)` on a fraction of a second:
the digits after the period or comma, at most nine of them, scaled to
nanoseconds. -/
def parseNanoseconds (digits : List Char) : Int :=
  (digits.take 9).foldl (fun acc c => acc * 10 + digitVal c) 0 * 10 ^ (9 - (digits.take 9).length)

/-- The end of `time.Parse(time.RFC3339, value)`: what follows the seconds,
a fractional second that the layout does not mention and the zone
`Z07:00`, and the instant of the fields that were read. -/
def parseFractionAndZone (year month day hour min sec : Int) (value : List Char) :
    Option Time :=
  -- a fractional second that the layout does not mention
  let frac : Bool := value.length ≥ 2 ∧ ((value.headD (Char.ofNat 0)).toNat = 46
    ∨ (value.headD (Char.ofNat 0)).toNat = 44) ∧ isDigit value 1
  let digits : List Char := (value.drop 1).takeWhile (fun c => 48 ≤ c.toNat ∧ c.toNat ≤ 57)
  let nsec : Int := if frac then parseNanoseconds digits else 0
  let value : List Char := if frac then value.drop (1 + digits.length) else value
  -- stdISO8601ColonTZ
  if (value.headD (Char.ofNat 0)).toNat = 90 ∧ value.length ≥ 1 then
    if value.drop 1 ≠ [] then none else
    if day < 1 ∨ day > daysIn month year then none else
    some (Date year month day hour min sec nsec)
  else
    if value.length < 6 then none else
    if ((value.drop 3).headD (Char.ofNat 0)).toNat ≠ 58 then none else
    match getnum ((value.drop 1).take 2) true with
    | none => none
    | some (hr, _) =>
    match getnum ((value.drop 4).take 2) true with
    | none => none
    | some (mm, _) =>
    let zoneOffset : Int := (hr * 60 + mm) * 60
    if (value.headD (Char.ofNat 0)).toNat ≠ 43 ∧ (value.headD (Char.ofNat 0)).toNat ≠ 45 then
      none else
    let zoneOffset : Int :=
      if (value.headD (Char.ofNat 0)).toNat = 45 then -zoneOffset else zoneOffset
    if value.drop 6 ≠ [] then none else
    if day < 1 ∨ day > daysIn month year then none else
    some ⟨(Date year month day hour min sec nsec).sec - zoneOffset,
      (Date year month day hour min sec nsec).nsec⟩

/-- Function `time.Parse(time.RFC3339, value)`, the layout
`2006-01-02T15:04:05Z07:00` read chunk by chunk (the layout-driven `Parse`,
without the stricter RFC 3339 checks that Go 1.20 added).  Every failure is
the one `none`. -/
def ParseRFC3339 (value : List Char) : Option Time :=
  -- stdLongYear
  if value.length < 4 || !isDigit value 0 then none else
  match atoi (value.take 4) with
  | none => none
  | some year =>
  match skip (value.drop 4) "-".toList with
  | none => none
  | some value =>
  -- stdZeroMonth
  match getnum value true with
  | none => none
  | some (month, value) =>
  if month ≤ 0 ∨ 12 < month then none else
  match skip value "-".toList with
  | none => none
  | some value =>
  -- stdZeroDay
  match getnum value true with
  | none => none
  | some (day, value) =>
  match skip value "T".toList with
  | none => none
  | some value =>
  -- stdHour
  match getnum value false with
  | none => none
  | some (hour, value) =>
  if hour < 0 ∨ 24 ≤ hour then none else
  match skip value ":".toList with
  | none => none
  | some value =>
  -- stdZeroMinute
  match getnum value true with
  | none => none
  | some (min, value) =>
  if min < 0 ∨ 60 ≤ min then none else
  match skip value ":".toList with
  | none => none
  | some value =>
  -- stdZeroSecond
  match getnum value true with
  | none => none
  | some (sec, value) =>
  if sec < 0 ∨ 60 ≤ sec then none else
  parseFractionAndZone year month day hour min sec value

/-- The constant `gate` of the handler. -/
def gate : String := "gate"
/-- The constant `none` of the handler (spelled `none_`). -/
def none_ : String := "none"

/-- A call of a statistics function of the model by the handler. -/
inductive Call where
  | StatsGetGate (sq : Stats)
  | StatsGetSpace (sq : Stats)
deriving DecidableEq

deriving instance DecidableEq for Except

/-- What a run of `StatsGetData` does: the statistics functions it called,
and the error it returned or the data it handed to `HTTPSuccess`. -/
structure Outcome where
  calls : List Call
  result : Except Error Stats
deriving DecidableEq

/-- The `switch it` of `StatsGetData` that builds the format for the X axis:
the interval type (`none` becomes `hour`) and the value format. -/
def axisFormat (it : String) : String × String :=
  if it = none_ then (hour, "DD-MM-YYYY HH:mm:ss")
  else if it = "hour" then (it, "DD-MM-YYYY HH:mm:ss")
  else if it = "day" then (it, "DD-MM-YYYY")
  else if it = "month" then (it, "MM-YYY")
  else if it = "year" then (it, "YYYY")
  else (it, "")

/-- Method `StatsGetData` of the handler: get stats data for a given
location.  `m` is the field `h.DB`. -/
def StatsGetData (sortSlice : SortSlice) (m : Database)
    (qp : QueryParams) : Outcome :=
  -- Decode the ID into a MongoDB format
  match DecodeQueryParameterID qp "id" with
  | .error err => ⟨[], .error err⟩
  | .ok id =>
  -- Parse interval dates
  match ParseRFC3339 (qp.Get "start").data with
  | none => ⟨[], .error (NewError ErrBEQPInvalidDateTime)⟩
  | some s =>
  match ParseRFC3339 (qp.Get "end").data with
  | none => ⟨[], .error (NewError ErrBEQPInvalidDateTime)⟩
  | some e =>
  -- Parse timezone
  match Atoi (qp.Get "timezone") with
  | none => ⟨[], .error (NewError ErrBEQPInvalidTimezone)⟩
  | some t =>
  if t < -12 ∨ t > 12 then ⟨[], .error (NewError ErrBEQPInvalidTimezone)⟩ else
  -- Parse location
  let l := qp.Get "location"
  if l = "" ∨ !InSlice l [gate, "space"] then ⟨[], .error (NewError ErrBEQPInvalidLocation)⟩ else
  -- Parse chart type
  let ct := qp.Get "chartType"
  if ct = "" ∨ !InSlice ct ["area", "line", "spline", "column", "stackedColumn", "bar"] then
    ⟨[], .error (NewError ErrBEQPInvalidChartType)⟩ else
  -- Parse interval type
  let it := qp.Get "intervalType"
  if it = "" ∨ !InSlice it [none_, hour, "day", "month", "year"] then
    ⟨[], .error (NewError ErrBEQPInvalidIntervalType)⟩ else
  -- Parse isInside
  let inRaw := qp.Get "isInside"
  if l = gate ∧ inRaw = "" then ⟨[], .error (NewError ErrBEQPInvalidIsInside)⟩ else
  if l = gate ∧ ParseBool inRaw = none then ⟨[], .error (NewError ErrBEQPInvalidIsInside)⟩ else
  let isIn : Bool := if l = gate then (ParseBool inRaw).getD false else false
  -- Check if trying to get raw data from a gate
  if it = none_ ∧ l = gate then ⟨[], .error (NewError ErrBEQPNoRawOnGate)⟩ else
  -- Build format for X axis
  let vf := (axisFormat it).2
  let it := (axisFormat it).1
  -- Correct start/end dates for timezone offset; init the stats model
  let sq : Stats := ⟨id, l, ct, isIn, correctForTimezone s t, correctForTimezone e t, t,
    ⟨vf, it⟩, []⟩
  -- Retrieve the statistics
  if sq.Location = gate then
    match StatsGetGate sortSlice m sq with
    | (_, some err) => ⟨[Call.StatsGetGate sq], .error err⟩
    | (sq2, none) => ⟨[Call.StatsGetGate sq], .ok sq2⟩
  else if sq.Location = "space" then
    match StatsGetSpace sortSlice m sq with
    | (_, some err) => ⟨[Call.StatsGetSpace sq], .error err⟩
    | (sq2, none) => ⟨[Call.StatsGetSpace sq], .ok sq2⟩
  else ⟨[], .ok sq⟩

/-- The query parameters of a valid request for a gate with hour buckets. -/
def exampleQuery : QueryParams :=
  [("id", "5f1a2b3c4d5e6f7a8b9c0d1e"), ("start", "2023-06-01T00:00:00Z"),
    ("end", "2023-06-01T23:59:59Z"), ("timezone", "0"), ("location", "gate"),
    ("chartType", "line"), ("intervalType", "hour"), ("isInside", "false")]

/-! ## `internal/error.go`: the error handler -/

/-- The message constant `ErrBEEmail`. -/
def ErrBEEmail : String := "Error occurred while sending the invite email"
/-- The message constant `ErrBEHashSalt`. -/
def ErrBEHashSalt : String :=
  "Error occurred while generating salt for hashing the given password"
/-- The message constant `ErrBEInvalidInvite`. -/
def ErrBEInvalidInvite : String := "The given invite token is no longer available"
/-- The message constant `ErrBEInvalidPassword`. -/
def ErrBEInvalidPassword : String :=
  "The given email or password do not match any available data"
/-- The message constant `ErrBENotActive`. -/
def ErrBENotActive : String := "The account trying to log in is not activated"
/-- The message constant `ErrBENotAdmin`. -/
def ErrBENotAdmin : String :=
  "This logged in account does not have permissions in this section"
/-- The message constant `ErrBEUserExists`. -/
def ErrBEUserExists : String := "A user account is already associated to this email"
/-- The message constant `ErrBEQPInvalidMobile`. -/
def ErrBEQPInvalidMobile : String :=
  "The current request has an invalid or empty mobile query parameter"
/-- The message constant `ErrBEQPMissing`. -/
def ErrBEQPMissing : String := "The current request is missing one or more query parameters"
/-- The message constant `ErrDBDelete`. -/
def ErrDBDelete : String := "Error occurred while deleting MongoDB documents"
/-- The message constant `ErrDBInsert`. -/
def ErrDBInsert : String := "Error occurred while inserting MongoDB documents"
/-- The message constant `ErrDBUpdate`. -/
def ErrDBUpdate : String := "Error occurred while updating MongoDB documents"
/-- The message constant `ErrDBNoUpdate`. -/
def ErrDBNoUpdate : String := "No data found to be updated in MongoDB query"

/-- The constant `http.StatusBadRequest`. -/
def StatusBadRequest : Int := 400
/-- The constant `http.StatusUnauthorized`. -/
def StatusUnauthorized : Int := 401
/-- The constant `http.StatusNotFound`. -/
def StatusNotFound : Int := 404
/-- The constant `http.StatusInternalServerError`. -/
def StatusInternalServerError : Int := 500

/-- The dynamic type of the `err` that `ErrorHandler` receives, with the
fields it reads: an `*echo.HTTPError` (its `Message` is an `interface{}`,
here `some s` when it holds the string `s`), `validator.ValidationErrors`
(`Field()` and `ActualTag()` of every entry), a backend `*Error`, or an error
of any other type. -/
inductive HandlerError where
  | HTTPError (Code : Int) (Message : Option String)
  | ValidationErrors (entries : List (String × String))
  | Backend (e : Error)
  | Other
deriving DecidableEq

/-- What a run of `ErrorHandler` does to the response: nothing (the response
was committed already), a panic (the type assertion `e.Message.(string)`
failed), or `c.JSON(code, body)` with the three entries of the body; `data`
is always `nil`. -/
inductive ErrorResponse where
  | nothing
  | panics
  | JSON (code : Int) (error : Bool) (message : String) (data : Option Stats)
deriving DecidableEq

/-- The inner `switch message` of `ErrorHandler`: the status code of a
backend error; a message outside the cases keeps the default code. -/
def backendCode (message : String) : Int :=
  if message = ErrDBNoData ∨ message = ErrDBNoUpdate then StatusNotFound
  else if message = ErrBEInvalidPassword ∨ message = ErrBENotAdmin then StatusUnauthorized
  else if message = ErrBEEmail ∨ message = ErrBEHashSalt ∨ message = ErrBEMongoIDCast
      ∨ message = ErrBETimeConversion ∨ message = ErrDBCursorClose
      ∨ message = ErrDBCursorIterate ∨ message = ErrDBDecode ∨ message = ErrDBDelete
      ∨ message = ErrDBInsert ∨ message = ErrDBQuery ∨ message = ErrDBUpdate then
    StatusInternalServerError
  else if message = ErrBEInvalidInvite ∨ message = ErrBEMongoIDEmpty
      ∨ message = ErrBEUserExists ∨ message = ErrBEQPInvalidChartType
      ∨ message = ErrBEQPInvalidDateTime ∨ message = ErrBEQPInvalidIsInside
      ∨ message = ErrBEQPInvalidIntervalType ∨ message = ErrBEQPInvalidLocation
      ∨ message = ErrBEQPInvalidMobile ∨ message = ErrBEQPInvalidTimezone
      ∨ message = ErrBEQPMissing ∨ message = ErrBEQPNoRawOnGate then
    StatusBadRequest
  else StatusInternalServerError

/-- Function `ErrorHandler(err, c)`: the error handler with a custom response
for the Echo instance; `committed` is `c.Response().Committed`.  The log
lines are not modelled. -/
def ErrorHandler (err : HandlerError) (committed : Bool) : ErrorResponse :=
  -- Check if response not already sent to requester
  if committed then .nothing else
  match err with
  | .HTTPError Code Message =>
    match Message with
    | some message => .JSON Code true message none
    | none => .panics
  | .ValidationErrors entries =>
    .JSON StatusBadRequest true
      (entries.foldl (fun message v =>
        message ++ "field validation for '" ++ v.1 ++ "' failed on the '" ++ v.2 ++ "' tag;") "")
      none
  | .Backend e => .JSON (backendCode e.Message) true e.Message none
  | .Other => .JSON StatusInternalServerError true "Unhandled error" none

/-! ## The `$group` stage as the code writes it -/

/-- A `bson.M` of operator expressions: for each key the operator and its
argument, in the order of the source text (a `bson.M` itself is unordered). -/
abbrev GroupSpec := List (String × String × String)

/-- The `switch sq.AxisX.IntervalType` of `StatsGetGate`: the `group`
document. -/
def gateGroup (it : String) : GroupSpec :=
  if it = hour then
    [(year, "$year", "$timestamp"), (month, "$month", "$timestamp"),
      (day, "$dayOfMonth", "$timestamp"), (hour, "$hour", "$timestamp")]
  else if it = day then
    [(year, "$year", "$timestamp"), (month, "$month", "$timestamp"),
      (day, "$dayOfMonth", "$timestamp")]
  else if it = month then
    [(year, "$year", "$timestamp"), (month, "$month", "$timestamp")]
  else if it = year then
    [(year, "$year", "$timestamp")]
  else []

/-- The `switch sq.AxisX.IntervalType` of `StatsGetSpace`: the `group`
document. -/
def spaceGroup (it : String) : GroupSpec :=
  if it = hour then
    [(year, "$year", "$timestamp"), (month, "$month", "$timestamp"),
      (day, "$dayOfMonth", "$timestamp"), (hour, "$hour", "$timestamp")]
  else if it = day then
    [(year, "$year", "$timestamp"), (month, "$month", "$timestamp"),
      (day, "$dayOfMonth", "$timestamp")]
  else if it = month then
    [(year, "$year", "$timestamp"), (month, "$month", "$timestamp")]
  else if it = year then
    [(year, "$year", "$timestamp")]
  else []

/-- The date operators of MongoDB that the group documents use, on the
timestamp of a document, in UTC. -/
def dateOperator (op : String) (ts : Time) : Int :=
  if op = "$year" then ts.Year
  else if op = "$month" then ts.Month
  else if op = "$dayOfMonth" then ts.Day
  else if op = "$hour" then ts.Hour
  else 0

/-- The `_id` that the `$group` stage computes for a document with timestamp
`ts`: the value of every operator expression of the group document. -/
def evalGroup (g : GroupSpec) (ts : Time) : List (String × Int) :=
  g.map (fun kv => (kv.1, dateOperator kv.2.1 ts))

/-- The value of a key in a document; zero when the key is absent, as
`cur.Decode` leaves the field of the row. -/
def fieldOf (doc : List (String × Int)) (key : String) : Nat :=
  match doc.find? (fun kv => kv.1 = key) with
  | some kv => kv.2.toNat
  | none => 0

/-- The date fields that `cur.Decode(&row)` reads from a document by the
`bson` tags of `StatsDataPointRaw`. -/
def decodeDate (doc : List (String × Int)) : StatsDataPointRaw :=
  ⟨fieldOf doc "year", fieldOf doc "month", fieldOf doc "day", fieldOf doc "hour",
    fieldOf doc "minute", fieldOf doc "second", 0, 0, 0⟩

/-! ## Auxiliary definitions of the proofs -/

/-- The number of days of year `y`. -/
def yearLen (y : Int) : Int := if isLeap y then 366 else 365

/-- Zero-based day of the year of a calendar date, as `Date` adds it up. -/
def dayOfYear (y m d : Int) : Int :=
  daysBefore (m - 1) + (if isLeap y ∧ m ≥ 3 then 1 else 0) + (d - 1)

/-- One when the year is a leap year, zero otherwise. -/
def leapDay (y : Int) : Int := if isLeap y then 1 else 0

/-- The characters `0` to `9`. -/
def isDigitChar (c : Char) : Prop := 48 ≤ c.toNat ∧ c.toNat ≤ 57

/-- The text after a number does not go on with a digit. -/
def noDigitHead (rest : List Char) : Prop := ∀ c ∈ rest.head?, ¬ isDigitChar c

/-- The text `Sprintf` prints from six numbers. -/
def fieldsStr (Y M D h mi s : Nat) : List Char :=
  fmtUint Y ++ (Char.ofNat 45 :: (fmtUint M ++ (Char.ofNat 45 :: (fmtUint D ++ (Char.ofNat 32 ::
    (fmtUint h ++ (Char.ofNat 58 :: (fmtUint mi ++ (Char.ofNat 58 :: fmtUint s)))))))))

/-- The request `sq` that `StatsGetData` initialises from valid parameters. -/
def builtRequest (qp : QueryParams) (id : ObjectID) (s e : Time) (t : Int) : Stats :=
  ⟨id, qp.Get "location", qp.Get "chartType",
    if qp.Get "location" = gate then (ParseBool (qp.Get "isInside")).getD false else false,
    correctForTimezone s t, correctForTimezone e t, t,
    ⟨(axisFormat (qp.Get "intervalType")).2, (axisFormat (qp.Get "intervalType")).1⟩, []⟩

/-- The dispatch at the end of `StatsGetData` on the request `sq`. -/
def dispatch (sortSlice : SortSlice) (m : Database)
    (sq : Stats) : Outcome :=
  if sq.Location = gate then
    match StatsGetGate sortSlice m sq with
    | (_, some err) => ⟨[Call.StatsGetGate sq], .error err⟩
    | (sq2, none) => ⟨[Call.StatsGetGate sq], .ok sq2⟩
  else if sq.Location = "space" then
    match StatsGetSpace sortSlice m sq with
    | (_, some err) => ⟨[Call.StatsGetSpace sq], .error err⟩
    | (sq2, none) => ⟨[Call.StatsGetSpace sq], .ok sq2⟩
  else ⟨[], .ok sq⟩

/-- The example request for raw data (interval type `none`) of a gate. -/
def rawGateQuery : QueryParams := ("intervalType", "none") :: exampleQuery

/-- The example request for raw data (interval type `none`) of a space. -/
def rawSpaceQuery : QueryParams := ("location", "space") :: rawGateQuery

/-- The bucket key of a row: its date fields, without the counts. -/
def rowKey (row : StatsDataPointRaw) : StatsDataPointRaw :=
  ⟨row.Year, row.Month, row.Day, row.Hour, row.Minute, row.Second, 0, 0, 0⟩

/-- The example request for a space, with an `isInside` that is no boolean. -/
def spaceQuery : QueryParams := ("location", "space") :: ("isInside", "maybe") :: exampleQuery

/-- The example request with the start of the window a day after its end. -/
def reversedQuery : QueryParams := ("start", "2023-06-02T00:00:00Z") :: exampleQuery

/-- The request that `StatsGetData` builds from `reversedQuery`. -/
def reversedRequest : Stats := { exampleRequest with Start := Date 2023 6 2 0 0 0 0 }

/-- An event of the example gate at the instant `ts`. -/
def exampleEvent (ts : Time) : Event := ⟨"5f1a2b3c4d5e6f7a8b9c0d1e", ts, 1⟩

/-- The example request with a start half a millisecond after midnight. -/
def fractionQuery : QueryParams := ("start", "2023-06-01T00:00:00.0005Z") :: exampleQuery

/-- The request that `StatsGetData` builds from `fractionQuery`. -/
def fractionRequest : Stats := { exampleRequest with Start := Date 2023 6 1 0 0 0 500000 }

/-- The nanoseconds of an instant lie within a second, as in every
`time.Time`. -/
def validNsec (t : Time) : Prop := 0 ≤ t.nsec ∧ t.nsec < 1000000000
instance (t : Time) : Decidable (validNsec t) := by
  unfold validNsec; infer_instance

/-- The instant is a whole number of milliseconds, as the timestamp of every
stored document is. -/
def wholeMilliseconds (t : Time) : Prop := validNsec t ∧ t.nsec % 1000000 = 0
instance (t : Time) : Decidable (wholeMilliseconds t) := by
  unfold wholeMilliseconds; infer_instance

/-- The instant without what it holds below a millisecond. -/
def floorMilliseconds (t : Time) : Time := ⟨t.sec, t.nsec / 1000000 * 1000000⟩

/-! ## Theorems -/

theorem daysSinceEpoch_closed (y : Int) :
    daysSinceEpoch y = 365 * (y - 1) + (y - 1) / 4 - (y - 1) / 100 + (y - 1) / 400 := by
  unfold daysSinceEpoch
  simp only []
  omega

theorem isLeap_iff (y : Int) : isLeap y = true ↔ (y % 4 = 0 ∧ (y % 100 ≠ 0 ∨ y % 400 = 0)) := by
  simp [isLeap]

theorem absYear_spec (n : Int) :
    n = daysSinceEpoch (absYear n).1 + (absYear n).2 ∧ 0 ≤ (absYear n).2 ∧
      (absYear n).2 < yearLen (absYear n).1 := by
  rw [daysSinceEpoch_closed]
  unfold absYear yearLen
  simp only [isLeap_iff]
  generalize ha : n / 146097 = a
  generalize hr : n - 146097 * a = r
  have hr0 : 0 ≤ r ∧ r < 146097 := by omega
  generalize hb : r / 36524 = b
  have hb0 : 0 ≤ b ∧ b ≤ 4 := by omega
  generalize hc : b - b / 4 = c
  have hc0 : 0 ≤ c ∧ c ≤ 3 := by omega
  generalize hr2 : r - 36524 * c = r2
  have hr20 : 0 ≤ r2 ∧ r2 < 36525 := by omega
  generalize hd : r2 / 1461 = d
  have hd0 : 0 ≤ d ∧ d ≤ 24 := by omega
  generalize hr3 : r2 - 1461 * d = r3
  have hr30 : 0 ≤ r3 ∧ r3 < 1461 := by omega
  generalize he : r3 / 365 = e
  have he0 : 0 ≤ e ∧ e ≤ 4 := by omega
  generalize hf : e - e / 4 = f
  have hf0 : 0 ≤ f ∧ f ≤ 3 := by omega
  have e1 : (400 * a + 100 * c + 4 * d + f + 1 - 1) / 4 = 100 * a + 25 * c + d := by omega
  have e2 : (400 * a + 100 * c + 4 * d + f + 1 - 1) / 100 = 4 * a + c := by omega
  have e3 : (400 * a + 100 * c + 4 * d + f + 1 - 1) / 400 = a := by omega
  rw [e1, e2, e3]
  have hbc : b = 0 ∨ b = 1 ∨ b = 2 ∨ b = 3 ∨ b = 4 := by omega
  have hec : e = 0 ∨ e = 1 ∨ e = 2 ∨ e = 3 ∨ e = 4 := by omega
  rcases hbc with h | h | h | h | h <;> rcases hec with h2 | h2 | h2 | h2 | h2 <;>
    subst h <;> subst h2 <;> split <;> omega

theorem daysSinceEpoch_succ (y : Int) :
    daysSinceEpoch (y + 1) = daysSinceEpoch y + yearLen y := by
  rw [daysSinceEpoch_closed, daysSinceEpoch_closed]
  unfold yearLen
  simp only [isLeap_iff]
  split <;> omega

theorem yearLen_pos (y : Int) : 365 ≤ yearLen y ∧ yearLen y ≤ 366 := by
  unfold yearLen; split <;> omega

theorem daysSinceEpoch_add (y : Int) (k : Nat) :
    daysSinceEpoch y + 365 * k ≤ daysSinceEpoch (y + k) := by
  induction k with
  | zero => simp
  | succ k ih =>
    have h := daysSinceEpoch_succ (y + k)
    have h2 := yearLen_pos (y + k)
    push_cast
    rw [← add_assoc, h]
    omega

theorem daysSinceEpoch_lt {y z : Int} (h : y < z) :
    daysSinceEpoch y + yearLen y ≤ daysSinceEpoch z := by
  obtain ⟨k, hk⟩ : ∃ k : Nat, z = (y + 1) + k := ⟨(z - (y + 1)).toNat, by omega⟩
  have h1 := daysSinceEpoch_add (y + 1) k
  have h2 := daysSinceEpoch_succ y
  rw [hk]
  have : (0 : Int) ≤ 365 * k := by positivity
  omega

theorem absYear_unique (n y k : Int) (h : n = daysSinceEpoch y + k) (h0 : 0 ≤ k)
    (h1 : k < yearLen y) : absYear n = (y, k) := by
  obtain ⟨e, p0, p1⟩ := absYear_spec n
  have hy : (absYear n).1 = y := by
    rcases lt_trichotomy (absYear n).1 y with c | c | c
    · have := daysSinceEpoch_lt c; omega
    · exact c
    · have := daysSinceEpoch_lt c; omega
  have hk : (absYear n).2 = k := by rw [hy] at e; omega
  exact Prod.ext hy hk

theorem daysBefore_vals : daysBefore 0 = 0 ∧ daysBefore 1 = 31 ∧ daysBefore 2 = 59 ∧
    daysBefore 3 = 90 ∧ daysBefore 4 = 120 ∧ daysBefore 5 = 151 ∧ daysBefore 6 = 181 ∧
    daysBefore 7 = 212 ∧ daysBefore 8 = 243 ∧ daysBefore 9 = 273 ∧ daysBefore 10 = 304 ∧
    daysBefore 11 = 334 ∧ daysBefore 12 = 365 := by decide

theorem monthSplit_eq (day m : Int) (hm : 1 ≤ m ∧ m ≤ 12) (h : daysBefore (m - 1) ≤ day)
    (h2 : day < daysBefore m) : monthSplit day = (m, day - daysBefore (m - 1) + 1) := by
  obtain ⟨v0, v1, v2, v3, v4, v5, v6, v7, v8, v9, v10, v11, v12⟩ := daysBefore_vals
  have hmc : m = 1 ∨ m = 2 ∨ m = 3 ∨ m = 4 ∨ m = 5 ∨ m = 6 ∨ m = 7 ∨ m = 8 ∨ m = 9 ∨ m = 10
      ∨ m = 11 ∨ m = 12 := by omega
  unfold monthSplit
  obtain ⟨q, hq⟩ : ∃ q, day / 31 = q := ⟨_, rfl⟩
  simp only [hq]
  have hqc : q = 0 ∨ q = 1 ∨ q = 2 ∨ q = 3 ∨ q = 4 ∨ q = 5 ∨ q = 6 ∨ q = 7 ∨ q = 8 ∨ q = 9
      ∨ q = 10 ∨ q = 11 := by
    rcases hmc with e | e | e | e | e | e | e | e | e | e | e | e <;> subst e <;>
      simp only [Int.reduceSub, v0, v1, v2, v3, v4, v5, v6, v7, v8, v9, v10, v11, v12] at h h2 <;>
      omega
  rcases hmc with e | e | e | e | e | e | e | e | e | e | e | e <;> subst e <;>
    simp only [Int.reduceSub, v0, v1, v2, v3, v4, v5, v6, v7, v8, v9, v10, v11, v12] at h h2 ⊢ <;>
    rcases hqc with e | e | e | e | e | e | e | e | e | e | e | e <;> subst e <;>
    simp only [Int.reduceAdd, v0, v1, v2, v3, v4, v5, v6, v7, v8, v9, v10, v11, v12] <;>
    first
    | omega
    | (split <;> first | omega | simp only [Prod.mk.injEq])

theorem monthSplit_exists (day : Int) (h0 : 0 ≤ day) (h1 : day < 365) :
    ∃ m, (1 ≤ m ∧ m ≤ 12) ∧ daysBefore (m - 1) ≤ day ∧ day < daysBefore m := by
  obtain ⟨v0, v1, v2, v3, v4, v5, v6, v7, v8, v9, v10, v11, v12⟩ := daysBefore_vals
  have hc : day < 31 ∨ (31 ≤ day ∧ day < 59) ∨ (59 ≤ day ∧ day < 90) ∨ (90 ≤ day ∧ day < 120)
      ∨ (120 ≤ day ∧ day < 151) ∨ (151 ≤ day ∧ day < 181) ∨ (181 ≤ day ∧ day < 212)
      ∨ (212 ≤ day ∧ day < 243) ∨ (243 ≤ day ∧ day < 273) ∨ (273 ≤ day ∧ day < 304)
      ∨ (304 ≤ day ∧ day < 334) ∨ 334 ≤ day := by omega
  rcases hc with c | c | c | c | c | c | c | c | c | c | c | c
  · exact ⟨1, by omega, by simp only [Int.reduceSub, v0, v1]; omega⟩
  · exact ⟨2, by omega, by simp only [Int.reduceSub, v1, v2]; omega⟩
  · exact ⟨3, by omega, by simp only [Int.reduceSub, v2, v3]; omega⟩
  · exact ⟨4, by omega, by simp only [Int.reduceSub, v3, v4]; omega⟩
  · exact ⟨5, by omega, by simp only [Int.reduceSub, v4, v5]; omega⟩
  · exact ⟨6, by omega, by simp only [Int.reduceSub, v5, v6]; omega⟩
  · exact ⟨7, by omega, by simp only [Int.reduceSub, v6, v7]; omega⟩
  · exact ⟨8, by omega, by simp only [Int.reduceSub, v7, v8]; omega⟩
  · exact ⟨9, by omega, by simp only [Int.reduceSub, v8, v9]; omega⟩
  · exact ⟨10, by omega, by simp only [Int.reduceSub, v9, v10]; omega⟩
  · exact ⟨11, by omega, by simp only [Int.reduceSub, v10, v11]; omega⟩
  · exact ⟨12, by omega, by simp only [Int.reduceSub, v11, v12]; exact ⟨c, h1⟩⟩

/-- What the months of a year look like to the day count. -/
theorem daysBefore_step (m : Int) (hm : 1 ≤ m ∧ m ≤ 12) :
    0 ≤ daysBefore (m - 1) ∧ daysBefore (m - 1) + 28 ≤ daysBefore m ∧ daysBefore m ≤ 365 ∧
      (m ≤ 2 → daysBefore m ≤ 59) ∧ (3 ≤ m → 59 ≤ daysBefore (m - 1)) ∧
      (m = 2 → daysBefore (m - 1) = 31 ∧ daysBefore m = 59) := by
  obtain ⟨v0, v1, v2, v3, v4, v5, v6, v7, v8, v9, v10, v11, v12⟩ := daysBefore_vals
  have hmc : m = 1 ∨ m = 2 ∨ m = 3 ∨ m = 4 ∨ m = 5 ∨ m = 6 ∨ m = 7 ∨ m = 8 ∨ m = 9 ∨ m = 10
      ∨ m = 11 ∨ m = 12 := by omega
  rcases hmc with e | e | e | e | e | e | e | e | e | e | e | e <;> subst e <;>
    simp [v0, v1, v2, v3, v4, v5, v6, v7, v8, v9, v10, v11, v12]

theorem leapDay_range (y : Int) : 0 ≤ leapDay y ∧ leapDay y ≤ 1 := by
  unfold leapDay; split <;> omega

theorem yearLen_eq (y : Int) : yearLen y = 365 + leapDay y := by
  unfold yearLen leapDay; split <;> rfl

theorem dayOfYear_eq (y m d : Int) :
    dayOfYear y m d = daysBefore (m - 1) + (if m ≥ 3 then leapDay y else 0) + (d - 1) := by
  unfold dayOfYear leapDay
  by_cases hl : isLeap y = true <;> by_cases h3 : m ≥ 3 <;> simp [hl, h3]

theorem daysIn_eq (m y : Int) (hm : 1 ≤ m ∧ m ≤ 12) :
    daysIn m y = daysBefore m - daysBefore (m - 1) + (if m = 2 then leapDay y else 0) := by
  obtain ⟨s0, s1, s2, s3, s4, s5⟩ := daysBefore_step m hm
  unfold daysIn leapDay
  by_cases h2 : m = 2
  · obtain ⟨e1, e2⟩ := s5 h2
    subst h2
    by_cases hl : isLeap y = true <;> simp [hl, e2, (daysBefore_vals).2.1]
  · simp [h2]

theorem absDate_dayOfYear (y m d : Int) (hm : 1 ≤ m ∧ m ≤ 12) (hd : 1 ≤ d ∧ d ≤ daysIn m y) :
    absDate (daysSinceEpoch y + dayOfYear y m d) = (y, m, d) := by
  obtain ⟨s0, s1, s2, s3, s4, s5⟩ := daysBefore_step m hm
  have hl0 := leapDay_range y
  rw [daysIn_eq m y hm] at hd
  have hb : 0 ≤ dayOfYear y m d ∧ dayOfYear y m d < yearLen y := by
    rw [yearLen_eq, dayOfYear_eq]
    split at hd <;> split <;> omega
  have ha := absYear_unique _ y _ rfl hb.1 hb.2
  unfold absDate
  simp only [ha]
  rw [dayOfYear_eq] at hb ⊢
  by_cases hl : isLeap y = true
  · have hl1 : leapDay y = 1 := by unfold leapDay; simp [hl]
    simp only [hl, true_and, hl1] at hd hb ⊢
    by_cases h3 : m ≥ 3
    · simp only [h3, if_true] at hb ⊢
      rw [if_neg (by omega)] at hd
      rw [if_neg (by omega), if_pos (by omega)]
      rw [monthSplit_eq _ m hm (by omega) (by omega)]
      simp only [Prod.mk.injEq, true_and]; omega
    · simp only [h3, if_false] at hb ⊢
      by_cases h29 : m = 2 ∧ d = 29
      · obtain ⟨e1, e2⟩ := h29
        rw [if_pos (by have := s5 e1; omega)]
        simp only [e1, e2]
      · have hlt : daysBefore (m - 1) + 0 + (d - 1) < 59 := by
          split at hd
          · have := s5 (by assumption); omega
          · have := s3 (by omega); omega
        rw [if_neg (by omega), if_neg (by omega)]
        rw [monthSplit_eq _ m hm (by omega) (by split at hd <;> omega)]
        simp only [Prod.mk.injEq, true_and]; omega
  · have hl1 : leapDay y = 0 := by unfold leapDay; simp [hl]
    simp only [hl, Bool.false_eq_true, false_and, if_false, hl1, ite_self] at hd hb ⊢
    rw [monthSplit_eq _ m hm (by omega) (by omega)]
    simp only [Prod.mk.injEq, true_and]; omega

theorem absDate_valid (n : Int) :
    (1 ≤ (absDate n).2.1 ∧ (absDate n).2.1 ≤ 12) ∧
    (1 ≤ (absDate n).2.2 ∧ (absDate n).2.2 ≤ daysIn (absDate n).2.1 (absDate n).1) ∧
    daysSinceEpoch (absDate n).1 + dayOfYear (absDate n).1 (absDate n).2.1 (absDate n).2.2 = n := by
  obtain ⟨hn, k0, k1⟩ := absYear_spec n
  generalize hY : (absYear n).1 = Y at hn k0 k1
  generalize hK : (absYear n).2 = K at hn k0 k1
  have hl0 := leapDay_range Y
  rw [yearLen_eq] at k1
  unfold absDate
  simp only [hY, hK]
  by_cases hl : isLeap Y = true
  · have hl1 : leapDay Y = 1 := by unfold leapDay; simp [hl]
    simp only [hl, true_and]
    by_cases h59 : K = 31 + 29 - 1
    · rw [if_pos h59]
      simp only []
      rw [daysIn_eq 2 Y (by omega), dayOfYear_eq]
      obtain ⟨v0, v1, v2, _⟩ := daysBefore_vals
      simp only [Int.reduceSub, v1, v2, hl1]
      simp
      omega
    · rw [if_neg h59]
      simp only []
      generalize hday : (if K > 31 + 29 - 1 then K - 1 else K) = day
      have hd0 : 0 ≤ day ∧ day < 365 := by split at hday <;> omega
      obtain ⟨m, hm, b0, b1⟩ := monthSplit_exists day hd0.1 hd0.2
      obtain ⟨s0, s1, s2, s3, s4, s5⟩ := daysBefore_step m hm
      rw [monthSplit_eq day m hm b0 b1]
      simp only []
      rw [daysIn_eq m Y hm, dayOfYear_eq]
      refine ⟨hm, ⟨by omega, by split <;> omega⟩, ?_⟩
      split at hday
      · have h3 : m ≥ 3 := by
          by_contra hc
          have := s3 (by omega)
          omega
        rw [if_pos h3]; omega
      · have h3 : ¬ m ≥ 3 := by
          intro hc
          have := s4 hc
          omega
        rw [if_neg h3]; omega
  · have hl1 : leapDay Y = 0 := by unfold leapDay; simp [hl]
    simp only [hl, Bool.false_eq_true, false_and, if_false]
    obtain ⟨m, hm, b0, b1⟩ := monthSplit_exists K k0 (by omega)
    obtain ⟨s0, s1, s2, s3, s4, s5⟩ := daysBefore_step m hm
    rw [monthSplit_eq K m hm b0 b1]
    simp only []
    rw [daysIn_eq m Y hm, dayOfYear_eq, hl1]
    refine ⟨hm, ⟨by omega, by split <;> omega⟩, ?_⟩
    simp only [ite_self]
    omega

theorem daysIn_bound (m y : Int) (hm : 1 ≤ m ∧ m ≤ 12) : 28 ≤ daysIn m y ∧ daysIn m y ≤ 31 := by
  obtain ⟨v0, v1, v2, v3, v4, v5, v6, v7, v8, v9, v10, v11, v12⟩ := daysBefore_vals
  have hl := leapDay_range y
  rw [daysIn_eq m y hm]
  have hmc : m = 1 ∨ m = 2 ∨ m = 3 ∨ m = 4 ∨ m = 5 ∨ m = 6 ∨ m = 7 ∨ m = 8 ∨ m = 9 ∨ m = 10
      ∨ m = 11 ∨ m = 12 := by omega
  rcases hmc with e | e | e | e | e | e | e | e | e | e | e | e <;> subst e <;>
    simp only [Int.reduceSub, v0, v1, v2, v3, v4, v5, v6, v7, v8, v9, v10, v11, v12] <;>
    simp <;> omega

theorem norm_id (hi lo base : Int) (h0 : 0 ≤ lo) (h1 : lo < base) : norm hi lo base = (hi, lo) := by
  unfold norm
  simp only [show ¬ lo < 0 by omega, if_false, show ¬ lo ≥ base by omega]

theorem Date_valid (y m d h mi s : Int) (hm : 1 ≤ m ∧ m ≤ 12) (hh : 0 ≤ h ∧ h < 24)
    (hmi : 0 ≤ mi ∧ mi < 60) (hs : 0 ≤ s ∧ s < 60) :
    Date y m d h mi s 0 =
      ⟨(daysSinceEpoch y + dayOfYear y m d) * 86400 + (h * 3600 + mi * 60 + s), 0⟩ := by
  unfold Date
  simp only [norm_id y (m - 1) 12 (by omega) (by omega), norm_id s 0 1000000000 (by omega) (by omega),
    norm_id mi s 60 hs.1 hs.2, norm_id h mi 60 hmi.1 hmi.2, norm_id d h 24 hh.1 hh.2]
  unfold dayOfYear
  simp only [sub_add_cancel, Time.mk.injEq, and_true]
  ring

theorem digitChar_toNat (d : Nat) (h : d < 10) : (digitChar d).toNat = 48 + d := by
  interval_cases d <;> rfl

theorem digitChar_isDigit (d : Nat) (h : d < 10) : isDigitChar (digitChar d) := by
  unfold isDigitChar; rw [digitChar_toNat d h]; omega

theorem digitVal_digitChar (d : Nat) (h : d < 10) : digitVal (digitChar d) = d := by
  unfold digitVal; rw [digitChar_toNat d h]; omega

theorem fmtDigits_fuel (f1 f2 n : Nat) (acc : List Char) (h1 : n < f1) (h2 : n < f2) :
    fmtDigits f1 n acc = fmtDigits f2 n acc := by
  induction f1 generalizing f2 n acc with
  | zero => omega
  | succ f1 ih =>
    cases f2 with
    | zero => omega
    | succ f2 =>
      unfold fmtDigits
      split
      · rfl
      · exact ih f2 (n / 10) _ (by omega) (by omega)

theorem fmtDigits_acc (f n : Nat) (acc : List Char) (h : n < f) :
    fmtDigits f n acc = fmtDigits f n [] ++ acc := by
  induction f generalizing n acc with
  | zero => omega
  | succ f ih =>
    unfold fmtDigits
    split
    · rfl
    · rw [ih (n / 10) _ (by omega), ih (n / 10) [digitChar (n % 10)] (by omega)]
      simp

theorem fmtUint_lt (n : Nat) (h : n < 10) : fmtUint n = [digitChar n] := by
  unfold fmtUint fmtDigits
  simp [h]

theorem fmtUint_ge (n : Nat) (h : 10 ≤ n) : fmtUint n = fmtUint (n / 10) ++ [digitChar (n % 10)] := by
  rw [fmtUint, fmtDigits]
  rw [if_neg (by omega), fmtDigits_acc _ _ _ (by omega)]
  rw [fmtUint, fmtDigits_fuel n (n / 10 + 1) (n / 10) [] (by omega) (by omega)]

theorem fmtUint_two (n : Nat) (h0 : 10 ≤ n) (h : n < 100) :
    fmtUint n = [digitChar (n / 10), digitChar (n % 10)] := by
  rw [fmtUint_ge n h0, fmtUint_lt (n / 10) (by omega)]; rfl

theorem fmtUint_four (n : Nat) (h0 : 1000 ≤ n) (h : n < 10000) :
    fmtUint n = [digitChar (n / 1000), digitChar (n / 100 % 10), digitChar (n / 10 % 10),
      digitChar (n % 10)] := by
  rw [fmtUint_ge n (by omega), fmtUint_ge (n / 10) (by omega), fmtUint_ge (n / 10 / 10) (by omega),
    fmtUint_lt (n / 10 / 10 / 10) (by omega)]
  simp only [Nat.div_div_eq_div_mul]
  rfl

theorem fmtUint_digits (n : Nat) : ∀ c ∈ fmtUint n, isDigitChar c := by
  induction n using Nat.strong_induction_on with
  | _ n ih =>
    by_cases h : n < 10
    · rw [fmtUint_lt n h]
      intro c hc
      simp only [List.mem_singleton] at hc
      subst hc
      exact digitChar_isDigit n h
    · rw [fmtUint_ge n (by omega)]
      intro c hc
      rw [List.mem_append] at hc
      rcases hc with hc | hc
      · exact ih (n / 10) (by omega) c hc
      · simp only [List.mem_singleton] at hc
        subst hc
        exact digitChar_isDigit _ (by omega)

theorem fmtUint_length_ge (k n : Nat) (h : 10 ^ k ≤ n) : k < (fmtUint n).length := by
  induction k generalizing n with
  | zero =>
    by_cases h10 : n < 10
    · rw [fmtUint_lt n h10]; simp
    · rw [fmtUint_ge n (by omega)]; simp
  | succ k ih =>
    have hp : 0 < 10 ^ k := by positivity
    rw [pow_succ] at h
    rw [fmtUint_ge n (by omega)]
    have := ih (n / 10) (by omega)
    simp
    omega

theorem fmtUint_length_le (k n : Nat) (h : n < 10 ^ (k + 1)) : (fmtUint n).length ≤ k + 1 := by
  induction k generalizing n with
  | zero =>
    rw [fmtUint_lt n (by simpa using h)]; simp
  | succ k ih =>
    by_cases h10 : n < 10
    · rw [fmtUint_lt n h10]; simp
    · rw [fmtUint_ge n (by omega)]
      rw [pow_succ] at h
      have := ih (n / 10) (by omega)
      simp
      omega

theorem isDigit_zero_cons (c : Char) (s : List Char) :
    isDigit (c :: s) 0 = true ↔ isDigitChar c := by
  simp [isDigit, isDigitChar]

theorem isDigit_one_cons (a c : Char) (s : List Char) :
    isDigit (a :: c :: s) 1 = true ↔ isDigitChar c := by
  simp [isDigit, isDigitChar]

theorem isDigit_one_single (a : Char) : isDigit [a] 1 = false := rfl

theorem getnum_fmtUint (n : Nat) (rest : List Char) (h : n < 100) (hr : noDigitHead rest) :
    getnum (fmtUint n ++ rest) false = some ((n : Int), rest) := by
  by_cases h10 : n < 10
  · rw [fmtUint_lt n h10]
    have e0 : isDigit (digitChar n :: rest) 0 = true :=
      (isDigit_zero_cons _ _).2 (digitChar_isDigit n h10)
    have e1 : isDigit (digitChar n :: rest) 1 = false := by
      cases rest with
      | nil => rfl
      | cons c r =>
        have := hr c (by simp)
        rw [← Bool.not_eq_true]
        exact fun hc => this ((isDigit_one_cons _ _ _).1 hc)
    unfold getnum
    simp [e0, e1, digitVal_digitChar n h10]
  · rw [fmtUint_two n (by omega) h]
    have e0 : isDigit (digitChar (n / 10) :: digitChar (n % 10) :: rest) 0 = true :=
      (isDigit_zero_cons _ _).2 (digitChar_isDigit _ (by omega))
    have e1 : isDigit (digitChar (n / 10) :: digitChar (n % 10) :: rest) 1 = true :=
      (isDigit_one_cons _ _ _).2 (digitChar_isDigit _ (by omega))
    unfold getnum
    simp [e0, e1, digitVal_digitChar (n / 10) (by omega), digitVal_digitChar (n % 10) (by omega)]
    omega

theorem fmtUint_three (n : Nat) (h : 100 ≤ n) :
    ∃ a b c r, fmtUint n = a :: b :: c :: r ∧ isDigitChar a ∧ isDigitChar b ∧ isDigitChar c := by
  have hl := fmtUint_length_ge 2 n (by simpa using h)
  have hd := fmtUint_digits n
  match hf : fmtUint n, hl, hd with
  | a :: b :: c :: r, _, hd =>
    exact ⟨a, b, c, r, rfl, hd a (by simp), hd b (by simp), hd c (by simp)⟩

theorem getnum_fmtUint_big (n : Nat) (rest : List Char) (h : 100 ≤ n) :
    ∃ x c r, getnum (fmtUint n ++ rest) false = some (x, c :: r) ∧ isDigitChar c := by
  obtain ⟨a, b, c, r, hf, ha, hb, hc⟩ := fmtUint_three n h
  refine ⟨digitVal a * 10 + digitVal b, c, r ++ rest, ?_, hc⟩
  rw [hf]
  have e0 : isDigit (a :: b :: c :: (r ++ rest)) 0 = true := (isDigit_zero_cons _ _).2 ha
  have e1 : isDigit (a :: b :: c :: (r ++ rest)) 1 = true := (isDigit_one_cons _ _ _).2 hb
  unfold getnum
  simp [e0, e1]

theorem skip_sep (sep : Char) (rest : List Char) (hs : sep.toNat ≠ 32) :
    skip (sep :: rest) [sep] = some rest := by
  simp [skip, skipLoop, hs]

theorem skip_sep_ne (sep c : Char) (rest : List Char) (hs : sep.toNat ≠ 32) (hc : c ≠ sep) :
    skip (c :: rest) [sep] = none := by
  simp [skip, skipLoop, hs, hc]

theorem skip_space (rest : List Char) (hr : ∀ c ∈ rest.head?, c.toNat ≠ 32) :
    skip (Char.ofNat 32 :: rest) [Char.ofNat 32] = some rest := by
  have : cutspace (Char.ofNat 32 :: rest) = rest := by
    unfold cutspace
    cases rest with
    | nil => rfl
    | cons c r =>
      have := hr c (by simp)
      simp [List.dropWhile, this]
  simp [skip, skipLoop, this]

theorem skip_space_ne (c : Char) (rest : List Char) (hc : c.toNat ≠ 32) :
    skip (c :: rest) [Char.ofNat 32] = none := by
  simp [skip, skipLoop, hc]

theorem leadingInt_stop (ds : List Char) (c : Char) (t : List Char) (x : Int)
    (hd : ∀ d ∈ ds, isDigitChar d) (hc : ¬ isDigitChar c) :
    (leadingInt (ds ++ c :: t) x).2 = c :: t := by
  induction ds generalizing x with
  | nil =>
    unfold isDigitChar at hc
    simp [leadingInt, hc]
  | cons d ds ih =>
    have h := hd d (by simp)
    unfold isDigitChar at h
    simp only [List.cons_append, leadingInt, h, and_self, if_true]
    exact ih _ (fun e he => hd e (by simp [he]))

theorem atoi_stop (d : Char) (ds : List Char) (c : Char) (t : List Char)
    (h0 : isDigitChar d) (hd : ∀ e ∈ ds, isDigitChar e) (hc : ¬ isDigitChar c) :
    atoi (d :: ds ++ c :: t) = none := by
  have h1 := leadingInt_stop (d :: ds) c t 0
    (fun e he => by rcases List.mem_cons.1 he with r | r; exact r ▸ h0; exact hd e r) hc
  unfold isDigitChar at h0
  unfold atoi
  have hs : ¬ (d.toNat = 45 ∨ d.toNat = 43) := by omega
  simp only [List.cons_append, hs, if_false] at h1 ⊢
  generalize leadingInt (d :: (ds ++ c :: t)) 0 = p at h1
  obtain ⟨q, r⟩ := p
  simp only at h1
  subst h1
  rfl

theorem atoi_four (n : Nat) (h0 : 1000 ≤ n) (h : n < 10000) : atoi (fmtUint n) = some (n : Int) := by
  rw [fmtUint_four n h0 h]
  have d1 := digitChar_toNat (n / 1000) (by omega)
  have d2 := digitChar_toNat (n / 100 % 10) (by omega)
  have d3 := digitChar_toNat (n / 10 % 10) (by omega)
  have d4 := digitChar_toNat (n % 10) (by omega)
  have hs : ¬ ((digitChar (n / 1000)).toNat = 45 ∨ (digitChar (n / 1000)).toNat = 43) := by omega
  unfold atoi
  have c1 : 48 ≤ (digitChar (n / 1000)).toNat ∧ (digitChar (n / 1000)).toNat ≤ 57 := by omega
  have c2 : 48 ≤ (digitChar (n / 100 % 10)).toNat ∧ (digitChar (n / 100 % 10)).toNat ≤ 57 := by
    omega
  have c3 : 48 ≤ (digitChar (n / 10 % 10)).toNat ∧ (digitChar (n / 10 % 10)).toNat ≤ 57 := by
    omega
  have c4 : 48 ≤ (digitChar (n % 10)).toNat ∧ (digitChar (n % 10)).toNat ≤ 57 := by omega
  simp only [hs, if_false, leadingInt, c1, c2, c3, c4, and_self, if_true, digitVal]
  simp only [d1, d2, d3, d4, Bool.false_eq_true, if_false, Option.some.injEq]
  push_cast
  omega

theorem fmtUint_head_digit (n : Nat) : ∃ c r, fmtUint n = c :: r ∧ isDigitChar c := by
  have hl : 0 < (fmtUint n).length := by
    by_cases h : n < 10
    · rw [fmtUint_lt n h]; simp
    · rw [fmtUint_ge n (by omega)]; simp
  have hd := fmtUint_digits n
  match hf : fmtUint n, hl, hd with
  | c :: r, _, hd => exact ⟨c, r, rfl, hd c (by simp)⟩

theorem noDigitHead_sep (c : Char) (r : List Char) (h : ¬ isDigitChar c) : noDigitHead (c :: r) := by
  intro d hd
  simp at hd
  subst hd
  exact h

theorem noDigitHead_nil : noDigitHead [] := by
  intro d hd
  simp at hd

theorem dash_not_digit : ¬ isDigitChar (Char.ofNat 45) := by unfold isDigitChar; decide
theorem space_not_digit : ¬ isDigitChar (Char.ofNat 32) := by unfold isDigitChar; decide
theorem colon_not_digit : ¬ isDigitChar (Char.ofNat 58) := by unfold isDigitChar; decide

theorem Parse_fields_valid (Y M D h mi s : Nat) (hY : 1000 ≤ Y ∧ Y ≤ 9999) (hM : 1 ≤ M ∧ M ≤ 12)
    (hD : 1 ≤ D ∧ (D : Int) ≤ daysIn M Y) (hh : h < 24) (hmi : mi < 60) (hs : s < 60) :
    Parse (fieldsStr Y M D h mi s) = some (Date Y M D h mi s 0) := by
  have hD100 : D < 100 := by
    have : daysIn (M : Int) (Y : Int) ≤ 31 := by
      have hm : (1 : Int) ≤ M ∧ (M : Int) ≤ 12 := by omega
      have := daysIn_bound M Y hm
      omega
    omega
  obtain ⟨cM, rM, eM, dM⟩ := fmtUint_head_digit M
  obtain ⟨ch, rh, eh, dh⟩ := fmtUint_head_digit h
  generalize hR5 : fmtUint s = R5
  generalize hR4 : fmtUint mi ++ (Char.ofNat 58 :: R5) = R4
  generalize hR3 : fmtUint h ++ (Char.ofNat 58 :: R4) = R3
  generalize hR2 : fmtUint D ++ (Char.ofNat 32 :: R3) = R2
  generalize hR1 : fmtUint M ++ (Char.ofNat 45 :: R2) = R1
  have f4 := fmtUint_four Y hY.1 (by omega)
  have a1 : ¬ (fmtUint Y ++ Char.ofNat 45 :: R1).length < 4 := by rw [f4]; simp
  have a2 : isDigit (fmtUint Y ++ Char.ofNat 45 :: R1) 0 = true := by
    rw [f4]; exact (isDigit_zero_cons _ _).2 (digitChar_isDigit _ (by omega))
  have a3 : (fmtUint Y ++ Char.ofNat 45 :: R1).take 4 = fmtUint Y := by rw [f4]; rfl
  have a4 : (fmtUint Y ++ Char.ofNat 45 :: R1).drop 4 = Char.ofNat 45 :: R1 := by rw [f4]; rfl
  have a5 := atoi_four Y hY.1 (by omega)
  have a6 : skip (Char.ofNat 45 :: R1) "-".toList = some R1 := skip_sep _ _ (by decide)
  have b1 : getnum R1 false = some ((M : Int), Char.ofNat 45 :: R2) := by
    rw [← hR1]; exact getnum_fmtUint M _ (by omega) (noDigitHead_sep _ _ dash_not_digit)
  have b2 : skip (Char.ofNat 45 :: R2) "-".toList = some R2 := skip_sep _ _ (by decide)
  have c1 : getnum R2 false = some ((D : Int), Char.ofNat 32 :: R3) := by
    rw [← hR2]; exact getnum_fmtUint D _ hD100 (noDigitHead_sep _ _ space_not_digit)
  have c2 : skip (Char.ofNat 32 :: R3) " ".toList = some R3 := by
    refine skip_space _ ?_
    rw [← hR3, eh]
    intro c hc
    simp at hc
    subst hc
    unfold isDigitChar at dh
    omega
  have d1 : getnum R3 false = some ((h : Int), Char.ofNat 58 :: R4) := by
    rw [← hR3]; exact getnum_fmtUint h _ (by omega) (noDigitHead_sep _ _ colon_not_digit)
  have d2 : skip (Char.ofNat 58 :: R4) ":".toList = some R4 := skip_sep _ _ (by decide)
  have e1 : getnum R4 false = some ((mi : Int), Char.ofNat 58 :: R5) := by
    rw [← hR4]; exact getnum_fmtUint mi _ (by omega) (noDigitHead_sep _ _ colon_not_digit)
  have e2 : skip (Char.ofNat 58 :: R5) ":".toList = some R5 := skip_sep _ _ (by decide)
  have g1 : getnum R5 false = some ((s : Int), []) := by
    have := getnum_fmtUint s [] (by omega) noDigitHead_nil
    rw [← hR5]; simpa using this
  unfold fieldsStr
  rw [hR5, hR4, hR3, hR2, hR1]
  unfold Parse
  simp only [a1, a2, a3, a4, a5, a6, b1, b2, c1, c2, d1, d2, e1, e2, g1]
  simp
  omega

theorem digit_ne_dash (c : Char) (h : isDigitChar c) : c ≠ Char.ofNat 45 := by
  intro e; subst e; exact dash_not_digit h

theorem digit_ne_colon (c : Char) (h : isDigitChar c) : c ≠ Char.ofNat 58 := by
  intro e; subst e; exact colon_not_digit h

theorem digit_ne_space (c : Char) (h : isDigitChar c) : c.toNat ≠ 32 := by
  unfold isDigitChar at h; omega

theorem Parse_fields_invalid (Y M D h mi s : Nat)
    (hv : ¬ ((1000 ≤ Y ∧ Y ≤ 9999) ∧ (1 ≤ M ∧ M ≤ 12) ∧ (1 ≤ D ∧ (D : Int) ≤ daysIn M Y) ∧ h < 24
      ∧ mi < 60 ∧ s < 60)) :
    Parse (fieldsStr Y M D h mi s) = none := by
  obtain ⟨cM, rM, eM, dM⟩ := fmtUint_head_digit M
  obtain ⟨ch, rh, eh, dh⟩ := fmtUint_head_digit h
  unfold fieldsStr
  generalize hR5 : fmtUint s = R5
  generalize hR4 : fmtUint mi ++ (Char.ofNat 58 :: R5) = R4
  generalize hR3 : fmtUint h ++ (Char.ofNat 58 :: R4) = R3
  generalize hR2 : fmtUint D ++ (Char.ofNat 32 :: R3) = R2
  generalize hR1 : fmtUint M ++ (Char.ofNat 45 :: R2) = R1
  -- the year
  by_cases hY0 : Y < 1000
  · obtain ⟨c, r, e, dc⟩ := fmtUint_head_digit Y
    have hl := fmtUint_length_le 2 Y (by simpa using hY0)
    have hds := fmtUint_digits Y
    rw [e] at hl hds
    have ht : ∃ t, (c :: r ++ Char.ofNat 45 :: R1).take 4 = c :: r ++ Char.ofNat 45 :: t := by
      simp only [List.length_cons] at hl
      match r, hl with
      | [], _ => exact ⟨_, rfl⟩
      | [_], _ => exact ⟨_, rfl⟩
      | [_, _], _ => exact ⟨_, rfl⟩
    obtain ⟨t, ht⟩ := ht
    have ha : atoi ((c :: r ++ Char.ofNat 45 :: R1).take 4) = none := by
      rw [ht]
      exact atoi_stop c r _ t dc (fun x hx => hds x (by simp [hx])) dash_not_digit
    rw [e]
    unfold Parse
    simp only [ha]
    simp
  by_cases hY1 : 10000 ≤ Y
  · have hl := fmtUint_length_ge 4 Y (by simpa using hY1)
    have hds := fmtUint_digits Y
    have hk : ∀ y : Option Int, (match y with
        | none => (none : Option Time)
        | some _ => none) = none := by intro y; cases y <;> rfl
    match hf : fmtUint Y, hl, hds with
    | a :: b :: c :: d :: e :: r, _, hds =>
      have hd : (a :: b :: c :: d :: e :: r ++ Char.ofNat 45 :: R1).drop 4
          = e :: (r ++ Char.ofNat 45 :: R1) := rfl
      have hsk : skip (e :: (r ++ Char.ofNat 45 :: R1)) "-".toList = none :=
        skip_sep_ne _ _ _ (by decide) (digit_ne_dash e (hds e (by simp)))
      unfold Parse
      simp only [hd, hsk]
      split
      · rfl
      · split <;> rfl
  have f4 := fmtUint_four Y (by omega) (by omega)
  have a1 : ¬ (fmtUint Y ++ Char.ofNat 45 :: R1).length < 4 := by rw [f4]; simp
  have a2 : isDigit (fmtUint Y ++ Char.ofNat 45 :: R1) 0 = true := by
    rw [f4]; exact (isDigit_zero_cons _ _).2 (digitChar_isDigit _ (by omega))
  have a3 : (fmtUint Y ++ Char.ofNat 45 :: R1).take 4 = fmtUint Y := by rw [f4]; rfl
  have a4 : (fmtUint Y ++ Char.ofNat 45 :: R1).drop 4 = Char.ofNat 45 :: R1 := by rw [f4]; rfl
  have a5 := atoi_four Y (by omega) (by omega)
  have a6 : skip (Char.ofNat 45 :: R1) "-".toList = some R1 := skip_sep _ _ (by decide)
  unfold Parse
  simp only [a1, a2, a3, a4, a5, a6, decide_False, Bool.not_true, Bool.or_self,
    Bool.false_eq_true, if_false]
  -- the month
  by_cases hM0 : 100 ≤ M
  · obtain ⟨x, c, r, hg, hc⟩ := getnum_fmtUint_big M (Char.ofNat 45 :: R2) hM0
    rw [hR1] at hg
    have hsk : skip (c :: r) "-".toList = none :=
      skip_sep_ne _ _ _ (by decide) (digit_ne_dash c hc)
    simp only [hg, hsk]
    simp
  have b1 : getnum R1 false = some ((M : Int), Char.ofNat 45 :: R2) := by
    rw [← hR1]; exact getnum_fmtUint M _ (by omega) (noDigitHead_sep _ _ dash_not_digit)
  have b2 : skip (Char.ofNat 45 :: R2) "-".toList = some R2 := skip_sep _ _ (by decide)
  simp only [b1, b2]
  by_cases hM1 : 1 ≤ M ∧ M ≤ 12
  swap
  · have hr : (M : Int) ≤ 0 ∨ 12 < (M : Int) := by omega
    simp only [hr, if_true]
  have hr : ¬ ((M : Int) ≤ 0 ∨ 12 < (M : Int)) := by omega
  simp only [hr, if_false]
  clear hr
  -- the day
  by_cases hD0 : 100 ≤ D
  · obtain ⟨x, c, r, hg, hc⟩ := getnum_fmtUint_big D (Char.ofNat 32 :: R3) hD0
    rw [hR2] at hg
    have hsk : skip (c :: r) " ".toList = none := skip_space_ne _ _ (digit_ne_space c hc)
    simp only [hg, hsk]
  have c1 : getnum R2 false = some ((D : Int), Char.ofNat 32 :: R3) := by
    rw [← hR2]; exact getnum_fmtUint D _ (by omega) (noDigitHead_sep _ _ space_not_digit)
  have c2 : skip (Char.ofNat 32 :: R3) " ".toList = some R3 := by
    refine skip_space _ ?_
    rw [← hR3, eh]
    intro c hc
    simp at hc
    subst hc
    exact digit_ne_space _ dh
  simp only [c1, c2]
  -- the hour
  by_cases hh0 : 100 ≤ h
  · obtain ⟨x, c, r, hg, hc⟩ := getnum_fmtUint_big h (Char.ofNat 58 :: R4) hh0
    rw [hR3] at hg
    have hsk : skip (c :: r) ":".toList = none :=
      skip_sep_ne _ _ _ (by decide) (digit_ne_colon c hc)
    simp only [hg, hsk]
    simp
  have d1 : getnum R3 false = some ((h : Int), Char.ofNat 58 :: R4) := by
    rw [← hR3]; exact getnum_fmtUint h _ (by omega) (noDigitHead_sep _ _ colon_not_digit)
  have d2 : skip (Char.ofNat 58 :: R4) ":".toList = some R4 := skip_sep _ _ (by decide)
  simp only [d1, d2]
  by_cases hh1 : h < 24
  swap
  · have hr : (h : Int) < 0 ∨ 24 ≤ (h : Int) := by omega
    simp only [hr, if_true]
  have hr : ¬ ((h : Int) < 0 ∨ 24 ≤ (h : Int)) := by omega
  simp only [hr, if_false]
  clear hr
  -- the minute
  by_cases hmi0 : 100 ≤ mi
  · obtain ⟨x, c, r, hg, hc⟩ := getnum_fmtUint_big mi (Char.ofNat 58 :: R5) hmi0
    rw [hR4] at hg
    have hsk : skip (c :: r) ":".toList = none :=
      skip_sep_ne _ _ _ (by decide) (digit_ne_colon c hc)
    simp only [hg, hsk]
    simp
  have e1 : getnum R4 false = some ((mi : Int), Char.ofNat 58 :: R5) := by
    rw [← hR4]; exact getnum_fmtUint mi _ (by omega) (noDigitHead_sep _ _ colon_not_digit)
  have e2 : skip (Char.ofNat 58 :: R5) ":".toList = some R5 := skip_sep _ _ (by decide)
  simp only [e1, e2]
  by_cases hmi1 : mi < 60
  swap
  · have hr : (mi : Int) < 0 ∨ 60 ≤ (mi : Int) := by omega
    simp only [hr, if_true]
  have hr : ¬ ((mi : Int) < 0 ∨ 60 ≤ (mi : Int)) := by omega
  simp only [hr, if_false]
  clear hr
  -- the second
  by_cases hs0 : 100 ≤ s
  · obtain ⟨x, c, r, hg, hc⟩ := getnum_fmtUint_big s [] hs0
    rw [List.append_nil, hR5] at hg
    have k1 : ¬ ((c :: r).headD (Char.ofNat 0)).toNat = 46 := by
      unfold isDigitChar at hc; simp; omega
    have k2 : ¬ ((c :: r).headD (Char.ofNat 0)).toNat = 44 := by
      unfold isDigitChar at hc; simp; omega
    simp only [hg, k1, k2]
    simp
  have g1 : getnum R5 false = some ((s : Int), []) := by
    have := getnum_fmtUint s [] (by omega) noDigitHead_nil
    rw [← hR5]; simpa using this
  simp only [g1]
  by_cases hs1 : s < 60
  swap
  · have hr : (s : Int) < 0 ∨ 60 ≤ (s : Int) := by omega
    simp only [hr, if_true]
  have hr : ¬ ((s : Int) < 0 ∨ 60 ≤ (s : Int)) := by omega
  simp only [hr, if_false]
  clear hr
  -- the day of the month
  simp
  intro hd1
  omega

theorem MaxUint_one (x : Nat) : MaxUint x 1 = defaulted x := by
  unfold MaxUint defaulted
  split <;> split <;> omega

theorem tStr_eq (sd : StatsDataPointRaw) :
    tStr sd = fieldsStr sd.Year (defaulted sd.Month) (defaulted sd.Day) sd.Hour sd.Minute
      sd.Second := by
  unfold tStr fieldsStr
  rw [MaxUint_one, MaxUint_one]
  simp only [List.append_assoc]
  rfl

theorem daysIn_monthLength (y m : Nat) (hm : 1 ≤ m ∧ m ≤ 12) :
    daysIn (m : Int) (y : Int) = (monthLength y m : Int) := by
  obtain ⟨v0, v1, v2, v3, v4, v5, v6, v7, v8, v9, v10, v11, v12⟩ := daysBefore_vals
  have hmc : m = 1 ∨ m = 2 ∨ m = 3 ∨ m = 4 ∨ m = 5 ∨ m = 6 ∨ m = 7 ∨ m = 8 ∨ m = 9 ∨ m = 10
      ∨ m = 11 ∨ m = 12 := by omega
  unfold daysIn monthLength
  rcases hmc with e | e | e | e | e | e | e | e | e | e | e | e <;> subst e <;>
    simp [v0, v1, v2, v3, v4, v5, v6, v7, v8, v9, v10, v11, v12, isLeap]
  split <;> split <;> first | rfl | omega

theorem defaulted_pos (x : Nat) : 1 ≤ defaulted x := by
  unfold defaulted; split <;> omega

theorem monthLength_le (y m : Nat) : monthLength y m ≤ 31 := by
  unfold monthLength; split <;> [split; split] <;> omega

theorem validKey_iff (sd : StatsDataPointRaw) :
    validKey sd ↔ ((1000 ≤ sd.Year ∧ sd.Year ≤ 9999)
      ∧ (1 ≤ defaulted sd.Month ∧ defaulted sd.Month ≤ 12)
      ∧ (1 ≤ defaulted sd.Day
        ∧ ((defaulted sd.Day : Nat) : Int) ≤ daysIn (defaulted sd.Month : Nat) (sd.Year : Nat))
      ∧ sd.Hour < 24 ∧ sd.Minute < 60 ∧ sd.Second < 60) := by
  have h1 := defaulted_pos sd.Month
  have h2 := defaulted_pos sd.Day
  unfold validKey validCalendar
  constructor
  · rintro ⟨hy, hm, hd, hh, hmi, hs⟩
    rw [daysIn_monthLength _ _ ⟨h1, hm⟩]
    exact ⟨hy, ⟨h1, hm⟩, ⟨h2, by exact_mod_cast hd⟩, by omega, by omega, by omega⟩
  · rintro ⟨hy, hm, hd, hh, hmi, hs⟩
    rw [daysIn_monthLength _ _ hm] at hd
    exact ⟨hy, hm.2, by exact_mod_cast hd.2, by omega, by omega, by omega⟩

theorem Parse_tStr_valid (sd : StatsDataPointRaw) (hv : validKey sd) :
    Parse (tStr sd) = some (keyTime sd) := by
  obtain ⟨hy, hm, hd, hh, hmi, hs⟩ := (validKey_iff sd).1 hv
  rw [tStr_eq]
  exact Parse_fields_valid _ _ _ _ _ _ hy hm hd hh hmi hs

theorem Parse_tStr_invalid (sd : StatsDataPointRaw) (hv : ¬ validKey sd) :
    Parse (tStr sd) = none := by
  rw [tStr_eq]
  exact Parse_fields_invalid _ _ _ _ _ _ (fun h => hv ((validKey_iff sd).2 h))

theorem dateToString_valid (sd : StatsDataPointRaw) (Z : Int) (mt : String) (hv : validKey sd) :
    dateToString sd Z mt = (formatLabel ((keyTime sd).Add (wrapInt64 (Hour * Z))) mt, none) := by
  unfold dateToString
  rw [Parse_tStr_valid sd hv]

theorem dateToString_invalid (sd : StatsDataPointRaw) (Z : Int) (mt : String)
    (hv : ¬ validKey sd) :
    dateToString sd Z mt = ("", some (NewError ErrBETimeConversion)) := by
  unfold dateToString
  rw [Parse_tStr_invalid sd hv]

theorem keyTime_eq (sd : StatsDataPointRaw) (hv : validKey sd) :
    keyTime sd = ⟨(daysSinceEpoch sd.Year + dayOfYear sd.Year (defaulted sd.Month)
      (defaulted sd.Day)) * 86400 + ((sd.Hour : Int) * 3600 + (sd.Minute : Int) * 60
        + (sd.Second : Int)), 0⟩ := by
  obtain ⟨hy, hm, hd, hh, hmi, hs⟩ := (validKey_iff sd).1 hv
  unfold keyTime
  exact Date_valid _ _ _ _ _ _ (by omega) (by omega) (by omega) (by omega)

theorem Add_hours (t : Time) (Z : Int) (hn : 0 ≤ t.nsec ∧ t.nsec < 1000000000)
    (hZ : -12 ≤ Z ∧ Z ≤ 12) :
    t.Add (wrapInt64 (Hour * Z)) = plusHours t Z := by
  have hw : wrapInt64 (Hour * Z) = 3600 * Z * 1000000000 := by
    unfold wrapInt64 Hour; omega
  rw [hw]
  unfold Time.Add plusHours
  rw [Int.mul_tdiv_cancel _ (by decide), Int.mul_tmod_left]
  simp only [add_zero]
  rw [if_neg (by omega), if_neg (by omega)]

theorem fmtUint_three_digits (n : Nat) (h0 : 100 ≤ n) (h : n < 1000) :
    fmtUint n = [digitChar (n / 100), digitChar (n / 10 % 10), digitChar (n % 10)] := by
  rw [fmtUint_ge n (by omega), fmtUint_two (n / 10) (by omega) (by omega)]
  simp only [Nat.div_div_eq_div_mul]
  rfl

theorem appendInt_two (x : Int) (h0 : 0 ≤ x) (h : x < 100) : appendInt x 2 = twoDigits x := by
  obtain ⟨n, rfl⟩ := Int.eq_ofNat_of_zero_le h0
  unfold appendInt twoDigits
  simp only [Int.natAbs_ofNat, Int.toNat_ofNat, show ¬ ((n : Int) < 0) by omega, if_false]
  by_cases h10 : n < 10
  · rw [fmtUint_lt n h10]
    simp [Nat.div_eq_of_lt h10, Nat.mod_eq_of_lt h10, List.replicate]
  · rw [fmtUint_two n (by omega) (by omega)]
    simp

theorem appendInt_four (y : Int) (h0 : 0 ≤ y) : appendInt y 4 = yearDigits y := by
  obtain ⟨n, rfl⟩ := Int.eq_ofNat_of_zero_le h0
  unfold appendInt yearDigits
  simp only [Int.natAbs_ofNat, Int.toNat_ofNat, show ¬ ((n : Int) < 0) by omega, if_false]
  by_cases h4 : n < 10000
  · rw [if_pos (by omega)]
    by_cases h1 : n < 10
    · rw [fmtUint_lt n h1]
      have e1 : n / 1000 = 0 := by omega
      have e2 : n / 100 % 10 = 0 := by omega
      have e3 : n / 10 % 10 = 0 := by omega
      have e4 : n % 10 = n := by omega
      simp [e1, e2, e3, e4, List.replicate]
    · by_cases h2 : n < 100
      · rw [fmtUint_two n (by omega) h2]
        have e1 : n / 1000 = 0 := by omega
        have e2 : n / 100 % 10 = 0 := by omega
        have e3 : n / 10 % 10 = n / 10 := by omega
        simp [e1, e2, e3, List.replicate]
      · by_cases h3 : n < 1000
        · rw [fmtUint_three_digits n (by omega) h3]
          have e1 : n / 1000 = 0 := by omega
          have e2 : n / 100 % 10 = n / 100 := by omega
          simp [e1, e2, List.replicate]
        · rw [fmtUint_four n (by omega) h4]
          simp
  · rw [if_neg (by omega)]
    have hl := fmtUint_length_ge 4 n (by norm_num; omega)
    have : 4 - (fmtUint n).length = 0 := by omega
    rw [this]
    simp

theorem Time_fields (t : Time) :
    validCivil t.Year t.Month t.Day t.Hour t.Minute t.Second
      ∧ Date t.Year t.Month t.Day t.Hour t.Minute t.Second 0 = ⟨t.sec, 0⟩ := by
  obtain ⟨hm, hd, hn⟩ := absDate_valid (t.sec / 86400)
  have hh : 0 ≤ t.Hour ∧ t.Hour ≤ 23 := by unfold Time.Hour; omega
  have hmi : 0 ≤ t.Minute ∧ t.Minute ≤ 59 := by unfold Time.Minute; omega
  have hs : 0 ≤ t.Second ∧ t.Second ≤ 59 := by unfold Time.Second; omega
  refine ⟨⟨hm, hd, hh, hmi, hs⟩, ?_⟩
  rw [Date_valid t.Year t.Month t.Day t.Hour t.Minute t.Second hm (by omega) (by omega)
    (by omega)]
  unfold Time.Year Time.Month Time.Day
  rw [hn]
  unfold Time.Hour Time.Minute Time.Second
  simp only [Time.mk.injEq, and_true]
  omega

theorem absDate_year (n : Int) : (absDate n).1 = (absYear n).1 := by
  unfold absDate
  simp only []
  split <;> rfl

theorem daysSinceEpoch_mono {y z : Int} (h : y ≤ z) : daysSinceEpoch y ≤ daysSinceEpoch z := by
  rcases lt_or_eq_of_le h with c | c
  · have := daysSinceEpoch_lt c
    have := yearLen_pos y
    omega
  · rw [c]

theorem year_of_range (n a b : Int) (h0 : daysSinceEpoch a ≤ n) (h1 : n < daysSinceEpoch (b + 1)) :
    a ≤ (absDate n).1 ∧ (absDate n).1 ≤ b := by
  rw [absDate_year]
  obtain ⟨e, k0, k1⟩ := absYear_spec n
  constructor
  · by_contra hc
    have := daysSinceEpoch_lt (not_le.1 hc)
    omega
  · by_contra hc
    have := daysSinceEpoch_mono (show b + 1 ≤ (absYear n).1 by omega)
    omega

theorem dayOfYear_range (y m d : Int) (hm : 1 ≤ m ∧ m ≤ 12) (hd : 1 ≤ d ∧ d ≤ daysIn m y) :
    0 ≤ dayOfYear y m d ∧ dayOfYear y m d < yearLen y := by
  obtain ⟨s0, s1, s2, s3, s4, s5⟩ := daysBefore_step m hm
  have hl0 := leapDay_range y
  rw [daysIn_eq m y hm] at hd
  rw [yearLen_eq, dayOfYear_eq]
  split at hd <;> split <;> omega

theorem shifted_year_range (sd : StatsDataPointRaw) (Z : Int) (hv : validKey sd)
    (hZ : -12 ≤ Z ∧ Z ≤ 12) :
    999 ≤ (plusHours (keyTime sd) Z).Year ∧ (plusHours (keyTime sd) Z).Year ≤ 10000 := by
  obtain ⟨hy, hm, hd, hh, hmi, hs⟩ := (validKey_iff sd).1 hv
  have hr := dayOfYear_range sd.Year (defaulted sd.Month) (defaulted sd.Day) (by omega)
    (by omega)
  rw [keyTime_eq sd hv]
  unfold plusHours Time.Year
  simp only
  have b0 : daysSinceEpoch 999 + 1 ≤ daysSinceEpoch sd.Year := by
    have := daysSinceEpoch_mono (show (1000 : Int) ≤ sd.Year by omega)
    have := daysSinceEpoch_succ 999
    have := yearLen_pos 999
    simp only [Int.reduceAdd] at *
    omega
  have b1 : daysSinceEpoch sd.Year + yearLen sd.Year + 1 ≤ daysSinceEpoch (10000 + 1) := by
    have h1 := daysSinceEpoch_mono (show (sd.Year : Int) + 1 ≤ 10000 by omega)
    have h2 := daysSinceEpoch_succ sd.Year
    have h3 := daysSinceEpoch_succ 10000
    have := yearLen_pos 10000
    omega
  apply year_of_range <;> omega

theorem keyTime_nsec (sd : StatsDataPointRaw) (hv : validKey sd) : (keyTime sd).nsec = 0 := by
  rw [keyTime_eq sd hv]

theorem dateToString_shift (sd : StatsDataPointRaw) (Z : Int) (mt : String) (hv : validKey sd)
    (hZ : -12 ≤ Z ∧ Z ≤ 12) :
    dateToString sd Z mt = (formatLabel (plusHours (keyTime sd) Z) mt, none) := by
  rw [dateToString_valid sd Z mt hv, Add_hours _ _ (by rw [keyTime_nsec sd hv]; omega) hZ]

theorem formatLabel_texts (t : Time) (hy : 0 ≤ t.Year) :
    formatLabel t second = secondText t.Year t.Month t.Day t.Hour t.Minute t.Second
    ∧ formatLabel t hour = hourText t.Year t.Month t.Day t.Hour
    ∧ formatLabel t day = dayText t.Year t.Month t.Day
    ∧ formatLabel t month = monthText t.Year t.Month
    ∧ formatLabel t year = yearText t.Year := by
  obtain ⟨⟨hm, hd, hh, hmi, hs⟩, _⟩ := Time_fields t
  have hd31 := daysIn_bound t.Month t.Year hm
  have e1 := appendInt_four t.Year hy
  have e2 := appendInt_two t.Month (by omega) (by omega)
  have e3 := appendInt_two t.Day (by omega) (by omega)
  have e4 := appendInt_two t.Hour (by omega) (by omega)
  have e5 := appendInt_two t.Minute (by omega) (by omega)
  have e6 := appendInt_two t.Second (by omega) (by omega)
  refine ⟨?_, ?_, ?_, ?_, ?_⟩
  · simp [formatLabel, second, formatSecond, secondText, e1, e2, e3, e4, e5, e6]
  · simp only [formatLabel, second, hour, formatHour, hourText, e1, e2, e3, e4]
    rw [if_pos trivial]
    apply String.ext
    simp [twoDigits]
  · simp [formatLabel, second, hour, day, formatDay, dayText, e1, e2, e3]
  · simp [formatLabel, second, hour, day, month, formatMonth, monthText, e1, e2]
  · simp [formatLabel, second, hour, day, month, year, formatYear, yearText, e1]

/-- C1: for a valid bucket key (four-digit year) and an offset of -12 to 12
hours, `dateToString` with interval type `hour` returns no error and the text
`YYYY-MM-DD HH:00 - HH:59`, where year, month, day and hour are the zero-padded
calendar fields of the key's instant plus the offset (the date and time of day
that `Date` maps back to that instant) and both `HH` are that same hour.  The
year is padded to four digits; only a key of the last hours of 9999 moved by a
positive offset reaches year 10000, which takes its five digits. -/
theorem C1_hour_label (sd : StatsDataPointRaw) (Z : Int) (hv : validKey sd)
    (hZ : -12 ≤ Z ∧ Z ≤ 12) :
    dateToString sd Z hour
        = (hourText (plusHours (keyTime sd) Z).Year (plusHours (keyTime sd) Z).Month
            (plusHours (keyTime sd) Z).Day (plusHours (keyTime sd) Z).Hour, none)
    ∧ validCivil (plusHours (keyTime sd) Z).Year (plusHours (keyTime sd) Z).Month
        (plusHours (keyTime sd) Z).Day (plusHours (keyTime sd) Z).Hour
        (plusHours (keyTime sd) Z).Minute (plusHours (keyTime sd) Z).Second
    ∧ Date (plusHours (keyTime sd) Z).Year (plusHours (keyTime sd) Z).Month
        (plusHours (keyTime sd) Z).Day (plusHours (keyTime sd) Z).Hour
        (plusHours (keyTime sd) Z).Minute (plusHours (keyTime sd) Z).Second 0
      = plusHours (keyTime sd) Z := by
  have hy := shifted_year_range sd Z hv hZ
  obtain ⟨hc, hD⟩ := Time_fields (plusHours (keyTime sd) Z)
  refine ⟨?_, hc, ?_⟩
  · rw [dateToString_shift sd Z hour hv hZ, (formatLabel_texts _ (by omega)).2.1]
  · rw [hD]
    unfold plusHours
    rw [keyTime_nsec sd hv]

/-- The key of the example and offset 0 satisfy the hypotheses of C1, and the
label is `2023-06-01 10:00 - 10:59`. -/
theorem C1_hour_label_witness :
    validKey { Year := 2023, Month := 6, Day := 1, Hour := 10 }
    ∧ (-12 ≤ (0 : Int) ∧ (0 : Int) ≤ 12)
    ∧ dateToString { Year := 2023, Month := 6, Day := 1, Hour := 10 } 0 hour
        = ("2023-06-01 10:00 - 10:59", none) :=
  ⟨by decide, by decide,
    (C1_hour_label { Year := 2023, Month := 6, Day := 1, Hour := 10 } 0 (by decide)
      (by decide)).1.trans (by decide)⟩

/-- C2: for a valid bucket key (four-digit year) and an offset of -12 to 12
hours, `dateToString` returns no error and renders the calendar fields of the
key's instant plus the offset, zero-padded, as `YYYY-MM-DD HH:MM:SS` for
`second`, `YYYY-MM-DD` for `day`, `YYYY-MM` for `month` and `YYYY` for `year`
(the year padded to four digits, and the five digits of 10000 when a positive
offset moves a key of the last hours of 9999 there). -/
theorem C2_other_labels (sd : StatsDataPointRaw) (Z : Int) (hv : validKey sd)
    (hZ : -12 ≤ Z ∧ Z ≤ 12) :
    dateToString sd Z second
        = (secondText (plusHours (keyTime sd) Z).Year (plusHours (keyTime sd) Z).Month
            (plusHours (keyTime sd) Z).Day (plusHours (keyTime sd) Z).Hour
            (plusHours (keyTime sd) Z).Minute (plusHours (keyTime sd) Z).Second, none)
    ∧ dateToString sd Z day
        = (dayText (plusHours (keyTime sd) Z).Year (plusHours (keyTime sd) Z).Month
            (plusHours (keyTime sd) Z).Day, none)
    ∧ dateToString sd Z month
        = (monthText (plusHours (keyTime sd) Z).Year (plusHours (keyTime sd) Z).Month, none)
    ∧ dateToString sd Z year = (yearText (plusHours (keyTime sd) Z).Year, none)
    ∧ validCivil (plusHours (keyTime sd) Z).Year (plusHours (keyTime sd) Z).Month
        (plusHours (keyTime sd) Z).Day (plusHours (keyTime sd) Z).Hour
        (plusHours (keyTime sd) Z).Minute (plusHours (keyTime sd) Z).Second
    ∧ Date (plusHours (keyTime sd) Z).Year (plusHours (keyTime sd) Z).Month
        (plusHours (keyTime sd) Z).Day (plusHours (keyTime sd) Z).Hour
        (plusHours (keyTime sd) Z).Minute (plusHours (keyTime sd) Z).Second 0
      = plusHours (keyTime sd) Z := by
  have hy := shifted_year_range sd Z hv hZ
  obtain ⟨hc, hD⟩ := Time_fields (plusHours (keyTime sd) Z)
  obtain ⟨f1, _, f3, f4, f5⟩ := formatLabel_texts (plusHours (keyTime sd) Z) (by omega)
  refine ⟨?_, ?_, ?_, ?_, hc, ?_⟩
  · rw [dateToString_shift sd Z second hv hZ, f1]
  · rw [dateToString_shift sd Z day hv hZ, f3]
  · rw [dateToString_shift sd Z month hv hZ, f4]
  · rw [dateToString_shift sd Z year hv hZ, f5]
  · rw [hD]
    unfold plusHours
    rw [keyTime_nsec sd hv]

/-- A key with all six fields and offset -12 satisfy the hypotheses of C2; the
four labels are those of 2023-05-31 22:07:09. -/
theorem C2_other_labels_witness :
    validKey { Year := 2023, Month := 6, Day := 1, Hour := 10, Minute := 7, Second := 9 }
    ∧ (-12 ≤ (-12 : Int) ∧ (-12 : Int) ≤ 12)
    ∧ dateToString { Year := 2023, Month := 6, Day := 1, Hour := 10, Minute := 7, Second := 9 }
        (-12) second = ("2023-05-31 22:07:09", none)
    ∧ dateToString { Year := 2023, Month := 6, Day := 1, Hour := 10, Minute := 7, Second := 9 }
        (-12) day = ("2023-05-31", none)
    ∧ dateToString { Year := 2023, Month := 6, Day := 1, Hour := 10, Minute := 7, Second := 9 }
        (-12) month = ("2023-05", none)
    ∧ dateToString { Year := 2023, Month := 6, Day := 1, Hour := 10, Minute := 7, Second := 9 }
        (-12) year = ("2023", none) :=
  ⟨by decide, by decide,
    (C2_other_labels { Year := 2023, Month := 6, Day := 1, Hour := 10, Minute := 7, Second := 9 }
      (-12) (by decide) (by decide)).1.trans (by decide),
    by decide, by decide, by decide⟩

/-- C3: `dateToString` defaults the calendar fields a coarser granularity
omits: for every year, offset and interval type a key whose month and/or day
is absent (zero) is rendered exactly like the key with month 1 and/or day 1
(`MaxUint x 1` is 1 for an absent field and `x` otherwise), absent hour, minute
and second are 0, and the year-only key renders like year, 1, 1, 0, 0, 0. -/
theorem C3_defaults (sd : StatsDataPointRaw) (Y : Nat) (Z : Int) (mt : String) :
    dateToString { sd with Month := 0 } Z mt = dateToString { sd with Month := 1 } Z mt
    ∧ dateToString { sd with Day := 0 } Z mt = dateToString { sd with Day := 1 } Z mt
    ∧ dateToString { sd with Month := 0, Day := 0 } Z mt
        = dateToString { sd with Month := 1, Day := 1 } Z mt
    ∧ dateToString { Year := Y } Z mt
        = dateToString { Year := Y, Month := 1, Day := 1, Hour := 0, Minute := 0, Second := 0 }
            Z mt
    ∧ (∀ x : Nat, MaxUint x 1 = if x = 0 then 1 else x)
    ∧ tStr sd = fmtUint sd.Year ++ "-".toList ++ fmtUint (if sd.Month = 0 then 1 else sd.Month)
        ++ "-".toList ++ fmtUint (if sd.Day = 0 then 1 else sd.Day) ++ " ".toList
        ++ fmtUint sd.Hour ++ ":".toList ++ fmtUint sd.Minute ++ ":".toList
        ++ fmtUint sd.Second := by
  have hM : ∀ x : Nat, MaxUint x 1 = if x = 0 then 1 else x := fun x => MaxUint_one x
  refine ⟨?_, ?_, ?_, ?_, hM, ?_⟩
  · simp [dateToString, tStr, hM]
  · simp [dateToString, tStr, hM]
  · simp [dateToString, tStr, hM]
  · simp [dateToString, tStr, hM]
  · simp only [tStr, hM]

/-- C4: a bucket key whose defaulted fields are not a valid calendar instant
(month above 12, day above the number of days of that month in that year, hour
above 23, minute or second above 59) makes `dateToString` fail with
`ErrBETimeConversion` and the empty label, for every offset and interval type;
nothing is wrapped into a later date. -/
theorem C4_invalid_fails (sd : StatsDataPointRaw) (Z : Int) (mt : String)
    (h : defaulted sd.Month > 12 ∨ defaulted sd.Day > monthLength sd.Year (defaulted sd.Month)
      ∨ sd.Hour > 23 ∨ sd.Minute > 59 ∨ sd.Second > 59) :
    dateToString sd Z mt = ("", some (NewError ErrBETimeConversion)) := by
  apply dateToString_invalid
  unfold validKey validCalendar
  omega

/-- The key 30 February 2023 satisfies the hypothesis of C4 (and so does
29 February of that non-leap year): the conversion fails where `Date` would
have wrapped to 2 March. -/
theorem C4_invalid_fails_witness :
    (defaulted 2 > 12 ∨ defaulted 30 > monthLength 2023 (defaulted 2)
      ∨ 0 > 23 ∨ 0 > 59 ∨ 0 > 59)
    ∧ dateToString { Year := 2023, Month := 2, Day := 30 } 0 day
        = ("", some (NewError ErrBETimeConversion))
    ∧ dateToString { Year := 2023, Month := 2, Day := 29 } 0 day
        = ("", some (NewError ErrBETimeConversion))
    ∧ (Date 2023 2 30 0 0 0 0).Month = 3 ∧ (Date 2023 2 30 0 0 0 0).Day = 2 :=
  ⟨by decide,
    C4_invalid_fails { Year := 2023, Month := 2, Day := 30 } 0 day (by decide),
    C4_invalid_fails { Year := 2023, Month := 2, Day := 29 } 0 day (by decide),
    by decide, by decide⟩

theorem correctForTimezone_eq (t : Time) (Z : Int) (hn : 0 ≤ t.nsec ∧ t.nsec < 1000000000)
    (hZ : -12 ≤ Z ∧ Z ≤ 12) : correctForTimezone t Z = plusHours t (-Z) := by
  unfold correctForTimezone
  have hw : wrapInt64 (-Z) = -Z := by unfold wrapInt64; omega
  rw [hw, Add_hours t (-Z) hn (by omega)]

theorem defaulted_of_pos (x : Nat) (h : 1 ≤ x) : defaulted x = x := by
  unfold defaulted; rw [if_neg (by omega)]

/-- A key that holds year, month and day of `c` and a time of day. -/
theorem civilKey_valid (c : Time) (h mi s : Int) (hy : 1000 ≤ c.Year ∧ c.Year ≤ 9999)
    (hh : 0 ≤ h ∧ h ≤ 23) (hmi : 0 ≤ mi ∧ mi ≤ 59) (hs : 0 ≤ s ∧ s ≤ 59) :
    validKey ⟨c.Year.toNat, c.Month.toNat, c.Day.toNat, h.toNat, mi.toNat, s.toNat, 0, 0, 0⟩
    ∧ keyTime ⟨c.Year.toNat, c.Month.toNat, c.Day.toNat, h.toNat, mi.toNat, s.toNat, 0, 0, 0⟩
      = ⟨c.sec / 86400 * 86400 + (h * 3600 + mi * 60 + s), 0⟩ := by
  obtain ⟨⟨hm, hd, _, _, _⟩, _⟩ := Time_fields c
  obtain ⟨_, _, hn⟩ := absDate_valid (c.sec / 86400)
  have hd31 := daysIn_bound c.Month c.Year hm
  have e1 : ((c.Year.toNat : Nat) : Int) = c.Year := Int.toNat_of_nonneg (by omega)
  have e2 : ((c.Month.toNat : Nat) : Int) = c.Month := Int.toNat_of_nonneg (by omega)
  have e3 : ((c.Day.toNat : Nat) : Int) = c.Day := Int.toNat_of_nonneg (by omega)
  have e4 : ((h.toNat : Nat) : Int) = h := Int.toNat_of_nonneg (by omega)
  have e5 : ((mi.toNat : Nat) : Int) = mi := Int.toNat_of_nonneg (by omega)
  have e6 : ((s.toNat : Nat) : Int) = s := Int.toNat_of_nonneg (by omega)
  have d1 : defaulted c.Month.toNat = c.Month.toNat := defaulted_of_pos _ (by omega)
  have d2 : defaulted c.Day.toNat = c.Day.toNat := defaulted_of_pos _ (by omega)
  have hv : validKey ⟨c.Year.toNat, c.Month.toNat, c.Day.toNat, h.toNat, mi.toNat, s.toNat, 0, 0, 0⟩ := by
    rw [validKey_iff]
    simp only [d1, d2, e1, e2, e3]
    omega
  refine ⟨hv, ?_⟩
  rw [keyTime_eq _ hv]
  simp only [d1, d2, e1, e2, e3, e4, e5, e6]
  unfold Time.Year Time.Month Time.Day
  rw [hn]

theorem timeKey_valid (c : Time) (hy : 1000 ≤ c.Year ∧ c.Year ≤ 9999) :
    validKey (timeKey c) ∧ keyTime (timeKey c) = ⟨c.sec, 0⟩ := by
  obtain ⟨⟨_, _, hh, hmi, hs⟩, _⟩ := Time_fields c
  obtain ⟨hv, hk⟩ := civilKey_valid c c.Hour c.Minute c.Second hy hh hmi hs
  refine ⟨hv, ?_⟩
  unfold timeKey
  rw [hk]
  unfold Time.Hour Time.Minute Time.Second
  simp only [Time.mk.injEq, and_true]
  omega

/-- C7, as the code has it: for a whole-second instant `t` and an offset `Z`
of -12 to 12 hours such that the corrected instant `t - Z` hours lies in a year
from 1000 to 9999, the UTC fields of the corrected instant rendered by
`dateToString` with offset `Z` at second granularity give exactly the text
`YYYY-MM-DD HH:MM:SS` of `t`, without error. -/
theorem C7_timezone_round_trip (t : Time) (Z : Int) (hn : t.nsec = 0) (hZ : -12 ≤ Z ∧ Z ≤ 12)
    (hy : 1000 ≤ (correctForTimezone t Z).Year ∧ (correctForTimezone t Z).Year ≤ 9999) :
    dateToString (timeKey (correctForTimezone t Z)) Z second
      = (secondText t.Year t.Month t.Day t.Hour t.Minute t.Second, none) := by
  rw [correctForTimezone_eq t Z (by omega) hZ] at hy ⊢
  obtain ⟨hv, hk⟩ := timeKey_valid _ hy
  have hyr := shifted_year_range _ Z hv hZ
  rw [dateToString_shift _ Z second hv hZ]
  have ht : plusHours (keyTime (timeKey (plusHours t (-Z)))) Z = t := by
    rw [hk]
    unfold plusHours
    cases t with
    | mk sec nsec =>
      simp only at hn
      subst hn
      simp only [Time.mk.injEq, and_true]
      omega
  rw [ht] at hyr ⊢
  rw [(formatLabel_texts t (by omega)).1]

/-- The instant 2023-06-01T10:15:00Z and offset -5 satisfy the hypotheses of
C7; the window bound renders back as `2023-06-01 10:15:00`. -/
theorem C7_timezone_round_trip_witness :
    (Date 2023 6 1 10 15 0 0).nsec = 0 ∧ (-12 ≤ (-5 : Int) ∧ (-5 : Int) ≤ 12)
    ∧ (1000 ≤ (correctForTimezone (Date 2023 6 1 10 15 0 0) (-5)).Year
      ∧ (correctForTimezone (Date 2023 6 1 10 15 0 0) (-5)).Year ≤ 9999)
    ∧ dateToString (timeKey (correctForTimezone (Date 2023 6 1 10 15 0 0) (-5))) (-5) second
      = ("2023-06-01 10:15:00", none) :=
  ⟨by decide, by decide, by decide,
    (C7_timezone_round_trip (Date 2023 6 1 10 15 0 0) (-5) (by decide) (by decide)
      (by decide)).trans (by decide)⟩

/-- C7 fails as stated: the whole-second instant 0999-06-01T00:00:00Z with
offset 0 decomposes into a key with the three-digit year 999, on which
`dateToString` fails instead of rendering `0999-06-01 00:00:00`. -/
theorem C7_counterexample :
    (Date 999 6 1 0 0 0 0).nsec = 0
    ∧ dateToString (timeKey (correctForTimezone (Date 999 6 1 0 0 0 0) 0)) 0 second
      = ("", some (NewError ErrBETimeConversion))
    ∧ secondText (Date 999 6 1 0 0 0 0).Year (Date 999 6 1 0 0 0 0).Month
        (Date 999 6 1 0 0 0 0).Day (Date 999 6 1 0 0 0 0).Hour (Date 999 6 1 0 0 0 0).Minute
        (Date 999 6 1 0 0 0 0).Second = "0999-06-01 00:00:00"
    ∧ dateToString (timeKey (correctForTimezone (Date 999 6 1 0 0 0 0) 0)) 0 second
      ≠ (secondText (Date 999 6 1 0 0 0 0).Year (Date 999 6 1 0 0 0 0).Month
        (Date 999 6 1 0 0 0 0).Day (Date 999 6 1 0 0 0 0).Hour (Date 999 6 1 0 0 0 0).Minute
        (Date 999 6 1 0 0 0 0).Second, none) := by
  decide

theorem groupKey_cases (u : Time) :
    groupKey hour u = ⟨u.Year.toNat, u.Month.toNat, u.Day.toNat, u.Hour.toNat, 0, 0, 0, 0, 0⟩
    ∧ groupKey day u = ⟨u.Year.toNat, u.Month.toNat, u.Day.toNat, 0, 0, 0, 0, 0, 0⟩
    ∧ groupKey month u = ⟨u.Year.toNat, u.Month.toNat, 0, 0, 0, 0, 0, 0, 0⟩
    ∧ groupKey year u = ⟨u.Year.toNat, 0, 0, 0, 0, 0, 0, 0, 0⟩ := by
  refine ⟨?_, ?_, ?_, ?_⟩ <;> simp [groupKey, hour, day, month, year]

/-- A key that holds a year, a month and no day. -/
theorem monthKey_valid (Y m : Int) (k : Nat) (hy : 1000 ≤ Y ∧ Y ≤ 9999)
    (hm : 1 ≤ m ∧ m ≤ 12) (hk : defaulted k = m.toNat) :
    validKey ⟨Y.toNat, k, 0, 0, 0, 0, 0, 0, 0⟩
    ∧ (keyTime ⟨Y.toNat, k, 0, 0, 0, 0, 0, 0, 0⟩).Year = Y
    ∧ (keyTime ⟨Y.toNat, k, 0, 0, 0, 0, 0, 0, 0⟩).Month = m
    ∧ (keyTime ⟨Y.toNat, k, 0, 0, 0, 0, 0, 0, 0⟩).nsec = 0 := by
  have hd31 := daysIn_bound m Y hm
  have e1 : ((Y.toNat : Nat) : Int) = Y := Int.toNat_of_nonneg (by omega)
  have e2 : ((m.toNat : Nat) : Int) = m := Int.toNat_of_nonneg (by omega)
  have d2 : defaulted 0 = 1 := rfl
  have hv : validKey ⟨Y.toNat, k, 0, 0, 0, 0, 0, 0, 0⟩ := by
    rw [validKey_iff]
    simp only [hk, d2, e1, e2]
    simp only [Nat.cast_one]
    omega
  have hk2 := keyTime_eq _ hv
  simp only [hk, d2, e1, e2, Nat.cast_one, Nat.cast_zero] at hk2
  have ha := absDate_dayOfYear Y m 1 hm (by omega)
  have hq : ((daysSinceEpoch Y + dayOfYear Y m 1) * 86400 + (0 * 3600 + 0 * 60 + 0))
      / 86400 = daysSinceEpoch Y + dayOfYear Y m 1 := by omega
  refine ⟨hv, ?_, ?_, ?_⟩
  · rw [hk2]
    unfold Time.Year
    simp only
    rw [hq, ha]
  · rw [hk2]
    unfold Time.Month
    simp only
    rw [hq, ha]
  · rw [hk2]

theorem formatLabel_congr (a b : Time) (hy : 0 ≤ a.Year) :
    (a.sec / 3600 = b.sec / 3600 → formatLabel a hour = formatLabel b hour)
    ∧ (a.sec / 86400 = b.sec / 86400 → formatLabel a day = formatLabel b day)
    ∧ (a.Year = b.Year → a.Month = b.Month → formatLabel a month = formatLabel b month)
    ∧ (a.Year = b.Year → formatLabel a year = formatLabel b year) := by
  refine ⟨?_, ?_, ?_, ?_⟩
  · intro h
    have e1 : a.sec / 86400 = b.sec / 86400 := by omega
    have e2 : a.Hour = b.Hour := by unfold Time.Hour; omega
    have e3 : a.Year = b.Year := by unfold Time.Year; rw [e1]
    have e4 : a.Month = b.Month := by unfold Time.Month; rw [e1]
    have e5 : a.Day = b.Day := by unfold Time.Day; rw [e1]
    rw [(formatLabel_texts a hy).2.1, (formatLabel_texts b (by omega)).2.1, e2, e3, e4, e5]
  · intro e1
    have e3 : a.Year = b.Year := by unfold Time.Year; rw [e1]
    have e4 : a.Month = b.Month := by unfold Time.Month; rw [e1]
    have e5 : a.Day = b.Day := by unfold Time.Day; rw [e1]
    rw [(formatLabel_texts a hy).2.2.1, (formatLabel_texts b (by omega)).2.2.1, e3, e4, e5]
  · intro e3 e4
    rw [(formatLabel_texts a hy).2.2.2.1, (formatLabel_texts b (by omega)).2.2.2.1, e3, e4]
  · intro e3
    rw [(formatLabel_texts a hy).2.2.2.2, (formatLabel_texts b (by omega)).2.2.2.2, e3]

/-- For an event instant `u` whose UTC year is from 1000 to 9999 and an
offset `Z` of -12 to 12 hours, the label `dateToString` renders with offset
`Z` for the hour bucket key of `u` is the hour label of the viewer-local
instant `u + Z` hours; for the interval types day, month and year the label
of the bucket key of `u` is the label of `u` when the offset is 0. -/
theorem bucket_label_local (u : Time) (Z : Int) (hZ : -12 ≤ Z ∧ Z ≤ 12)
    (hy : 1000 ≤ u.Year ∧ u.Year ≤ 9999) :
    dateToString (groupKey hour u) Z hour
        = (hourText (plusHours u Z).Year (plusHours u Z).Month (plusHours u Z).Day
            (plusHours u Z).Hour, none)
    ∧ dateToString (groupKey day u) 0 day = (dayText u.Year u.Month u.Day, none)
    ∧ dateToString (groupKey month u) 0 month = (monthText u.Year u.Month, none)
    ∧ dateToString (groupKey year u) 0 year = (yearText u.Year, none) := by
  obtain ⟨g1, g2, g3, g4⟩ := groupKey_cases u
  obtain ⟨⟨hm, hd, hh, hmi, hs⟩, _⟩ := Time_fields u
  have h0 : -12 ≤ (0 : Int) ∧ (0 : Int) ≤ 12 := by omega
  refine ⟨?_, ?_, ?_, ?_⟩
  · obtain ⟨hv, hk⟩ := civilKey_valid u u.Hour 0 0 hy hh (by omega) (by omega)
    simp only [Int.toNat_zero] at hv hk
    have hyr := shifted_year_range _ Z hv hZ
    rw [g1, dateToString_shift _ Z hour hv hZ]
    rw [(formatLabel_congr _ (plusHours u Z) (by omega)).1 ?_]
    · have hyr2 : (plusHours ⟨u.sec / 86400 * 86400 + (u.Hour * 3600 + 0 * 60 + 0), 0⟩ Z).Year
          = (plusHours u Z).Year := by
        unfold plusHours Time.Year Time.Hour
        simp only
        rw [show (u.sec / 86400 * 86400 + (u.sec % 86400 / 3600 * 3600 + 0 * 60 + 0) + 3600 * Z)
          / 86400 = (u.sec + 3600 * Z) / 86400 by omega]
      rw [hk, hyr2] at hyr
      rw [(formatLabel_texts _ (by omega)).2.1]
    · rw [hk]
      unfold plusHours Time.Hour
      simp only
      omega
  · obtain ⟨hv, hk⟩ := civilKey_valid u 0 0 0 hy (by omega) (by omega) (by omega)
    simp only [Int.toNat_zero] at hv hk
    have hyr := shifted_year_range _ 0 hv h0
    rw [g2, dateToString_shift _ 0 day hv h0]
    rw [(formatLabel_congr _ u (by omega)).2.1 ?_]
    · rw [(formatLabel_texts _ (by omega)).2.2.1]
    · rw [hk]
      unfold plusHours
      simp only
      omega
  · obtain ⟨hv, k1, k2, k3⟩ := monthKey_valid u.Year u.Month u.Month.toNat hy hm
      (defaulted_of_pos _ (by omega))
    have hyr := shifted_year_range _ 0 hv h0
    have hp : plusHours (keyTime ⟨u.Year.toNat, u.Month.toNat, 0, 0, 0, 0, 0, 0, 0⟩) 0
        = keyTime ⟨u.Year.toNat, u.Month.toNat, 0, 0, 0, 0, 0, 0, 0⟩ := by
      unfold plusHours; simp
    rw [g3, dateToString_shift _ 0 month hv h0, hp]
    rw [(formatLabel_congr _ u (by omega)).2.2.1 k1 k2]
    rw [(formatLabel_texts _ (by omega)).2.2.2.1]
  · obtain ⟨hv, k1, k2, k3⟩ := monthKey_valid u.Year 1 0 hy (by omega) rfl
    have hp : plusHours (keyTime ⟨u.Year.toNat, 0, 0, 0, 0, 0, 0, 0, 0⟩) 0
        = keyTime ⟨u.Year.toNat, 0, 0, 0, 0, 0, 0, 0, 0⟩ := by
      unfold plusHours; simp
    rw [g4, dateToString_shift _ 0 year hv h0, hp]
    rw [(formatLabel_congr _ u (by omega)).2.2.2 k1]
    rw [(formatLabel_texts _ (by omega)).2.2.2.2]

theorem daysBefore_mono (a : Int) (k : Nat) (h0 : 0 ≤ a) (h1 : a + k ≤ 12) :
    daysBefore a ≤ daysBefore (a + k) := by
  induction k with
  | zero => simp
  | succ k ih =>
    have := ih (by push_cast at h1; omega)
    obtain ⟨_, s1, _⟩ := daysBefore_step (a + k + 1) (by push_cast at h1; omega)
    simp only [add_sub_cancel_right] at s1
    push_cast
    rw [← add_assoc]
    omega

theorem dayNumber_mono (y1 m1 d1 y2 m2 d2 : Int) (hm1 : 1 ≤ m1 ∧ m1 ≤ 12)
    (hd1 : 1 ≤ d1 ∧ d1 ≤ daysIn m1 y1) (hm2 : 1 ≤ m2 ∧ m2 ≤ 12)
    (hd2 : 1 ≤ d2 ∧ d2 ≤ daysIn m2 y2)
    (h : y1 < y2 ∨ (y1 = y2 ∧ (m1 < m2 ∨ (m1 = m2 ∧ d1 ≤ d2)))) :
    daysSinceEpoch y1 + dayOfYear y1 m1 d1 ≤ daysSinceEpoch y2 + dayOfYear y2 m2 d2 := by
  have r1 := dayOfYear_range y1 m1 d1 hm1 hd1
  have r2 := dayOfYear_range y2 m2 d2 hm2 hd2
  rcases h with h | ⟨rfl, h⟩
  · have := daysSinceEpoch_lt h
    omega
  · rcases h with h | ⟨rfl, h⟩
    · have hl := leapDay_range y1
      obtain ⟨k, hk⟩ : ∃ k : Nat, m2 - 1 = m1 + k := ⟨(m2 - 1 - m1).toNat, by omega⟩
      have hmono := daysBefore_mono m1 k (by omega) (by omega)
      rw [← hk] at hmono
      rw [daysIn_eq m1 y1 hm1] at hd1
      rw [dayOfYear_eq, dayOfYear_eq]
      split at hd1 <;> split <;> split <;> omega
    · rw [dayOfYear_eq, dayOfYear_eq]
      omega

/-- The calendar fields of two instants in order are in lexicographic order. -/
theorem fields_mono (a b : Time) (h : a.sec ≤ b.sec) :
    a.Year < b.Year ∨ (a.Year = b.Year ∧ (a.Month < b.Month ∨ (a.Month = b.Month ∧
      (a.Day < b.Day ∨ (a.Day = b.Day ∧ (a.Hour < b.Hour ∨ (a.Hour = b.Hour ∧
        (a.Minute < b.Minute ∨ (a.Minute = b.Minute ∧ a.Second ≤ b.Second))))))))) := by
  by_cases hn : a.sec / 86400 = b.sec / 86400
  · have e1 : a.Year = b.Year := by unfold Time.Year; rw [hn]
    have e2 : a.Month = b.Month := by unfold Time.Month; rw [hn]
    have e3 : a.Day = b.Day := by unfold Time.Day; rw [hn]
    refine Or.inr ⟨e1, Or.inr ⟨e2, Or.inr ⟨e3, ?_⟩⟩⟩
    unfold Time.Hour Time.Minute Time.Second
    omega
  · have hlt : a.sec / 86400 < b.sec / 86400 := by omega
    obtain ⟨am, ad, an⟩ := absDate_valid (a.sec / 86400)
    obtain ⟨bm, bd, bn⟩ := absDate_valid (b.sec / 86400)
    by_contra hc
    have hrev : b.Year < a.Year ∨ (b.Year = a.Year ∧ (b.Month < a.Month ∨ (b.Month = a.Month ∧
        b.Day ≤ a.Day))) := by
      unfold Time.Year Time.Month Time.Day at hc ⊢
      omega
    have := dayNumber_mono _ _ _ _ _ _ bm bd am ad hrev
    omega

theorem lexLt_irrefl (x : List Char) : lexLt x x = false := by
  induction x with
  | nil => rfl
  | cons a x ih => simp [lexLt, ih]

theorem lexLt_cons_same (c : Char) (x y : List Char) (h : lexLt y x = false) :
    lexLt (c :: y) (c :: x) = false := by
  simp [lexLt, h]

theorem lexLt_append_same (p x y : List Char) (h : lexLt y x = false) :
    lexLt (p ++ y) (p ++ x) = false := by
  induction p with
  | nil => exact h
  | cons c p ih => exact lexLt_cons_same c _ _ ih

theorem lexLt_append_lt (a b x y : List Char) (hlen : a.length = b.length)
    (h : lexLt a b = true) : lexLt (b ++ y) (a ++ x) = false := by
  induction a generalizing b with
  | nil =>
    cases b with
    | nil => simp [lexLt] at h
    | cons _ _ => simp at hlen
  | cons c a ih =>
    cases b with
    | nil => simp at hlen
    | cons e b =>
      simp only [List.length_cons, Nat.add_right_cancel_iff] at hlen
      simp only [lexLt, Bool.or_eq_true, decide_eq_true_eq, Bool.and_eq_true, beq_iff_eq] at h
      simp only [List.cons_append, lexLt, Bool.or_eq_false_iff, decide_eq_false_iff_not,
        Bool.and_eq_false_imp, beq_iff_eq]
      rcases h with h | ⟨h1, h2⟩
      · exact ⟨by omega, fun he => by omega⟩
      · exact ⟨by omega, fun _ => ih b hlen h2⟩

/-- The step of a lexicographic comparison on a block of fixed width. -/
theorem block_le (a b x y : List Char) (hlen : a.length = b.length)
    (h : lexLt a b = true ∨ (a = b ∧ lexLt y x = false)) :
    lexLt (b ++ y) (a ++ x) = false := by
  rcases h with h | ⟨rfl, h⟩
  · exact lexLt_append_lt a b x y hlen h
  · exact lexLt_append_same a x y h

theorem twoDigits_lt (a b : Int) (h0 : 0 ≤ a) (h : a < b) (h1 : b < 100) :
    lexLt (twoDigits a) (twoDigits b) = true := by
  obtain ⟨n, rfl⟩ := Int.eq_ofNat_of_zero_le h0
  obtain ⟨m, rfl⟩ := Int.eq_ofNat_of_zero_le (show 0 ≤ b by omega)
  unfold twoDigits
  simp only [Int.toNat_ofNat, lexLt, digitChar_toNat (n / 10) (by omega),
    digitChar_toNat (n % 10) (by omega), digitChar_toNat (m / 10) (by omega),
    digitChar_toNat (m % 10) (by omega)]
  simp
  omega

theorem yearDigits_lt (a b : Int) (h0 : 0 ≤ a) (h : a < b) (h1 : b < 10000) :
    lexLt (yearDigits a) (yearDigits b) = true := by
  obtain ⟨n, rfl⟩ := Int.eq_ofNat_of_zero_le h0
  obtain ⟨m, rfl⟩ := Int.eq_ofNat_of_zero_le (show 0 ≤ b by omega)
  unfold yearDigits
  rw [if_pos (by omega), if_pos (by omega)]
  simp only [Int.toNat_ofNat, lexLt, digitChar_toNat (n / 1000) (by omega),
    digitChar_toNat (n / 100 % 10) (by omega), digitChar_toNat (n / 10 % 10) (by omega),
    digitChar_toNat (n % 10) (by omega), digitChar_toNat (m / 1000) (by omega),
    digitChar_toNat (m / 100 % 10) (by omega), digitChar_toNat (m / 10 % 10) (by omega),
    digitChar_toNat (m % 10) (by omega)]
  simp
  omega

theorem twoDigits_length (a : Int) : (twoDigits a).length = 2 := rfl

theorem yearDigits_length (a : Int) (h : a < 10000) : (yearDigits a).length = 4 := by
  unfold yearDigits; rw [if_pos h]; rfl

theorem lexLt_of_lt (a b : List Char) (hlen : a.length = b.length) (h : lexLt a b = true) :
    lexLt b a = false := by
  have := lexLt_append_lt a b [] [] hlen h
  simpa using this

theorem twoDigits_le (a b : Int) (h0 : 0 ≤ a) (h : a ≤ b) (h1 : b < 100) :
    lexLt (twoDigits b) (twoDigits a) = false := by
  rcases lt_or_eq_of_le h with c | c
  · exact lexLt_of_lt _ _ rfl (twoDigits_lt a b h0 c h1)
  · subst c; exact lexLt_irrefl _

/-- The five texts of calendar fields in lexicographic order are in string
order, when the two years are written with as many digits. -/
theorem texts_mono (y1 m1 d1 h1 i1 s1 y2 m2 d2 h2 i2 s2 : Int)
    (r1 : 0 ≤ y1 ∧ 0 ≤ m1 ∧ 0 ≤ d1 ∧ 0 ≤ h1 ∧ 0 ≤ i1 ∧ 0 ≤ s1)
    (r2 : y2 ≤ 10000 ∧ m2 < 100 ∧ d2 < 100 ∧ h2 < 100 ∧ i2 < 100 ∧ s2 < 100)
    (hdig : y2 ≤ 9999 ∨ 10000 ≤ y1)
    (hlex : y1 < y2 ∨ (y1 = y2 ∧ (m1 < m2 ∨ (m1 = m2 ∧ (d1 < d2 ∨ (d1 = d2 ∧
      (h1 < h2 ∨ (h1 = h2 ∧ (i1 < i2 ∨ (i1 = i2 ∧ s1 ≤ s2)))))))))) :
    lexLt (secondText y2 m2 d2 h2 i2 s2).data (secondText y1 m1 d1 h1 i1 s1).data = false
    ∧ lexLt (hourText y2 m2 d2 h2).data (hourText y1 m1 d1 h1).data = false
    ∧ lexLt (dayText y2 m2 d2).data (dayText y1 m1 d1).data = false
    ∧ lexLt (monthText y2 m2).data (monthText y1 m1).data = false
    ∧ lexLt (yearText y2).data (yearText y1).data = false := by
  simp only [secondText, hourText, dayText, monthText, yearText, String.toList,
    List.append_assoc, List.cons_append, List.nil_append, List.singleton_append]
  rcases hlex with hy | ⟨rfl, hlex⟩
  · have hl : (yearDigits y1).length = (yearDigits y2).length := by
      rw [yearDigits_length y1 (by omega), yearDigits_length y2 (by omega)]
    have hlt := yearDigits_lt y1 y2 r1.1 hy (by omega)
    exact ⟨lexLt_append_lt _ _ _ _ hl hlt, lexLt_append_lt _ _ _ _ hl hlt,
      lexLt_append_lt _ _ _ _ hl hlt, lexLt_append_lt _ _ _ _ hl hlt, lexLt_of_lt _ _ hl hlt⟩
  refine ⟨?_, ?_, ?_, ?_, lexLt_irrefl _⟩
  · apply lexLt_append_same; apply lexLt_cons_same
    rcases hlex with hm | ⟨rfl, hlex⟩
    · exact lexLt_append_lt _ _ _ _ rfl (twoDigits_lt _ _ r1.2.1 hm r2.2.1)
    apply lexLt_append_same; apply lexLt_cons_same
    rcases hlex with hd | ⟨rfl, hlex⟩
    · exact lexLt_append_lt _ _ _ _ rfl (twoDigits_lt _ _ r1.2.2.1 hd r2.2.2.1)
    apply lexLt_append_same; apply lexLt_cons_same
    rcases hlex with hh | ⟨rfl, hlex⟩
    · exact lexLt_append_lt _ _ _ _ rfl (twoDigits_lt _ _ r1.2.2.2.1 hh r2.2.2.2.1)
    apply lexLt_append_same; apply lexLt_cons_same
    rcases hlex with hi | ⟨rfl, hlex⟩
    · exact lexLt_append_lt _ _ _ _ rfl (twoDigits_lt _ _ r1.2.2.2.2.1 hi r2.2.2.2.2.1)
    apply lexLt_append_same; apply lexLt_cons_same
    exact twoDigits_le _ _ r1.2.2.2.2.2 hlex r2.2.2.2.2.2
  · apply lexLt_append_same; apply lexLt_cons_same
    rcases hlex with hm | ⟨rfl, hlex⟩
    · exact lexLt_append_lt _ _ _ _ rfl (twoDigits_lt _ _ r1.2.1 hm r2.2.1)
    apply lexLt_append_same; apply lexLt_cons_same
    rcases hlex with hd | ⟨rfl, hlex⟩
    · exact lexLt_append_lt _ _ _ _ rfl (twoDigits_lt _ _ r1.2.2.1 hd r2.2.2.1)
    apply lexLt_append_same; apply lexLt_cons_same
    rcases hlex with hh | ⟨rfl, hlex⟩
    · exact lexLt_append_lt _ _ _ _ rfl (twoDigits_lt _ _ r1.2.2.2.1 hh r2.2.2.2.1)
    exact lexLt_irrefl _
  · apply lexLt_append_same; apply lexLt_cons_same
    rcases hlex with hm | ⟨rfl, hlex⟩
    · exact lexLt_append_lt _ _ _ _ rfl (twoDigits_lt _ _ r1.2.1 hm r2.2.1)
    apply lexLt_append_same; apply lexLt_cons_same
    rcases hlex with hd | ⟨rfl, hlex⟩
    · exact lexLt_of_lt _ _ rfl (twoDigits_lt _ _ r1.2.2.1 hd r2.2.2.1)
    exact lexLt_irrefl _
  · apply lexLt_append_same; apply lexLt_cons_same
    rcases hlex with hm | ⟨rfl, hlex⟩
    · exact lexLt_of_lt _ _ rfl (twoDigits_lt _ _ r1.2.1 hm r2.2.1)
    exact lexLt_irrefl _

theorem validKey_of_success (sd : StatsDataPointRaw) (Z : Int) (mt : String)
    (h : (dateToString sd Z mt).2 = none) : validKey sd := by
  by_contra hc
  rw [dateToString_invalid sd Z mt hc] at h
  simp at h

/-- C6, as the code has it: for each interval type among second, hour, day,
month and year and each offset of -12 to 12 hours, if `dateToString` succeeds
on two bucket keys, the instant of the first is not later than that of the
second, and the two labels write their years with as many digits (the shifted
instant of the second key lies before year 10000, or that of the first does
not), then the first label is at most the second in byte-wise string order. -/
theorem C6_label_monotone (it : String) (Z : Int) (k1 k2 : StatsDataPointRaw)
    (hit : it = second ∨ it = hour ∨ it = day ∨ it = month ∨ it = year)
    (hZ : -12 ≤ Z ∧ Z ≤ 12)
    (h1 : (dateToString k1 Z it).2 = none) (h2 : (dateToString k2 Z it).2 = none)
    (hle : Time.le (keyTime k1) (keyTime k2) = true)
    (hdig : (plusHours (keyTime k2) Z).Year ≤ 9999 ∨ 10000 ≤ (plusHours (keyTime k1) Z).Year) :
    strLe (dateToString k1 Z it).1 (dateToString k2 Z it).1 = true := by
  have v1 := validKey_of_success k1 Z it h1
  have v2 := validKey_of_success k2 Z it h2
  have n1 := keyTime_nsec k1 v1
  have n2 := keyTime_nsec k2 v2
  have hsec : (plusHours (keyTime k1) Z).sec ≤ (plusHours (keyTime k2) Z).sec := by
    unfold Time.le at hle
    simp only [n1, n2, le_refl, and_true, decide_eq_true_eq] at hle
    unfold plusHours
    simp only
    omega
  have y1 := shifted_year_range k1 Z v1 hZ
  have y2 := shifted_year_range k2 Z v2 hZ
  obtain ⟨⟨am, ad, ah, ai, as⟩, _⟩ := Time_fields (plusHours (keyTime k1) Z)
  obtain ⟨⟨bm, bd, bh, bi, bs⟩, _⟩ := Time_fields (plusHours (keyTime k2) Z)
  have bd31 := daysIn_bound _ (plusHours (keyTime k2) Z).Year bm
  obtain ⟨t1, t2, t3, t4, t5⟩ := texts_mono _ _ _ _ _ _ _ _ _ _ _ _
    (show 0 ≤ (plusHours (keyTime k1) Z).Year ∧ 0 ≤ (plusHours (keyTime k1) Z).Month
      ∧ 0 ≤ (plusHours (keyTime k1) Z).Day ∧ 0 ≤ (plusHours (keyTime k1) Z).Hour
      ∧ 0 ≤ (plusHours (keyTime k1) Z).Minute ∧ 0 ≤ (plusHours (keyTime k1) Z).Second by omega)
    (show (plusHours (keyTime k2) Z).Year ≤ 10000 ∧ (plusHours (keyTime k2) Z).Month < 100
      ∧ (plusHours (keyTime k2) Z).Day < 100 ∧ (plusHours (keyTime k2) Z).Hour < 100
      ∧ (plusHours (keyTime k2) Z).Minute < 100 ∧ (plusHours (keyTime k2) Z).Second < 100 by
        omega)
    hdig (fields_mono _ _ hsec)
  obtain ⟨f1, f2, f3, f4, f5⟩ := formatLabel_texts (plusHours (keyTime k1) Z) (by omega)
  obtain ⟨g1, g2, g3, g4, g5⟩ := formatLabel_texts (plusHours (keyTime k2) Z) (by omega)
  rw [dateToString_shift k1 Z it v1 hZ, dateToString_shift k2 Z it v2 hZ]
  unfold strLe
  rcases hit with rfl | rfl | rfl | rfl | rfl
  · simp only [f1, g1, t1, Bool.not_false]
  · simp only [f2, g2, t2, Bool.not_false]
  · simp only [f3, g3, t3, Bool.not_false]
  · simp only [f4, g4, t4, Bool.not_false]
  · simp only [f5, g5, t5, Bool.not_false]

/-- Two hour keys an hour apart on 2023-06-01 and offset 5 satisfy the
hypotheses of C6; their labels are in order. -/
theorem C6_label_monotone_witness :
    (hour = second ∨ hour = hour ∨ hour = day ∨ hour = month ∨ hour = year)
    ∧ (-12 ≤ (5 : Int) ∧ (5 : Int) ≤ 12)
    ∧ (dateToString { Year := 2023, Month := 6, Day := 1, Hour := 22 } 5 hour).2 = none
    ∧ (dateToString { Year := 2023, Month := 6, Day := 1, Hour := 23 } 5 hour).2 = none
    ∧ Time.le (keyTime { Year := 2023, Month := 6, Day := 1, Hour := 22 })
        (keyTime { Year := 2023, Month := 6, Day := 1, Hour := 23 }) = true
    ∧ strLe (dateToString { Year := 2023, Month := 6, Day := 1, Hour := 22 } 5 hour).1
        (dateToString { Year := 2023, Month := 6, Day := 1, Hour := 23 } 5 hour).1 = true :=
  ⟨by decide, by decide, by decide, by decide, by decide,
    C6_label_monotone hour 5 { Year := 2023, Month := 6, Day := 1, Hour := 22 }
      { Year := 2023, Month := 6, Day := 1, Hour := 23 } (by decide) (by decide) (by decide)
      (by decide) (by decide) (by decide)⟩

/-- C6 fails as stated: with interval type hour and offset 1 the keys
9999-12-31 22h and 9999-12-31 23h both render, the first is the earlier, and
its label `9999-12-31 23:00 - 23:59` is greater than the label
`10000-01-01 00:00 - 00:59` of the second. -/
theorem C6_counterexample :
    dateToString { Year := 9999, Month := 12, Day := 31, Hour := 22 } 1 hour
      = ("9999-12-31 23:00 - 23:59", none)
    ∧ dateToString { Year := 9999, Month := 12, Day := 31, Hour := 23 } 1 hour
      = ("10000-01-01 00:00 - 00:59", none)
    ∧ Time.le (keyTime { Year := 9999, Month := 12, Day := 31, Hour := 22 })
        (keyTime { Year := 9999, Month := 12, Day := 31, Hour := 23 }) = true
    ∧ strLe (dateToString { Year := 9999, Month := 12, Day := 31, Hour := 22 } 1 hour).1
        (dateToString { Year := 9999, Month := 12, Day := 31, Hour := 23 } 1 hour).1 = false := by
  decide

theorem sum_indicator_countP {α : Type} (p : α → Prop) [DecidablePred p] (l : List α) :
    (l.map (fun a => if p a then 1 else 0)).sum = l.countP (fun a => decide (p a)) := by
  induction l with
  | nil => rfl
  | cons a l ih =>
    simp only [List.map_cons, List.sum_cons, List.countP_cons, ih]
    by_cases h : p a <;> simp [h]
    omega

theorem groupEntered_eq_countP (sq : Stats) (bucket : List Event) :
    groupEntered sq bucket
      = bucket.countP (fun e => decide (e.crossed = direction sq.IsInside)) := by
  unfold groupEntered
  exact sum_indicator_countP (fun e : Event => e.crossed = direction sq.IsInside) bucket

theorem groupExited_eq_countP (sq : Stats) (bucket : List Event) :
    groupExited sq bucket
      = bucket.countP (fun e => decide (e.crossed = -direction sq.IsInside)) := by
  unfold groupExited
  exact sum_indicator_countP (fun e : Event => e.crossed = -direction sq.IsInside) bucket

/-- C8: in `StatsGetGate` the reference value `d` is -1 when `IsInside` is true
and +1 when it is false; an event counts as entered exactly when its crossing
value equals `d` and as exited exactly when it equals `-d`, an event with
another crossing value adds to neither, and each row carries the two sums of
these indicators over its bucket, each the number of events of its kind. -/
theorem C8_gate_classification (sq : Stats) (events : List Event) :
    direction sq.IsInside = (if sq.IsInside = true then -1 else 1)
    ∧ (∀ e : Event, (enteredCond sq e = 1 ↔ e.crossed = direction sq.IsInside)
        ∧ (enteredCond sq e = 0 ↔ e.crossed ≠ direction sq.IsInside)
        ∧ (exitedCond sq e = 1 ↔ e.crossed = -direction sq.IsInside)
        ∧ (exitedCond sq e = 0 ↔ e.crossed ≠ -direction sq.IsInside))
    ∧ (∀ bucket : List Event,
        groupEntered sq bucket
            = bucket.countP (fun e => decide (e.crossed = direction sq.IsInside))
        ∧ groupExited sq bucket
            = bucket.countP (fun e => decide (e.crossed = -direction sq.IsInside)))
    ∧ gateRows sq events
        = (((events.filter (gateMatch sq)).map
            (fun e => groupKey sq.AxisX.IntervalType e.timestamp)).eraseDups).map
          (fun k => { k with
            Entered := (gateBucket sq events k).countP
              (fun e => decide (e.crossed = direction sq.IsInside))
            Exited := (gateBucket sq events k).countP
              (fun e => decide (e.crossed = -direction sq.IsInside)) }) := by
  refine ⟨?_, ?_, ?_, ?_⟩
  · cases sq.IsInside <;> rfl
  · intro e
    unfold enteredCond exitedCond
    refine ⟨?_, ?_, ?_, ?_⟩ <;> split <;> simp_all
  · intro bucket
    exact ⟨groupEntered_eq_countP sq bucket, groupExited_eq_countP sq bucket⟩
  · unfold gateRows
    simp only [groupEntered_eq_countP, groupExited_eq_countP]

theorem direction_not (b : Bool) : direction (!b) = -direction b := by
  cases b <;> rfl

/-- C9: negating the direction reference swaps the classification: the
entered count of any bucket under `IsInside = b` is the exited count under
`IsInside = not b` and conversely, so the rows of the two aggregations are the
same with the two counts exchanged, and negating twice gives back the original
counts. -/
theorem C9_direction_flip (sq : Stats) (b : Bool) (bucket : List Event) (events : List Event) :
    groupEntered { sq with IsInside := b } bucket = groupExited { sq with IsInside := !b } bucket
    ∧ groupExited { sq with IsInside := b } bucket
        = groupEntered { sq with IsInside := !b } bucket
    ∧ groupEntered { sq with IsInside := !(!b) } bucket
        = groupEntered { sq with IsInside := b } bucket
    ∧ groupExited { sq with IsInside := !(!b) } bucket
        = groupExited { sq with IsInside := b } bucket
    ∧ gateRows { sq with IsInside := !b } events
        = (gateRows { sq with IsInside := b } events).map
            (fun r => { r with Entered := r.Exited, Exited := r.Entered }) := by
  have h1 : ∀ l : List Event, groupEntered { sq with IsInside := b } l
      = groupExited { sq with IsInside := !b } l := by
    intro l
    unfold groupEntered groupExited enteredCond exitedCond
    simp only [direction_not, neg_neg]
  have h2 : ∀ l : List Event, groupExited { sq with IsInside := b } l
      = groupEntered { sq with IsInside := !b } l := by
    intro l
    unfold groupEntered groupExited enteredCond exitedCond
    simp only [direction_not]
  refine ⟨h1 bucket, h2 bucket, by simp, by simp, ?_⟩
  unfold gateRows
  simp only [List.map_map]
  have hm : gateMatch { sq with IsInside := !b } = gateMatch { sq with IsInside := b } := rfl
  have hb : ∀ k, gateBucket { sq with IsInside := !b } events k
      = gateBucket { sq with IsInside := b } events k := fun _ => rfl
  simp only [hm, hb]
  apply List.map_congr_left
  intro k _
  simp only [Function.comp, ← h1, ← h2]

theorem foldl_max_ge (l : List SpaceResult) (m : Int) :
    m ≤ l.foldl (fun m x => max m x.count) m
    ∧ (∀ x ∈ l, x.count ≤ l.foldl (fun m x => max m x.count) m)
    ∧ (l.foldl (fun m x => max m x.count) m = m
        ∨ ∃ x ∈ l, x.count = l.foldl (fun m x => max m x.count) m) := by
  induction l generalizing m with
  | nil => simp
  | cons a l ih =>
    obtain ⟨h1, h2, h3⟩ := ih (max m a.count)
    simp only [List.foldl_cons, List.mem_cons]
    refine ⟨le_trans (le_max_left _ _) h1, ?_, ?_⟩
    · intro x hx
      rcases hx with hx | hx
      · subst hx; exact le_trans (le_max_right _ _) h1
      · exact h2 x hx
    · rcases h3 with h3 | ⟨x, hx, hx2⟩
      · rcases max_choice m a.count with hc | hc
        · left; rw [h3, hc]
        · right; exact ⟨a, Or.inl rfl, by rw [h3, hc]⟩
      · right; exact ⟨x, Or.inr hx, hx2⟩

/-- C10: in `StatsGetSpace` the value of a bucket is the maximum of the
occupancy counts of the bucket (a count of the bucket that no other exceeds,
taken over the unclamped and unfiltered readings), clamped afterwards: 0 if
that maximum is negative, else the maximum unchanged.  Readings 5, -2, 8
give 8, readings -5, 3 give 3 and readings -5, -1 give 0. -/
theorem C10_space_max_clamp (sq : Stats) (results : List SpaceResult) (r : SpaceResult)
    (rs : List SpaceResult) :
    (∃ m : Int, maxRaw (r :: rs) = some m
        ∧ (∃ x ∈ r :: rs, x.count = m) ∧ (∀ x ∈ r :: rs, x.count ≤ m)
        ∧ maxCountCond (maxRaw (r :: rs)) = (if m < 0 then 0 else m))
    ∧ spaceRows sq results
        = (((results.filter (spaceMatch sq)).map
            (fun r => groupKey sq.AxisX.IntervalType r.timestamp)).eraseDups).map
          (fun k => { k with
            MaxCount := (maxCountCond (maxRaw (spaceBucket sq results k))).toNat })
    ∧ maxCountCond (maxRaw [⟨sq.ID, r.timestamp, 5⟩, ⟨sq.ID, r.timestamp, -2⟩,
        ⟨sq.ID, r.timestamp, 8⟩]) = 8
    ∧ maxCountCond (maxRaw [⟨sq.ID, r.timestamp, -5⟩, ⟨sq.ID, r.timestamp, 3⟩]) = 3
    ∧ maxCountCond (maxRaw [⟨sq.ID, r.timestamp, -5⟩, ⟨sq.ID, r.timestamp, -1⟩]) = 0 := by
  refine ⟨?_, rfl, by simp [maxRaw, maxCountCond], by simp [maxRaw, maxCountCond],
    by simp [maxRaw, maxCountCond]⟩
  obtain ⟨h1, h2, h3⟩ := foldl_max_ge rs r.count
  refine ⟨rs.foldl (fun (m : Int) (x : SpaceResult) => max m x.count) r.count, rfl, ?_, ?_, rfl⟩
  · rcases h3 with h3 | ⟨x, hx, hx2⟩
    · exact ⟨r, by simp, h3.symm⟩
    · exact ⟨x, by simp [hx], hx2⟩
  · intro x hx
    rcases List.mem_cons.1 hx with hx | hx
    · subst hx; exact h1
    · exact h2 x hx

theorem gateLoop_ok (sq : Stats) (docs : List (Option StatsDataPointRaw))
    (en ex : List StatsDataPoint) (r : List StatsDataPoint × List StatsDataPoint) :
    gateLoop sq docs en ex = .ok r ↔
      ∃ rows : List StatsDataPointRaw, docs = rows.map some
        ∧ (∀ row ∈ rows, (dateToString row sq.Timezone sq.AxisX.IntervalType).2 = none)
        ∧ r = (en ++ rows.map (enteredPoint sq), ex ++ rows.map (exitedPoint sq)) := by
  induction docs generalizing en ex with
  | nil =>
    simp only [gateLoop, Except.ok.injEq]
    constructor
    · intro h
      exact ⟨[], rfl, by simp, by simp [← h]⟩
    · rintro ⟨rows, h1, _, h3⟩
      have : rows = [] := by simpa using h1.symm
      subst this
      simp [h3]
  | cons d docs ih =>
    cases d with
    | none =>
      simp only [gateLoop]
      constructor
      · intro h; cases h
      · rintro ⟨rows, h1, _, _⟩
        cases rows with
        | nil => simp at h1
        | cons a rows => simp at h1
    | some row =>
      simp only [gateLoop]
      cases hd : dateToString row sq.Timezone sq.AxisX.IntervalType with
      | mk dateStr dErr =>
        cases dErr with
        | some e =>
          simp only
          constructor
          · intro h; cases h
          · rintro ⟨rows, h1, h2, _⟩
            cases rows with
            | nil => simp at h1
            | cons a rows =>
              simp only [List.map_cons, List.cons.injEq, Option.some.injEq] at h1
              have := h2 a (by simp)
              rw [← h1.1, hd] at this
              simp at this
        | none =>
          simp only
          rw [ih]
          constructor
          · rintro ⟨rows, h1, h2, h3⟩
            refine ⟨row :: rows, by simp [h1], ?_, ?_⟩
            · intro a ha
              rcases List.mem_cons.1 ha with rfl | ha
              · rw [hd]
              · exact h2 a ha
            · simp [h3, enteredPoint, exitedPoint, hd]
          · rintro ⟨rows, h1, h2, h3⟩
            cases rows with
            | nil => simp at h1
            | cons a rows =>
              simp only [List.map_cons, List.cons.injEq, Option.some.injEq] at h1
              obtain ⟨rfl, h1⟩ := h1
              refine ⟨rows, h1, fun b hb => h2 b (by simp [hb]), ?_⟩
              simp [h3, enteredPoint, exitedPoint, hd]

theorem spaceLoop_ok (sq : Stats) (docs : List (Option StatsDataPointRaw))
    (mc : List StatsDataPoint) (r : List StatsDataPoint) :
    spaceLoop sq docs mc = .ok r ↔
      ∃ rows : List StatsDataPointRaw, docs = rows.map some
        ∧ (∀ row ∈ rows, (dateToString row sq.Timezone sq.AxisX.IntervalType).2 = none)
        ∧ r = mc ++ rows.map (maxCountPoint sq) := by
  induction docs generalizing mc with
  | nil =>
    simp only [spaceLoop, Except.ok.injEq]
    constructor
    · intro h
      exact ⟨[], rfl, by simp, by simp [← h]⟩
    · rintro ⟨rows, h1, _, h3⟩
      have : rows = [] := by simpa using h1.symm
      subst this
      simp [h3]
  | cons d docs ih =>
    cases d with
    | none =>
      simp only [spaceLoop]
      constructor
      · intro h; cases h
      · rintro ⟨rows, h1, _, _⟩
        cases rows with
        | nil => simp at h1
        | cons a rows => simp at h1
    | some row =>
      simp only [spaceLoop]
      cases hd : dateToString row sq.Timezone sq.AxisX.IntervalType with
      | mk dateStr dErr =>
        cases dErr with
        | some e =>
          simp only
          constructor
          · intro h; cases h
          · rintro ⟨rows, h1, h2, _⟩
            cases rows with
            | nil => simp at h1
            | cons a rows =>
              simp only [List.map_cons, List.cons.injEq, Option.some.injEq] at h1
              have := h2 a (by simp)
              rw [← h1.1, hd] at this
              simp at this
        | none =>
          simp only
          rw [ih]
          constructor
          · rintro ⟨rows, h1, h2, h3⟩
            refine ⟨row :: rows, by simp [h1], ?_, ?_⟩
            · intro a ha
              rcases List.mem_cons.1 ha with rfl | ha
              · rw [hd]
              · exact h2 a ha
            · simp [h3, maxCountPoint, hd]
          · rintro ⟨rows, h1, h2, h3⟩
            cases rows with
            | nil => simp at h1
            | cons a rows =>
              simp only [List.map_cons, List.cons.injEq, Option.some.injEq] at h1
              obtain ⟨rfl, h1⟩ := h1
              refine ⟨rows, h1, fun b hb => h2 b (by simp [hb]), ?_⟩
              simp [h3, maxCountPoint, hd]

theorem dateToString_err (sd : StatsDataPointRaw) (Z : Int) (mt : String) (e : Error)
    (h : (dateToString sd Z mt).2 = some e) : e = NewError ErrBETimeConversion := by
  unfold dateToString at h
  split at h
  · simpa using h.symm
  · simp at h

theorem gateLoop_rows (sq : Stats) (rows : List StatsDataPointRaw) (en ex : List StatsDataPoint) :
    gateLoop sq (rows.map some) en ex =
      if ∀ row ∈ rows, (dateToString row sq.Timezone sq.AxisX.IntervalType).2 = none then
        .ok (en ++ rows.map (enteredPoint sq), ex ++ rows.map (exitedPoint sq))
      else .error (NewError ErrBETimeConversion) := by
  induction rows generalizing en ex with
  | nil => simp [gateLoop]
  | cons row rows ih =>
    simp only [List.map_cons, gateLoop]
    cases hd : dateToString row sq.Timezone sq.AxisX.IntervalType with
    | mk dateStr dErr =>
      cases dErr with
      | some e =>
        have he := dateToString_err row _ _ e (by rw [hd])
        simp [hd, he]
      | none =>
        simp only [ih, List.mem_cons, forall_eq_or_imp, hd, true_and]
        split <;> simp [enteredPoint, exitedPoint, hd]

theorem spaceLoop_rows (sq : Stats) (rows : List StatsDataPointRaw) (mc : List StatsDataPoint) :
    spaceLoop sq (rows.map some) mc =
      if ∀ row ∈ rows, (dateToString row sq.Timezone sq.AxisX.IntervalType).2 = none then
        .ok (mc ++ rows.map (maxCountPoint sq))
      else .error (NewError ErrBETimeConversion) := by
  induction rows generalizing mc with
  | nil => simp [spaceLoop]
  | cons row rows ih =>
    simp only [List.map_cons, spaceLoop]
    cases hd : dateToString row sq.Timezone sq.AxisX.IntervalType with
    | mk dateStr dErr =>
      cases dErr with
      | some e =>
        have he := dateToString_err row _ _ e (by rw [hd])
        simp [hd, he]
      | none =>
        simp only [ih, List.mem_cons, forall_eq_or_imp, hd, true_and]
        split <;> simp [maxCountPoint, hd]

theorem gateLoop_error (sq : Stats) (docs : List (Option StatsDataPointRaw))
    (en ex : List StatsDataPoint) (e : Error) (h : gateLoop sq docs en ex = .error e) :
    e = NewError ErrDBDecode ∨ e = NewError ErrBETimeConversion := by
  induction docs generalizing en ex with
  | nil => simp [gateLoop] at h
  | cons d docs ih =>
    cases d with
    | none =>
      simp only [gateLoop, Except.error.injEq] at h
      exact Or.inl h.symm
    | some row =>
      simp only [gateLoop] at h
      cases hd : dateToString row sq.Timezone sq.AxisX.IntervalType with
      | mk dateStr dErr =>
        rw [hd] at h
        cases dErr with
        | some e2 =>
          simp only [Except.error.injEq] at h
          subst h
          exact Or.inr (dateToString_err row _ _ _ (by rw [hd]))
        | none => exact ih _ _ h

theorem spaceLoop_error (sq : Stats) (docs : List (Option StatsDataPointRaw))
    (mc : List StatsDataPoint) (e : Error) (h : spaceLoop sq docs mc = .error e) :
    e = NewError ErrDBDecode ∨ e = NewError ErrBETimeConversion := by
  induction docs generalizing mc with
  | nil => simp [spaceLoop] at h
  | cons d docs ih =>
    cases d with
    | none =>
      simp only [spaceLoop, Except.error.injEq] at h
      exact Or.inl h.symm
    | some row =>
      simp only [spaceLoop] at h
      cases hd : dateToString row sq.Timezone sq.AxisX.IntervalType with
      | mk dateStr dErr =>
        rw [hd] at h
        cases dErr with
        | some e2 =>
          simp only [Except.error.injEq] at h
          subst h
          exact Or.inr (dateToString_err row _ _ _ (by rw [hd]))
        | none => exact ih _ h

/-- What a successful call of `StatsGetGate` has done. -/
theorem StatsGetGate_success (sortSlice : SortSlice)
    (m : Database) (sq sq2 : Stats) (h : StatsGetGate sortSlice m sq = (sq2, none)) :
    ∃ (cur : Cursor) (rows : List StatsDataPointRaw),
      m.Aggregate eventsCollectionName sq = some cur ∧ cur.docs = rows.map some
      ∧ cur.Err = false ∧ cur.CloseErr = false
      ∧ (∀ row ∈ rows, (dateToString row sq.Timezone sq.AxisX.IntervalType).2 = none)
      ∧ sq2 = { sq with Data := sq.Data ++
          [⟨sq.ChartType, "Entered", true, sq.AxisX.ValueFormat,
              sortSlice lessX (rows.map (enteredPoint sq))⟩,
            ⟨sq.ChartType, "Exited", true, sq.AxisX.ValueFormat,
              sortSlice lessX (rows.map (exitedPoint sq))⟩] } := by
  unfold StatsGetGate at h
  cases hc : m.Aggregate eventsCollectionName sq with
  | none => simp [hc] at h
  | some cur =>
    simp only [hc] at h
    cases hl : gateLoop sq cur.docs [] [] with
    | error e => simp [hl] at h
    | ok r =>
      obtain ⟨rows, h1, h2, h3⟩ := (gateLoop_ok sq cur.docs [] [] r).1 hl
      subst h3
      simp only [hl, List.nil_append] at h
      by_cases e1 : cur.Err = true
      · simp [e1] at h
      by_cases e2 : cur.CloseErr = true
      · simp [e1, e2] at h
      simp only [e1, e2, Bool.false_eq_true, if_false] at h
      split at h
      · simp at h
      · simp only [Prod.mk.injEq, and_true] at h
        exact ⟨cur, rows, rfl, h1, by simpa using e1, by simpa using e2, h2, h.symm⟩

/-- What a successful call of `StatsGetSpace` has done. -/
theorem StatsGetSpace_success (sortSlice : SortSlice)
    (m : Database) (sq sq2 : Stats) (h : StatsGetSpace sortSlice m sq = (sq2, none)) :
    ∃ (cur : Cursor) (rows : List StatsDataPointRaw),
      m.Aggregate spaceResultsCollectionName sq = some cur ∧ cur.docs = rows.map some
      ∧ cur.Err = false ∧ cur.CloseErr = false
      ∧ (∀ row ∈ rows, (dateToString row sq.Timezone sq.AxisX.IntervalType).2 = none)
      ∧ sq2 = { sq with Data := sq.Data ++
          [⟨sq.ChartType, "Max count", true, sq.AxisX.ValueFormat,
              sortSlice lessX (rows.map (maxCountPoint sq))⟩] } := by
  unfold StatsGetSpace at h
  cases hc : m.Aggregate spaceResultsCollectionName sq with
  | none => simp [hc] at h
  | some cur =>
    simp only [hc] at h
    cases hl : spaceLoop sq cur.docs [] with
    | error e => simp [hl] at h
    | ok r =>
      obtain ⟨rows, h1, h2, h3⟩ := (spaceLoop_ok sq cur.docs [] r).1 hl
      subst h3
      simp only [hl, List.nil_append] at h
      by_cases e1 : cur.Err = true
      · simp [e1] at h
      by_cases e2 : cur.CloseErr = true
      · simp [e1, e2] at h
      simp only [e1, e2, Bool.false_eq_true, if_false] at h
      split at h
      · simp at h
      · simp only [Prod.mk.injEq, and_true] at h
        exact ⟨cur, rows, rfl, h1, by simpa using e1, by simpa using e2, h2, h.symm⟩

/-- The errors `StatsGetGate` can return. -/
theorem StatsGetGate_errors (sortSlice : SortSlice)
    (m : Database) (sq : Stats) (e : Error) (h : (StatsGetGate sortSlice m sq).2 = some e) :
    e = NewError ErrDBQuery ∨ e = NewError ErrDBDecode ∨ e = NewError ErrBETimeConversion
      ∨ e = NewError ErrDBCursorIterate ∨ e = NewError ErrDBCursorClose
      ∨ e = NewError ErrDBNoData := by
  unfold StatsGetGate at h
  cases hc : m.Aggregate eventsCollectionName sq with
  | none =>
    simp only [hc, Option.some.injEq] at h
    exact Or.inl h.symm
  | some cur =>
    simp only [hc] at h
    cases hl : gateLoop sq cur.docs [] [] with
    | error e2 =>
      simp only [hl, Option.some.injEq] at h
      subst h
      rcases gateLoop_error _ _ _ _ _ hl with c | c
      · exact Or.inr (Or.inl c)
      · exact Or.inr (Or.inr (Or.inl c))
    | ok r =>
      simp only [hl] at h
      split at h
      · simp only [Option.some.injEq] at h
        exact Or.inr (Or.inr (Or.inr (Or.inl h.symm)))
      · split at h
        · simp only [Option.some.injEq] at h
          exact Or.inr (Or.inr (Or.inr (Or.inr (Or.inl h.symm))))
        · split at h
          · simp only [Option.some.injEq] at h
            exact Or.inr (Or.inr (Or.inr (Or.inr (Or.inr h.symm))))
          · simp at h

/-- The errors `StatsGetSpace` can return. -/
theorem StatsGetSpace_errors (sortSlice : SortSlice)
    (m : Database) (sq : Stats) (e : Error) (h : (StatsGetSpace sortSlice m sq).2 = some e) :
    e = NewError ErrDBQuery ∨ e = NewError ErrDBDecode ∨ e = NewError ErrBETimeConversion
      ∨ e = NewError ErrDBCursorIterate ∨ e = NewError ErrDBCursorClose
      ∨ e = NewError ErrDBNoData := by
  unfold StatsGetSpace at h
  cases hc : m.Aggregate spaceResultsCollectionName sq with
  | none =>
    simp only [hc, Option.some.injEq] at h
    exact Or.inl h.symm
  | some cur =>
    simp only [hc] at h
    cases hl : spaceLoop sq cur.docs [] with
    | error e2 =>
      simp only [hl, Option.some.injEq] at h
      subst h
      rcases spaceLoop_error _ _ _ _ hl with c | c
      · exact Or.inr (Or.inl c)
      · exact Or.inr (Or.inr (Or.inl c))
    | ok r =>
      simp only [hl] at h
      split at h
      · simp only [Option.some.injEq] at h
        exact Or.inr (Or.inr (Or.inr (Or.inl h.symm)))
      · split at h
        · simp only [Option.some.injEq] at h
          exact Or.inr (Or.inr (Or.inr (Or.inr (Or.inl h.symm))))
        · split at h
          · simp only [Option.some.injEq] at h
            exact Or.inr (Or.inr (Or.inr (Or.inr (Or.inr h.symm))))
          · simp at h

theorem lexLt_asymm (a b : List Char) (h : lexLt a b = true) : lexLt b a = false := by
  induction a generalizing b with
  | nil =>
    cases b with
    | nil => simp [lexLt] at h
    | cons _ _ => simp [lexLt]
  | cons c a ih =>
    cases b with
    | nil => simp [lexLt] at h
    | cons d b =>
      simp only [lexLt, Bool.or_eq_true, decide_eq_true_eq, Bool.and_eq_true, beq_iff_eq] at h
      simp only [lexLt, Bool.or_eq_false_iff, decide_eq_false_iff_not, Bool.and_eq_false_imp,
        beq_iff_eq]
      rcases h with h | ⟨h1, h2⟩
      · exact ⟨by omega, fun he => by omega⟩
      · exact ⟨by omega, fun _ => ih b h2⟩

theorem lexLt_trichotomy (a b : List Char) (h1 : lexLt a b = false) (h2 : lexLt b a = false) :
    a = b := by
  induction a generalizing b with
  | nil =>
    cases b with
    | nil => rfl
    | cons _ _ => simp [lexLt] at h1
  | cons c a ih =>
    cases b with
    | nil => simp [lexLt] at h2
    | cons d b =>
      simp only [lexLt, Bool.or_eq_false_iff, decide_eq_false_iff_not, Bool.and_eq_false_imp,
        beq_iff_eq] at h1 h2
      have hcd : c.toNat = d.toNat := by omega
      have hc : c = d := by
        apply Char.ext
        apply UInt32.ext
        exact hcd
      subst hc
      rw [ih b (h1.2 rfl) (h2.2 rfl)]

theorem lexLt_nil_right (c : List Char) : lexLt c [] = false := by
  cases c <;> rfl

theorem lexLt_trans_le (a b c : List Char) (h1 : lexLt b a = false) (h2 : lexLt c b = false) :
    lexLt c a = false := by
  induction a generalizing b c with
  | nil => exact lexLt_nil_right c
  | cons x a ih =>
    cases b with
    | nil => simp [lexLt] at h1
    | cons y b =>
      cases c with
      | nil => simp [lexLt] at h2
      | cons z c =>
        simp only [lexLt, Bool.or_eq_false_iff, decide_eq_false_iff_not, Bool.and_eq_false_imp,
          beq_iff_eq] at h1 h2 ⊢
        refine ⟨by omega, fun he => ?_⟩
        have e1 : y.toNat = x.toNat := by omega
        have e2 : z.toNat = y.toNat := by omega
        exact ih b c (h1.2 e1) (h2.2 e2)

/-- The closure `Data[i].X < Data[j].X` is a transitive ordering. -/
theorem lessX_transitive : TransitiveOrdering lessX := by
  refine ⟨fun a => lexLt_irrefl _, ?_, ?_⟩
  · intro a b c hab hbc
    by_contra hc
    have hac : lexLt a.X.data c.X.data = false := by simpa using hc
    have hcb : lexLt c.X.data b.X.data = false := lexLt_asymm _ _ hbc
    have := lexLt_trans_le _ _ _ hcb hac
    rw [show lessX a b = lexLt a.X.data b.X.data from rfl, this] at hab
    exact absurd hab (by decide)
  · intro a b c hab hbc
    exact lexLt_trans_le _ _ _ hbc hab

theorem less_asymm (less : StatsDataPoint → StatsDataPoint → Bool)
    (ht : TransitiveOrdering less) (a b : StatsDataPoint) (h : less a b = true) :
    less b a = false := by
  by_contra hc
  have hba : less b a = true := by simpa using hc
  have := ht.2.1 a b a h hba
  rw [ht.1 a] at this
  exact absurd this (by decide)

theorem insertBy_perm (less : StatsDataPoint → StatsDataPoint → Bool) (p : StatsDataPoint)
    (l : List StatsDataPoint) : (insertBy less p l).Perm (p :: l) := by
  induction l with
  | nil => exact List.Perm.refl _
  | cons q l ih =>
    unfold insertBy
    split
    · exact (List.Perm.cons q ih).trans (List.Perm.swap p q l)
    · exact List.Perm.refl _

theorem insertBy_sorted (less : StatsDataPoint → StatsDataPoint → Bool)
    (ht : TransitiveOrdering less) (p : StatsDataPoint) (l : List StatsDataPoint)
    (h : l.Pairwise (fun a b => less b a = false)) :
    (insertBy less p l).Pairwise (fun a b => less b a = false) := by
  induction l with
  | nil => simp [insertBy]
  | cons q l ih =>
    rw [List.pairwise_cons] at h
    unfold insertBy
    split
    · rename_i hq
      rw [List.pairwise_cons]
      refine ⟨?_, ih h.2⟩
      intro b hb
      rcases List.mem_cons.1 ((insertBy_perm less p l).subset hb) with rfl | hb
      · exact less_asymm less ht _ _ hq
      · exact h.1 b hb
    · rename_i hq
      have hq2 : less q p = false := by simpa using hq
      rw [List.pairwise_cons]
      refine ⟨?_, List.pairwise_cons.2 h⟩
      intro b hb
      rcases List.mem_cons.1 hb with rfl | hb
      · exact hq2
      · exact ht.2.2 _ _ _ (h.1 b hb) hq2

/-- Insertion sort meets the guarantee of `sort.Slice`. -/
theorem insertionSort_sorts : SortsByLess insertionSort := by
  intro less ht l
  induction l with
  | nil => exact ⟨List.Perm.refl _, List.Pairwise.nil⟩
  | cons p l ih =>
    unfold insertionSort
    exact ⟨(insertBy_perm less p _).trans (List.Perm.cons p ih.1),
      insertBy_sorted less ht p _ ih.2⟩

/-- With the closure of the code, `sort.Slice` sorts by `X`. -/
theorem sortsByX_of_contract (sortSlice : SortSlice) (hs : SortsByLess sortSlice) :
    SortsByX (sortSlice lessX) :=
  fun l => hs lessX lessX_transitive l

theorem sortSlice_nil (sortSlice : List StatsDataPoint → List StatsDataPoint)
    (hs : SortsByX sortSlice) : sortSlice [] = [] :=
  List.Perm.eq_nil (hs []).1

theorem sorted_labels_unique (l1 l2 : List String) (hp : l1.Perm l2)
    (h1 : l1.Pairwise (fun a b => lexLt b.data a.data = false))
    (h2 : l2.Pairwise (fun a b => lexLt b.data a.data = false)) : l1 = l2 := by
  haveI : IsAntisymm String (fun a b => lexLt b.data a.data = false) :=
    ⟨fun a b hab hba => String.ext (lexLt_trichotomy _ _ hba hab)⟩
  exact List.eq_of_perm_of_sorted hp h1 h2

theorem enteredPoint_X (sq : Stats) (rows : List StatsDataPointRaw) :
    (rows.map (enteredPoint sq)).map (fun p => p.X)
      = rows.map (fun r => (dateToString r sq.Timezone sq.AxisX.IntervalType).1) := by
  simp [enteredPoint, Function.comp]

theorem exitedPoint_X (sq : Stats) (rows : List StatsDataPointRaw) :
    (rows.map (exitedPoint sq)).map (fun p => p.X)
      = rows.map (fun r => (dateToString r sq.Timezone sq.AxisX.IntervalType).1) := by
  simp [exitedPoint, Function.comp]

theorem sorted_X (sortSlice : List StatsDataPoint → List StatsDataPoint)
    (hs : SortsByX sortSlice) (l : List StatsDataPoint) :
    ((sortSlice l).map (fun p => p.X)).Pairwise (fun a b => lexLt b.data a.data = false) := by
  rw [List.pairwise_map]
  exact (hs l).2

/-- The check `len(sq.Data) == 0` comes after the `append`: neither function
ever returns `ErrDBNoData`. -/
theorem no_data_never (sortSlice : SortSlice) (m : Database)
    (sq : Stats) :
    (StatsGetGate sortSlice m sq).2 ≠ some (NewError ErrDBNoData)
    ∧ (StatsGetSpace sortSlice m sq).2 ≠ some (NewError ErrDBNoData) := by
  have d1 : NewError ErrDBQuery ≠ NewError ErrDBNoData := by decide
  have d2 : NewError ErrDBDecode ≠ NewError ErrDBNoData := by decide
  have d3 : NewError ErrBETimeConversion ≠ NewError ErrDBNoData := by decide
  have d4 : NewError ErrDBCursorIterate ≠ NewError ErrDBNoData := by decide
  have d5 : NewError ErrDBCursorClose ≠ NewError ErrDBNoData := by decide
  constructor
  · unfold StatsGetGate
    cases hc : m.Aggregate eventsCollectionName sq with
    | none => simpa using d1
    | some cur =>
      simp only
      cases hl : gateLoop sq cur.docs [] [] with
      | error e =>
        rcases gateLoop_error _ _ _ _ _ hl with c | c <;> subst c <;> simp only
        · simpa using d2
        · simpa using d3
      | ok r =>
        simp only
        split
        · simpa using d4
        · split
          · simpa using d5
          · split
            · rename_i h
              simp at h
            · simp
  · unfold StatsGetSpace
    cases hc : m.Aggregate spaceResultsCollectionName sq with
    | none => simpa using d1
    | some cur =>
      simp only
      cases hl : spaceLoop sq cur.docs [] with
      | error e =>
        rcases spaceLoop_error _ _ _ _ hl with c | c <;> subst c <;> simp only
        · simpa using d2
        · simpa using d3
      | ok r =>
        simp only
        split
        · simpa using d4
        · split
          · simpa using d5
          · split
            · rename_i h
              simp at h
            · simp

/-- C11, where the code departs from the claim: the emptiness check of
`StatsGetGate` and `StatsGetSpace` looks at `sq.Data` after the series have
been appended, so `ErrDBNoData` is never returned; on a cursor that delivers
no row both functions return no error and leave series with empty point
lists in the request. -/
theorem C11_empty_result_succeeds (sortSlice : SortSlice)
    (m : Database) (sq : Stats) :
    (StatsGetGate sortSlice m sq).2 ≠ some (NewError ErrDBNoData)
    ∧ (StatsGetSpace sortSlice m sq).2 ≠ some (NewError ErrDBNoData)
    ∧ StatsGetGate insertionSort (cursorDatabase [] false false) exampleRequest
        = ({ exampleRequest with Data :=
              [⟨"line", "Entered", true, "DD-MM-YYYY HH:mm:ss", []⟩,
                ⟨"line", "Exited", true, "DD-MM-YYYY HH:mm:ss", []⟩] }, none)
    ∧ StatsGetSpace insertionSort (cursorDatabase [] false false) exampleRequest
        = ({ exampleRequest with Data :=
              [⟨"line", "Max count", true, "DD-MM-YYYY HH:mm:ss", []⟩] }, none) :=
  ⟨(no_data_never sortSlice m sq).1, (no_data_never sortSlice m sq).2, by decide, by decide⟩

/-- C13: a successful `StatsGetGate` has appended exactly two series to
`sq.Data`, named `Entered` then `Exited`, each with the chart type and the X
value format of the request and with the legend on; the cursor delivered rows
that all decoded, and each series holds exactly one point per row, a
permutation of the points with label and X equal to the row label and Y equal
to the entered (resp. exited) count; the two series carry the same label at
every index. -/
theorem C13_gate_series (sortSlice : SortSlice)
    (hs : SortsByLess sortSlice) (m : Database) (sq sq2 : Stats)
    (h : StatsGetGate sortSlice m sq = (sq2, none)) :
    ∃ (cur : Cursor) (rows : List StatsDataPointRaw) (entered exited : List StatsDataPoint),
      m.Aggregate eventsCollectionName sq = some cur ∧ cur.docs = rows.map some
      ∧ sq2 = { sq with Data := sq.Data ++
          [⟨sq.ChartType, "Entered", true, sq.AxisX.ValueFormat, entered⟩,
            ⟨sq.ChartType, "Exited", true, sq.AxisX.ValueFormat, exited⟩] }
      ∧ entered.Perm (rows.map (fun row =>
          ⟨(dateToString row sq.Timezone sq.AxisX.IntervalType).1,
            (dateToString row sq.Timezone sq.AxisX.IntervalType).1, row.Entered⟩))
      ∧ exited.Perm (rows.map (fun row =>
          ⟨(dateToString row sq.Timezone sq.AxisX.IntervalType).1,
            (dateToString row sq.Timezone sq.AxisX.IntervalType).1, row.Exited⟩))
      ∧ entered.length = rows.length ∧ exited.length = rows.length
      ∧ entered.map (fun p => p.Label) = exited.map (fun p => p.Label)
      ∧ entered.map (fun p => p.X) = exited.map (fun p => p.X)
      ∧ (∀ p ∈ entered ++ exited, p.Label = p.X) := by
  have hs := sortsByX_of_contract sortSlice hs
  obtain ⟨cur, rows, h1, h2, _, _, _, h6⟩ := StatsGetGate_success sortSlice m sq sq2 h
  have pe := (hs (rows.map (enteredPoint sq))).1
  have px := (hs (rows.map (exitedPoint sq))).1
  have hX : (sortSlice lessX (rows.map (enteredPoint sq))).map (fun p => p.X)
      = (sortSlice lessX (rows.map (exitedPoint sq))).map (fun p => p.X) := by
    apply sorted_labels_unique _ _ _ (sorted_X (sortSlice lessX) hs _) (sorted_X (sortSlice lessX) hs _)
    refine ((pe.map _).trans ?_).trans (px.map _).symm
    rw [enteredPoint_X, exitedPoint_X]
  have hLX : ∀ p ∈ sortSlice lessX (rows.map (enteredPoint sq))
      ++ sortSlice lessX (rows.map (exitedPoint sq)), p.Label = p.X := by
    intro p hp
    rcases List.mem_append.1 hp with hp | hp
    · obtain ⟨r, _, rfl⟩ := List.mem_map.1 (pe.subset hp)
      rfl
    · obtain ⟨r, _, rfl⟩ := List.mem_map.1 (px.subset hp)
      rfl
  have hL : (sortSlice lessX (rows.map (enteredPoint sq))).map (fun p => p.Label)
      = (sortSlice lessX (rows.map (exitedPoint sq))).map (fun p => p.Label) := by
    rw [List.map_congr_left (fun p hp => hLX p (List.mem_append_left _ hp)),
      List.map_congr_left (fun p hp => hLX p (List.mem_append_right _ hp))]
    exact hX
  refine ⟨cur, rows, _, _, h1, h2, h6, pe, px, ?_, ?_, hL, hX, hLX⟩
  · simpa using pe.length_eq
  · simpa using px.length_eq

/-- The insertion sort, a cursor that delivers the two example rows and the
example request satisfy the hypotheses of C13; the two series come out in the
order of the hours 10 and 11. -/
theorem C13_gate_series_witness :
    SortsByLess insertionSort
    ∧ StatsGetGate insertionSort (cursorDatabase (exampleRows.map some) false false)
        exampleRequest
      = ({ exampleRequest with Data :=
            [⟨"line", "Entered", true, "DD-MM-YYYY HH:mm:ss",
                [⟨"2023-06-01 10:00 - 10:59", "2023-06-01 10:00 - 10:59", 1⟩,
                  ⟨"2023-06-01 11:00 - 11:59", "2023-06-01 11:00 - 11:59", 2⟩]⟩,
              ⟨"line", "Exited", true, "DD-MM-YYYY HH:mm:ss",
                [⟨"2023-06-01 10:00 - 10:59", "2023-06-01 10:00 - 10:59", 1⟩,
                  ⟨"2023-06-01 11:00 - 11:59", "2023-06-01 11:00 - 11:59", 3⟩]⟩] }, none)
    ∧ ∃ (cur : Cursor) (rows : List StatsDataPointRaw) (entered exited : List StatsDataPoint),
        (cursorDatabase (exampleRows.map some) false false).Aggregate eventsCollectionName
          exampleRequest = some cur ∧ cur.docs = rows.map some
        ∧ ({ exampleRequest with Data :=
            [⟨"line", "Entered", true, "DD-MM-YYYY HH:mm:ss",
                [⟨"2023-06-01 10:00 - 10:59", "2023-06-01 10:00 - 10:59", 1⟩,
                  ⟨"2023-06-01 11:00 - 11:59", "2023-06-01 11:00 - 11:59", 2⟩]⟩,
              ⟨"line", "Exited", true, "DD-MM-YYYY HH:mm:ss",
                [⟨"2023-06-01 10:00 - 10:59", "2023-06-01 10:00 - 10:59", 1⟩,
                  ⟨"2023-06-01 11:00 - 11:59", "2023-06-01 11:00 - 11:59", 3⟩]⟩] } : Stats)
          = { exampleRequest with Data := exampleRequest.Data ++
            [⟨exampleRequest.ChartType, "Entered", true, exampleRequest.AxisX.ValueFormat,
                entered⟩,
              ⟨exampleRequest.ChartType, "Exited", true, exampleRequest.AxisX.ValueFormat,
                exited⟩] }
        ∧ entered.Perm (rows.map (fun row =>
            ⟨(dateToString row exampleRequest.Timezone exampleRequest.AxisX.IntervalType).1,
              (dateToString row exampleRequest.Timezone exampleRequest.AxisX.IntervalType).1,
              row.Entered⟩))
        ∧ exited.Perm (rows.map (fun row =>
            ⟨(dateToString row exampleRequest.Timezone exampleRequest.AxisX.IntervalType).1,
              (dateToString row exampleRequest.Timezone exampleRequest.AxisX.IntervalType).1,
              row.Exited⟩))
        ∧ entered.length = rows.length ∧ exited.length = rows.length
        ∧ entered.map (fun p => p.Label) = exited.map (fun p => p.Label)
        ∧ entered.map (fun p => p.X) = exited.map (fun p => p.X)
        ∧ (∀ p ∈ entered ++ exited, p.Label = p.X) :=
  ⟨insertionSort_sorts, by decide,
    C13_gate_series insertionSort insertionSort_sorts
      (cursorDatabase (exampleRows.map some) false false) exampleRequest _ (by decide)⟩

/-- C14: a successful `StatsGetSpace` has appended exactly one series to
`sq.Data`, named `Max count`, with the chart type and the X value format of
the request and with the legend on; it holds exactly one point per decoded
row, a permutation of the points with label and X equal to the row label and
Y equal to the clamped `max_count` of the row. -/
theorem C14_space_series (sortSlice : SortSlice)
    (hs : SortsByLess sortSlice) (m : Database) (sq sq2 : Stats)
    (h : StatsGetSpace sortSlice m sq = (sq2, none)) :
    ∃ (cur : Cursor) (rows : List StatsDataPointRaw) (maxCount : List StatsDataPoint),
      m.Aggregate spaceResultsCollectionName sq = some cur ∧ cur.docs = rows.map some
      ∧ sq2 = { sq with Data := sq.Data ++
          [⟨sq.ChartType, "Max count", true, sq.AxisX.ValueFormat, maxCount⟩] }
      ∧ maxCount.Perm (rows.map (fun row =>
          ⟨(dateToString row sq.Timezone sq.AxisX.IntervalType).1,
            (dateToString row sq.Timezone sq.AxisX.IntervalType).1, row.MaxCount⟩))
      ∧ maxCount.length = rows.length
      ∧ (∀ p ∈ maxCount, p.Label = p.X) := by
  have hs := sortsByX_of_contract sortSlice hs
  obtain ⟨cur, rows, h1, h2, _, _, _, h6⟩ := StatsGetSpace_success sortSlice m sq sq2 h
  have pm := (hs (rows.map (maxCountPoint sq))).1
  refine ⟨cur, rows, _, h1, h2, h6, pm, by simpa using pm.length_eq, ?_⟩
  intro p hp
  obtain ⟨r, _, rfl⟩ := List.mem_map.1 (pm.subset hp)
  rfl

/-- The insertion sort, a cursor that delivers the two example rows and the
example request satisfy the hypotheses of C14; the series holds the points of
the hours 10 and 11 with the counts 4 and 7. -/
theorem C14_space_series_witness :
    SortsByLess insertionSort
    ∧ StatsGetSpace insertionSort (cursorDatabase (exampleRows.map some) false false)
        exampleRequest
      = ({ exampleRequest with Data :=
            [⟨"line", "Max count", true, "DD-MM-YYYY HH:mm:ss",
                [⟨"2023-06-01 10:00 - 10:59", "2023-06-01 10:00 - 10:59", 4⟩,
                  ⟨"2023-06-01 11:00 - 11:59", "2023-06-01 11:00 - 11:59", 7⟩]⟩] }, none)
    ∧ ∃ (cur : Cursor) (rows : List StatsDataPointRaw) (maxCount : List StatsDataPoint),
        (cursorDatabase (exampleRows.map some) false false).Aggregate
          spaceResultsCollectionName exampleRequest = some cur ∧ cur.docs = rows.map some
        ∧ ({ exampleRequest with Data :=
            [⟨"line", "Max count", true, "DD-MM-YYYY HH:mm:ss",
                [⟨"2023-06-01 10:00 - 10:59", "2023-06-01 10:00 - 10:59", 4⟩,
                  ⟨"2023-06-01 11:00 - 11:59", "2023-06-01 11:00 - 11:59", 7⟩]⟩] } : Stats)
          = { exampleRequest with Data := exampleRequest.Data ++
            [⟨exampleRequest.ChartType, "Max count", true, exampleRequest.AxisX.ValueFormat,
                maxCount⟩] }
        ∧ maxCount.Perm (rows.map (fun row =>
            ⟨(dateToString row exampleRequest.Timezone exampleRequest.AxisX.IntervalType).1,
              (dateToString row exampleRequest.Timezone exampleRequest.AxisX.IntervalType).1,
              row.MaxCount⟩))
        ∧ maxCount.length = rows.length
        ∧ (∀ p ∈ maxCount, p.Label = p.X) :=
  ⟨insertionSort_sorts, by decide,
    C14_space_series insertionSort insertionSort_sorts
      (cursorDatabase (exampleRows.map some) false false) exampleRequest _ (by decide)⟩

theorem pairwise_get (d : List StatsDataPoint)
    (h : d.Pairwise (fun a b => lexLt b.X.data a.X.data = false)) :
    ∀ i j : Fin d.length, i < j → strLe (d.get i).X (d.get j).X = true := by
  intro i j hij
  have := (List.pairwise_iff_get.1 h) i j hij
  unfold strLe
  rw [this]
  rfl

/-- C15: in every series that a successful `StatsGetGate` or `StatsGetSpace`
has appended the points are in ascending order of X, that is
`Data[i].X <= Data[j].X` in byte-wise string order for all indices `i < j`,
and the points are a permutation of the points built from the decoded rows.
The order comes from the closure `Data[i].X < Data[j].X` that the functions
pass to `sort.Slice`: of `sort.Slice` only its guarantee for an arbitrary
`less` is assumed. -/
theorem C15_points_sorted (sortSlice : SortSlice)
    (hs : SortsByLess sortSlice) (m : Database) (sq : Stats) :
    (∀ sq2 : Stats, StatsGetGate sortSlice m sq = (sq2, none) →
      ∃ (cur : Cursor) (rows : List StatsDataPointRaw) (entered exited : StatsData),
        m.Aggregate eventsCollectionName sq = some cur ∧ cur.docs = rows.map some
        ∧ sq2.Data = sq.Data ++ [entered, exited]
        ∧ (∀ i j : Fin entered.Data.length, i < j →
            strLe (entered.Data.get i).X (entered.Data.get j).X = true)
        ∧ (∀ i j : Fin exited.Data.length, i < j →
            strLe (exited.Data.get i).X (exited.Data.get j).X = true)
        ∧ entered.Data.Perm (rows.map (enteredPoint sq))
        ∧ exited.Data.Perm (rows.map (exitedPoint sq)))
    ∧ (∀ sq2 : Stats, StatsGetSpace sortSlice m sq = (sq2, none) →
      ∃ (cur : Cursor) (rows : List StatsDataPointRaw) (maxCount : StatsData),
        m.Aggregate spaceResultsCollectionName sq = some cur ∧ cur.docs = rows.map some
        ∧ sq2.Data = sq.Data ++ [maxCount]
        ∧ (∀ i j : Fin maxCount.Data.length, i < j →
            strLe (maxCount.Data.get i).X (maxCount.Data.get j).X = true)
        ∧ maxCount.Data.Perm (rows.map (maxCountPoint sq))) := by
  have hs := sortsByX_of_contract sortSlice hs
  constructor
  · intro sq2 h
    obtain ⟨cur, rows, h1, h2, _, _, _, h6⟩ := StatsGetGate_success sortSlice m sq sq2 h
    refine ⟨cur, rows, _, _, h1, h2, by rw [h6], ?_, ?_, ?_, ?_⟩
    · exact pairwise_get _ (hs _).2
    · exact pairwise_get _ (hs _).2
    · exact (hs _).1
    · exact (hs _).1
  · intro sq2 h
    obtain ⟨cur, rows, h1, h2, _, _, _, h6⟩ := StatsGetSpace_success sortSlice m sq sq2 h
    refine ⟨cur, rows, _, h1, h2, by rw [h6], ?_, ?_⟩
    · exact pairwise_get _ (hs _).2
    · exact (hs _).1

/-- The insertion sort meets the guarantee of `sort.Slice`; on a cursor that
delivers the example rows (hour 11 before hour 10) both functions succeed and
return the points of hour 10 before those of hour 11. -/
theorem C15_points_sorted_witness :
    SortsByLess insertionSort
    ∧ (StatsGetGate insertionSort (cursorDatabase (exampleRows.map some) false false)
        exampleRequest).2 = none
    ∧ ((StatsGetGate insertionSort (cursorDatabase (exampleRows.map some) false false)
        exampleRequest).1.Data.map (fun d => d.Data.map (fun p => p.X)))
      = [["2023-06-01 10:00 - 10:59", "2023-06-01 11:00 - 11:59"],
          ["2023-06-01 10:00 - 10:59", "2023-06-01 11:00 - 11:59"]]
    ∧ (∃ (cur : Cursor) (rows : List StatsDataPointRaw) (entered exited : StatsData),
        (cursorDatabase (exampleRows.map some) false false).Aggregate eventsCollectionName
          exampleRequest = some cur ∧ cur.docs = rows.map some
        ∧ (StatsGetGate insertionSort (cursorDatabase (exampleRows.map some) false false)
            exampleRequest).1.Data = exampleRequest.Data ++ [entered, exited]
        ∧ (∀ i j : Fin entered.Data.length, i < j →
            strLe (entered.Data.get i).X (entered.Data.get j).X = true)
        ∧ (∀ i j : Fin exited.Data.length, i < j →
            strLe (exited.Data.get i).X (exited.Data.get j).X = true)
        ∧ entered.Data.Perm (rows.map (enteredPoint exampleRequest))
        ∧ exited.Data.Perm (rows.map (exitedPoint exampleRequest))) :=
  ⟨insertionSort_sorts, by decide, by decide,
    (C15_points_sorted insertionSort insertionSort_sorts
      (cursorDatabase (exampleRows.map some) false false) exampleRequest).1 _ (by decide)⟩

/-- The checks of `StatsGetData` in the order of the code, on parameters
whose id, start, end and timezone have been read. -/
theorem StatsGetData_read (sortSlice : SortSlice)
    (m : Database) (qp : QueryParams) (id : ObjectID) (s e : Time) (t : Int)
    (hid : DecodeQueryParameterID qp "id" = .ok id)
    (hs : ParseRFC3339 (qp.Get "start").data = some s)
    (he : ParseRFC3339 (qp.Get "end").data = some e)
    (ht : Atoi (qp.Get "timezone") = some t) (htr : -12 ≤ t ∧ t ≤ 12) :
    StatsGetData sortSlice m qp =
      if qp.Get "location" = "" ∨ InSlice (qp.Get "location") [gate, "space"] = false then
        ⟨[], .error (NewError ErrBEQPInvalidLocation)⟩
      else if qp.Get "chartType" = "" ∨ InSlice (qp.Get "chartType")
          ["area", "line", "spline", "column", "stackedColumn", "bar"] = false then
        ⟨[], .error (NewError ErrBEQPInvalidChartType)⟩
      else if qp.Get "intervalType" = "" ∨ InSlice (qp.Get "intervalType")
          [none_, hour, "day", "month", "year"] = false then
        ⟨[], .error (NewError ErrBEQPInvalidIntervalType)⟩
      else if qp.Get "location" = gate ∧ (qp.Get "isInside" = ""
          ∨ ParseBool (qp.Get "isInside") = none) then
        ⟨[], .error (NewError ErrBEQPInvalidIsInside)⟩
      else if qp.Get "intervalType" = none_ ∧ qp.Get "location" = gate then
        ⟨[], .error (NewError ErrBEQPNoRawOnGate)⟩
      else dispatch sortSlice m (builtRequest qp id s e t) := by
  unfold StatsGetData
  simp only [hid, hs, he, ht]
  rw [if_neg (by omega)]
  by_cases h1 : qp.Get "location" = "" ∨ InSlice (qp.Get "location") [gate, "space"] = false
  · rw [if_pos h1, if_pos (by simpa using h1)]
  rw [if_neg h1, if_neg (by simpa using h1)]
  by_cases h2 : qp.Get "chartType" = "" ∨ InSlice (qp.Get "chartType")
      ["area", "line", "spline", "column", "stackedColumn", "bar"] = false
  · rw [if_pos h2, if_pos (by simpa using h2)]
  rw [if_neg h2, if_neg (by simpa using h2)]
  by_cases h3 : qp.Get "intervalType" = "" ∨ InSlice (qp.Get "intervalType")
      [none_, hour, "day", "month", "year"] = false
  · rw [if_pos h3, if_pos (by simpa using h3)]
  rw [if_neg h3, if_neg (by simpa using h3)]
  by_cases h4 : qp.Get "location" = gate ∧ (qp.Get "isInside" = ""
      ∨ ParseBool (qp.Get "isInside") = none)
  · rw [if_pos h4]
    obtain ⟨hg, h4 | h4⟩ := h4
    · rw [if_pos ⟨hg, h4⟩]
    · by_cases h5 : qp.Get "isInside" = ""
      · rw [if_pos ⟨hg, h5⟩]
      · rw [if_neg (by tauto), if_pos ⟨hg, h4⟩]
  rw [if_neg h4, if_neg (by tauto), if_neg (by tauto)]
  by_cases h5 : qp.Get "intervalType" = none_ ∧ qp.Get "location" = gate
  · rw [if_pos h5, if_pos h5]
  rw [if_neg h5, if_neg h5]
  rfl

theorem InSlice_iff (p : String) (s : List String) : InSlice p s = true ↔ p ∈ s := by
  induction s with
  | nil => simp [InSlice]
  | cons n rest ih =>
    unfold InSlice
    by_cases h : p = n
    · simp [h]
    · simp [h, ih]

/-- Either `StatsGetData` calls no statistics function, or every check has
passed and it dispatches on the request built from the parameters. -/
theorem StatsGetData_cases (sortSlice : SortSlice)
    (m : Database) (qp : QueryParams) :
    ((StatsGetData sortSlice m qp).calls = []
      ∧ ∃ err, (StatsGetData sortSlice m qp).result = .error err)
    ∨ ∃ (id : ObjectID) (s e : Time) (t : Int),
        DecodeQueryParameterID qp "id" = .ok id
        ∧ ParseRFC3339 (qp.Get "start").data = some s
        ∧ ParseRFC3339 (qp.Get "end").data = some e
        ∧ Atoi (qp.Get "timezone") = some t ∧ (-12 ≤ t ∧ t ≤ 12)
        ∧ qp.Get "location" ∈ [gate, "space"]
        ∧ qp.Get "chartType" ∈ ["area", "line", "spline", "column", "stackedColumn", "bar"]
        ∧ qp.Get "intervalType" ∈ [none_, hour, "day", "month", "year"]
        ∧ (qp.Get "location" = gate →
            ParseBool (qp.Get "isInside") ≠ none ∧ qp.Get "intervalType" ≠ none_)
        ∧ StatsGetData sortSlice m qp = dispatch sortSlice m (builtRequest qp id s e t) := by
  cases hid : DecodeQueryParameterID qp "id" with
  | error err => left; unfold StatsGetData; simp [hid]
  | ok id =>
    cases hs : ParseRFC3339 (qp.Get "start").data with
    | none => left; unfold StatsGetData; simp [hid, hs]
    | some s =>
      cases he : ParseRFC3339 (qp.Get "end").data with
      | none => left; unfold StatsGetData; simp [hid, hs, he]
      | some e =>
        cases ht : Atoi (qp.Get "timezone") with
        | none => left; unfold StatsGetData; simp [hid, hs, he, ht]
        | some t =>
          by_cases htr : -12 ≤ t ∧ t ≤ 12
          swap
          · left
            unfold StatsGetData
            simp only [hid, hs, he, ht]
            rw [if_pos (by omega)]
            simp
          rw [StatsGetData_read sortSlice m qp id s e t hid hs he ht htr]
          split
          · left; simp
          split
          · left; simp
          split
          · left; simp
          split
          · left; simp
          split
          · left; simp
          rename_i h1 h2 h3 h4 h5
          right
          refine ⟨id, s, e, t, rfl, rfl, rfl, rfl, htr, ?_, ?_, ?_, ?_, rfl⟩
          · rw [← InSlice_iff]; simpa using (not_or.1 h1).2
          · rw [← InSlice_iff]; simpa using (not_or.1 h2).2
          · rw [← InSlice_iff]; simpa using (not_or.1 h3).2
          · intro hg
            exact ⟨fun hn => h4 ⟨hg, Or.inr hn⟩, fun hn => h5 ⟨hn, hg⟩⟩

theorem dispatch_gate (sortSlice : SortSlice) (m : Database)
    (sq : Stats) (h : sq.Location = gate) :
    (dispatch sortSlice m sq).calls = [Call.StatsGetGate sq]
    ∧ (dispatch sortSlice m sq).result =
        match (StatsGetGate sortSlice m sq).2 with
        | some err => .error err
        | none => .ok (StatsGetGate sortSlice m sq).1 := by
  unfold dispatch
  rw [if_pos h]
  cases hr : StatsGetGate sortSlice m sq with
  | mk sq2 err => cases err <;> simp

theorem dispatch_space (sortSlice : SortSlice) (m : Database)
    (sq : Stats) (h : sq.Location = "space") :
    (dispatch sortSlice m sq).calls = [Call.StatsGetSpace sq]
    ∧ (dispatch sortSlice m sq).result =
        match (StatsGetSpace sortSlice m sq).2 with
        | some err => .error err
        | none => .ok (StatsGetSpace sortSlice m sq).1 := by
  unfold dispatch
  rw [if_neg (by rw [h]; decide), if_pos h]
  cases hr : StatsGetSpace sortSlice m sq with
  | mk sq2 err => cases err <;> simp

theorem axisFormat_cases (it : String) (h : it ∈ [none_, hour, "day", "month", "year"]) :
    (axisFormat it).1 ∈ ["hour", "day", "month", "year"]
    ∧ (it = "none" → axisFormat it = ("hour", "DD-MM-YYYY HH:mm:ss"))
    ∧ (it ≠ "none" → (axisFormat it).1 = it) := by
  simp only [List.mem_cons, List.mem_singleton, List.not_mem_nil, or_false] at h
  rcases h with rfl | rfl | rfl | rfl | rfl <;> decide

theorem chartType_ne_empty (ct : String)
    (h : ct ∈ ["area", "line", "spline", "column", "stackedColumn", "bar"]) : ct ≠ "" := by
  simp only [List.mem_cons, List.mem_singleton, List.not_mem_nil, or_false] at h
  rcases h with rfl | rfl | rfl | rfl | rfl | rfl <;> decide

theorem errors_differ :
    (∀ e : Error, (e = NewError ErrDBQuery ∨ e = NewError ErrDBDecode
        ∨ e = NewError ErrBETimeConversion ∨ e = NewError ErrDBCursorIterate
        ∨ e = NewError ErrDBCursorClose ∨ e = NewError ErrDBNoData) →
      e ≠ NewError ErrBEQPNoRawOnGate ∧ e ≠ NewError ErrBEQPInvalidIsInside) := by
  intro e h
  rcases h with rfl | rfl | rfl | rfl | rfl | rfl <;> decide

/-- C17: for a request whose id, start, end, timezone and chart type are
valid, location `gate` with interval type `none` and a parseable `isInside`
makes `StatsGetData` return `ErrBEQPNoRawOnGate` without a call of
`StatsGetGate` or `StatsGetSpace`; location `space` with interval type `none`
passes this check: `StatsGetSpace` is called, with interval type `hour`, and
the result is not that error. -/
theorem C17_no_raw_on_gate (sortSlice : SortSlice)
    (m : Database) (qp : QueryParams) (id : ObjectID) (s e : Time) (t : Int)
    (hid : DecodeQueryParameterID qp "id" = .ok id)
    (hs : ParseRFC3339 (qp.Get "start").data = some s)
    (he : ParseRFC3339 (qp.Get "end").data = some e)
    (ht : Atoi (qp.Get "timezone") = some t) (htr : -12 ≤ t ∧ t ≤ 12)
    (hct : qp.Get "chartType" ∈ ["area", "line", "spline", "column", "stackedColumn", "bar"]) :
    (qp.Get "location" = "gate" → qp.Get "intervalType" = "none" →
        ParseBool (qp.Get "isInside") ≠ none →
      StatsGetData sortSlice m qp = ⟨[], .error (NewError ErrBEQPNoRawOnGate)⟩)
    ∧ (qp.Get "location" = "space" → qp.Get "intervalType" = "none" →
      (StatsGetData sortSlice m qp).calls = [Call.StatsGetSpace (builtRequest qp id s e t)]
      ∧ (builtRequest qp id s e t).AxisX.IntervalType = "hour"
      ∧ (StatsGetData sortSlice m qp).result ≠ .error (NewError ErrBEQPNoRawOnGate)) := by
  have hce := chartType_ne_empty _ hct
  have hci := (InSlice_iff _ _).2 hct
  rw [StatsGetData_read sortSlice m qp id s e t hid hs he ht htr]
  constructor
  · intro hl hit hin
    have hin2 : qp.Get "isInside" ≠ "" := by
      intro h0
      rw [h0] at hin
      exact hin (by decide)
    rw [if_neg (by rw [hl]; decide), if_neg (by simp [hce, hci]),
      if_neg (by rw [hit]; decide), if_neg (by simp [hin, hin2]),
      if_pos ⟨by rw [hit]; rfl, by rw [hl]; rfl⟩]
  · intro hl hit
    rw [if_neg (by rw [hl]; decide), if_neg (by simp [hce, hci]),
      if_neg (by rw [hit]; decide),
      if_neg (by rw [hl]; intro h; exact absurd h.1 (by decide)),
      if_neg (by rw [hl]; intro h; exact absurd h.2 (by decide))]
    have hloc : (builtRequest qp id s e t).Location = "space" := hl
    obtain ⟨d1, d2⟩ := dispatch_space sortSlice m _ hloc
    refine ⟨d1, ?_, ?_⟩
    · show (axisFormat (qp.Get "intervalType")).1 = "hour"
      rw [hit]; decide
    · rw [d2]
      cases hr : (StatsGetSpace sortSlice m (builtRequest qp id s e t)).2 with
      | none => simp
      | some err =>
        have := (errors_differ err (StatsGetSpace_errors sortSlice m _ err hr)).1
        simpa using this

/-- The example request with interval type `none` is rejected for a gate and
reaches `StatsGetSpace` for a space. -/
theorem C17_no_raw_on_gate_witness :
    StatsGetData insertionSort (cursorDatabase (exampleRows.map some) false false)
        rawGateQuery = ⟨[], .error (NewError ErrBEQPNoRawOnGate)⟩
    ∧ (StatsGetData insertionSort (cursorDatabase (exampleRows.map some) false false)
        rawSpaceQuery).calls = [Call.StatsGetSpace (builtRequest rawSpaceQuery
          "5f1a2b3c4d5e6f7a8b9c0d1e" (Date 2023 6 1 0 0 0 0) (Date 2023 6 1 23 59 59 0) 0)] :=
  ⟨(C17_no_raw_on_gate insertionSort (cursorDatabase (exampleRows.map some) false false)
      rawGateQuery "5f1a2b3c4d5e6f7a8b9c0d1e" (Date 2023 6 1 0 0 0 0)
      (Date 2023 6 1 23 59 59 0) 0 (by decide) (by decide) (by decide) (by decide) (by decide)
      (by decide)).1 (by decide) (by decide) (by decide),
    ((C17_no_raw_on_gate insertionSort (cursorDatabase (exampleRows.map some) false false)
      rawSpaceQuery "5f1a2b3c4d5e6f7a8b9c0d1e" (Date 2023 6 1 0 0 0 0)
      (Date 2023 6 1 23 59 59 0) 0 (by decide) (by decide) (by decide) (by decide) (by decide)
      (by decide)).2 (by decide) (by decide)).1⟩

/-- C18: whenever `StatsGetData` calls `StatsGetGate` or `StatsGetSpace`, the
request it passes has location `gate` (for `StatsGetGate`) or `space` (for
`StatsGetSpace`), a chart type among the six allowed that is the `chartType`
parameter itself, an interval type among hour, day, month and year (a
requested `none` replaced by `hour`, with the hour value format), a timezone
that is the integer of the parameter and lies in -12..12, and no series. -/
theorem C18_core_preconditions (sortSlice : SortSlice)
    (m : Database) (qp : QueryParams) (c : Call)
    (h : c ∈ (StatsGetData sortSlice m qp).calls) :
    ∃ sq : Stats,
      ((c = Call.StatsGetGate sq ∧ sq.Location = "gate")
        ∨ (c = Call.StatsGetSpace sq ∧ sq.Location = "space"))
      ∧ sq.ChartType ∈ ["area", "line", "spline", "column", "stackedColumn", "bar"]
      ∧ sq.ChartType = qp.Get "chartType"
      ∧ sq.AxisX.IntervalType ∈ ["hour", "day", "month", "year"]
      ∧ (qp.Get "intervalType" = "none" →
          sq.AxisX.IntervalType = "hour" ∧ sq.AxisX.ValueFormat = "DD-MM-YYYY HH:mm:ss")
      ∧ (qp.Get "intervalType" ≠ "none" → sq.AxisX.IntervalType = qp.Get "intervalType")
      ∧ (-12 ≤ sq.Timezone ∧ sq.Timezone ≤ 12)
      ∧ Atoi (qp.Get "timezone") = some sq.Timezone
      ∧ sq.Data = [] := by
  rcases StatsGetData_cases sortSlice m qp with ⟨h0, _⟩ | ⟨id, s, e, t, hid, hs, he, ht, htr,
    hl, hct, hit, hg, hd⟩
  · rw [h0] at h
    simp at h
  obtain ⟨a1, a2, a3⟩ := axisFormat_cases _ hit
  rw [hd] at h
  refine ⟨builtRequest qp id s e t, ?_, hct, rfl, a1, ?_, a3, htr, ht, rfl⟩
  · simp only [List.mem_cons, List.mem_singleton, List.not_mem_nil, or_false] at hl
    rcases hl with hl | hl
    · rw [(dispatch_gate sortSlice m (builtRequest qp id s e t) hl).1] at h
      exact Or.inl ⟨by simpa using h, hl⟩
    · rw [(dispatch_space sortSlice m (builtRequest qp id s e t) hl).1] at h
      exact Or.inr ⟨by simpa using h, hl⟩
  · intro hn
    have := a2 hn
    exact ⟨congrArg Prod.fst this, congrArg Prod.snd this⟩

/-- The example request reaches `StatsGetGate` with a request that meets the
preconditions. -/
theorem C18_core_preconditions_witness :
    ∃ sq : Stats,
      ((Call.StatsGetGate exampleRequest = Call.StatsGetGate sq ∧ sq.Location = "gate")
        ∨ (Call.StatsGetGate exampleRequest = Call.StatsGetSpace sq ∧ sq.Location = "space"))
      ∧ sq.ChartType ∈ ["area", "line", "spline", "column", "stackedColumn", "bar"]
      ∧ sq.ChartType = exampleQuery.Get "chartType"
      ∧ sq.AxisX.IntervalType ∈ ["hour", "day", "month", "year"]
      ∧ (exampleQuery.Get "intervalType" = "none" →
          sq.AxisX.IntervalType = "hour" ∧ sq.AxisX.ValueFormat = "DD-MM-YYYY HH:mm:ss")
      ∧ (exampleQuery.Get "intervalType" ≠ "none" →
          sq.AxisX.IntervalType = exampleQuery.Get "intervalType")
      ∧ (-12 ≤ sq.Timezone ∧ sq.Timezone ≤ 12)
      ∧ Atoi (exampleQuery.Get "timezone") = some sq.Timezone
      ∧ sq.Data = [] :=
  C18_core_preconditions insertionSort (cursorDatabase (exampleRows.map some) false false)
    exampleQuery (Call.StatsGetGate exampleRequest) (by decide)

theorem digitChar_inj (a b : Nat) (ha : a < 10) (hb : b < 10) (h : digitChar a = digitChar b) :
    a = b := by
  have := congrArg Char.toNat h
  rw [digitChar_toNat a ha, digitChar_toNat b hb] at this
  omega

theorem twoDigits_inj (a b : Int) (ha : 0 ≤ a ∧ a < 100) (hb : 0 ≤ b ∧ b < 100)
    (h : twoDigits a = twoDigits b) : a = b := by
  unfold twoDigits at h
  simp only [List.cons.injEq, and_true] at h
  have h1 := digitChar_inj _ _ (by omega) (by omega) h.1
  have h2 := digitChar_inj _ _ (by omega) (by omega) h.2
  omega

theorem yearDigits_small (y : Int) (h : y < 10000) :
    yearDigits y = [digitChar (y.toNat / 1000), digitChar (y.toNat / 100 % 10),
      digitChar (y.toNat / 10 % 10), digitChar (y.toNat % 10)] := by
  unfold yearDigits
  rw [if_pos h]

theorem yearDigits_big : yearDigits 10000 = ['1', '0', '0', '0', '0'] := by decide

theorem yearDigits_inj_small (a b : Int) (ha : 0 ≤ a ∧ a < 10000) (hb : 0 ≤ b ∧ b < 10000)
    (h : yearDigits a = yearDigits b) : a = b := by
  rw [yearDigits_small a ha.2, yearDigits_small b hb.2] at h
  simp only [List.cons.injEq, and_true] at h
  have h1 := digitChar_inj _ _ (by omega) (by omega) h.1
  have h2 := digitChar_inj _ _ (by omega) (by omega) h.2.1
  have h3 := digitChar_inj _ _ (by omega) (by omega) h.2.2.1
  have h4 := digitChar_inj _ _ (by omega) (by omega) h.2.2.2
  omega

/-- A year text followed by the end of the label or by a dash determines the
year. -/
theorem yearDigits_inj (a b : Int) (ha : 0 ≤ a ∧ a ≤ 10000) (hb : 0 ≤ b ∧ b ≤ 10000)
    (r1 r2 : List Char) (hr1 : r1 = [] ∨ ∃ t, r1 = '-' :: t) (hr2 : r2 = [] ∨ ∃ t, r2 = '-' :: t)
    (h : yearDigits a ++ r1 = yearDigits b ++ r2) : a = b ∧ r1 = r2 := by
  have hd : digitChar 0 ≠ '-' := by decide
  by_cases ca : a < 10000 <;> by_cases cb : b < 10000
  · have hl : (yearDigits a).length = (yearDigits b).length := by
      rw [yearDigits_length a ca, yearDigits_length b cb]
    obtain ⟨e1, e2⟩ := List.append_inj h hl
    exact ⟨yearDigits_inj_small a b ⟨ha.1, ca⟩ ⟨hb.1, cb⟩ e1, e2⟩
  · have eb : b = 10000 := by omega
    subst eb
    rw [yearDigits_small a ca, yearDigits_big] at h
    exfalso
    rcases hr1 with rfl | ⟨t, rfl⟩
    · simp at h
    · simp only [List.cons_append, List.nil_append, List.cons.injEq] at h
      exact absurd h.2.2.2.2.1.symm (by decide)
  · have ea : a = 10000 := by omega
    subst ea
    rw [yearDigits_small b cb, yearDigits_big] at h
    exfalso
    rcases hr2 with rfl | ⟨t, rfl⟩
    · simp at h
    · simp only [List.cons_append, List.nil_append, List.cons.injEq] at h
      exact absurd h.2.2.2.2.1 (by decide)
  · have ea : a = 10000 := by omega
    have eb : b = 10000 := by omega
    subst ea eb
    exact ⟨rfl, List.append_cancel_left h⟩

theorem texts_inj (y1 m1 d1 h1 y2 m2 d2 h2 : Int)
    (r1 : (0 ≤ y1 ∧ y1 ≤ 10000) ∧ (0 ≤ m1 ∧ m1 < 100) ∧ (0 ≤ d1 ∧ d1 < 100) ∧ (0 ≤ h1 ∧ h1 < 100))
    (r2 : (0 ≤ y2 ∧ y2 ≤ 10000) ∧ (0 ≤ m2 ∧ m2 < 100) ∧ (0 ≤ d2 ∧ d2 < 100) ∧ (0 ≤ h2 ∧ h2 < 100)) :
    (hourText y1 m1 d1 h1 = hourText y2 m2 d2 h2 → y1 = y2 ∧ m1 = m2 ∧ d1 = d2 ∧ h1 = h2)
    ∧ (dayText y1 m1 d1 = dayText y2 m2 d2 → y1 = y2 ∧ m1 = m2 ∧ d1 = d2)
    ∧ (monthText y1 m1 = monthText y2 m2 → y1 = y2 ∧ m1 = m2)
    ∧ (yearText y1 = yearText y2 → y1 = y2) := by
  have two : ∀ (a b : Int) (x y : List Char), (0 ≤ a ∧ a < 100) → (0 ≤ b ∧ b < 100) →
      twoDigits a ++ x = twoDigits b ++ y → a = b ∧ x = y := by
    intro a b x y ha hb h
    obtain ⟨e1, e2⟩ := List.append_inj h rfl
    exact ⟨twoDigits_inj a b ha hb e1, e2⟩
  refine ⟨?_, ?_, ?_, ?_⟩
  · intro h
    have h := congrArg String.data h
    simp only [hourText, String.toList, List.append_assoc, List.cons_append,
      List.nil_append, List.singleton_append] at h
    obtain ⟨e1, h⟩ := yearDigits_inj y1 y2 r1.1 r2.1 _ _ (Or.inr ⟨_, rfl⟩) (Or.inr ⟨_, rfl⟩) h
    obtain ⟨e2, h⟩ := two _ _ _ _ r1.2.1 r2.2.1 (List.cons.inj h).2
    obtain ⟨e3, h⟩ := two _ _ _ _ r1.2.2.1 r2.2.2.1 (List.cons.inj h).2
    obtain ⟨e4, h⟩ := two _ _ _ _ r1.2.2.2 r2.2.2.2 (List.cons.inj h).2
    exact ⟨e1, e2, e3, e4⟩
  · intro h
    have h := congrArg String.data h
    simp only [dayText, String.toList, List.append_assoc, List.cons_append,
      List.nil_append, List.singleton_append] at h
    obtain ⟨e1, h⟩ := yearDigits_inj y1 y2 r1.1 r2.1 _ _ (Or.inr ⟨_, rfl⟩) (Or.inr ⟨_, rfl⟩) h
    obtain ⟨e2, h⟩ := two _ _ _ _ r1.2.1 r2.2.1 (List.cons.inj h).2
    have e3 := twoDigits_inj _ _ r1.2.2.1 r2.2.2.1 (List.cons.inj h).2
    exact ⟨e1, e2, e3⟩
  · intro h
    have h := congrArg String.data h
    simp only [monthText, String.toList, List.append_assoc, List.cons_append,
      List.nil_append, List.singleton_append] at h
    obtain ⟨e1, h⟩ := yearDigits_inj y1 y2 r1.1 r2.1 _ _ (Or.inr ⟨_, rfl⟩) (Or.inr ⟨_, rfl⟩) h
    have e2 := twoDigits_inj _ _ r1.2.1 r2.2.1 (List.cons.inj h).2
    exact ⟨e1, e2⟩
  · intro h
    have h := congrArg String.data h
    simp only [yearText] at h
    have h2 : yearDigits y1 ++ [] = yearDigits y2 ++ [] := by simpa using h
    exact (yearDigits_inj y1 y2 r1.1 r2.1 _ _ (Or.inl rfl) (Or.inl rfl) h2).1

/-- The day number of an instant is that of its calendar date. -/
theorem dayNumber_fields (t : Time) :
    t.sec / 86400 = daysSinceEpoch t.Year + dayOfYear t.Year t.Month t.Day := by
  have := (absDate_valid (t.sec / 86400)).2.2
  unfold Time.Year Time.Month Time.Day
  omega

/-- The day number and the calendar date of the instant of a valid key. -/
theorem keyTime_day (sd : StatsDataPointRaw) (hv : validKey sd) :
    ∃ N : Int, (keyTime sd).sec = N * 86400 + ((sd.Hour : Int) * 3600 + (sd.Minute : Int) * 60
        + (sd.Second : Int))
      ∧ absDate N = ((sd.Year : Int), ((defaulted sd.Month : Nat) : Int),
          ((defaulted sd.Day : Nat) : Int))
      ∧ N = daysSinceEpoch sd.Year + dayOfYear sd.Year (defaulted sd.Month) (defaulted sd.Day) := by
  obtain ⟨hy, hm, hd, hh, hmi, hs⟩ := (validKey_iff sd).1 hv
  refine ⟨_, ?_, absDate_dayOfYear _ _ _ (by omega) (by omega), rfl⟩
  rw [keyTime_eq sd hv]

/-- The fields of the instant of a valid key, shifted by `Z` hours. -/
theorem shifted_fields (sd : StatsDataPointRaw) (Z : Int) (hv : validKey sd)
    (hZ : -12 ≤ Z ∧ Z ≤ 12) :
    (0 ≤ (plusHours (keyTime sd) Z).Year ∧ (plusHours (keyTime sd) Z).Year ≤ 10000)
    ∧ (0 ≤ (plusHours (keyTime sd) Z).Month ∧ (plusHours (keyTime sd) Z).Month < 100)
    ∧ (0 ≤ (plusHours (keyTime sd) Z).Day ∧ (plusHours (keyTime sd) Z).Day < 100)
    ∧ (0 ≤ (plusHours (keyTime sd) Z).Hour ∧ (plusHours (keyTime sd) Z).Hour < 100) := by
  have y := shifted_year_range sd Z hv hZ
  obtain ⟨⟨am, ad, ah, _, _⟩, _⟩ := Time_fields (plusHours (keyTime sd) Z)
  have d31 := daysIn_bound _ (plusHours (keyTime sd) Z).Year am
  omega

/-- The shifted instant of a valid key, in seconds. -/
theorem shifted_sec (sd : StatsDataPointRaw) (Z : Int) (hv : validKey sd) :
    ∃ N : Int, (plusHours (keyTime sd) Z).sec = N * 86400 + ((sd.Hour : Int) * 3600
        + (sd.Minute : Int) * 60 + (sd.Second : Int)) + 3600 * Z
      ∧ absDate N = ((sd.Year : Int), ((defaulted sd.Month : Nat) : Int),
          ((defaulted sd.Day : Nat) : Int))
      ∧ N = daysSinceEpoch sd.Year + dayOfYear sd.Year (defaulted sd.Month) (defaulted sd.Day) := by
  obtain ⟨N, h1, h2, h3⟩ := keyTime_day sd hv
  refine ⟨N, ?_, h2, h3⟩
  unfold plusHours
  simp only
  rw [h1]

theorem key_of_absDate (k1 k2 : StatsDataPointRaw) (N : Int)
    (h1 : absDate N = ((k1.Year : Int), ((defaulted k1.Month : Nat) : Int),
      ((defaulted k1.Day : Nat) : Int)))
    (h2 : absDate N = ((k2.Year : Int), ((defaulted k2.Month : Nat) : Int),
      ((defaulted k2.Day : Nat) : Int))) :
    k1.Year = k2.Year ∧ defaulted k1.Month = defaulted k2.Month
      ∧ defaulted k1.Day = defaulted k2.Day := by
  rw [h1] at h2
  simp only [Prod.mk.injEq, Nat.cast_inj] at h2
  exact h2

/-- Hour labels tell hour keys apart. -/
theorem label_inj_hour (k1 k2 : StatsDataPointRaw) (Z : Int) (hv1 : validKey k1)
    (hv2 : validKey k2) (hZ : -12 ≤ Z ∧ Z ≤ 12)
    (s1 : k1.Minute = 0 ∧ k1.Second = 0) (s2 : k2.Minute = 0 ∧ k2.Second = 0)
    (h : formatLabel (plusHours (keyTime k1) Z) hour = formatLabel (plusHours (keyTime k2) Z) hour) :
    k1.Year = k2.Year ∧ defaulted k1.Month = defaulted k2.Month
      ∧ defaulted k1.Day = defaulted k2.Day ∧ k1.Hour = k2.Hour := by
  have f1 := shifted_fields k1 Z hv1 hZ
  have f2 := shifted_fields k2 Z hv2 hZ
  rw [(formatLabel_texts _ f1.1.1).2.1, (formatLabel_texts _ f2.1.1).2.1] at h
  obtain ⟨e1, e2, e3, e4⟩ := (texts_inj _ _ _ _ _ _ _ _ f1 f2).1 h
  have n1 := dayNumber_fields (plusHours (keyTime k1) Z)
  have n2 := dayNumber_fields (plusHours (keyTime k2) Z)
  rw [e1, e2, e3] at n1
  obtain ⟨N1, a1, b1, _⟩ := shifted_sec k1 Z hv1
  obtain ⟨N2, a2, b2, _⟩ := shifted_sec k2 Z hv2
  obtain ⟨_, _, _, hh1, _, _⟩ := (validKey_iff k1).1 hv1
  obtain ⟨_, _, _, hh2, _, _⟩ := (validKey_iff k2).1 hv2
  unfold Time.Hour at e4
  rw [s1.1, s1.2] at a1
  rw [s2.1, s2.2] at a2
  have hN : N1 = N2 ∧ k1.Hour = k2.Hour := by
    generalize (plusHours (keyTime k1) Z).sec = x1 at *
    generalize (plusHours (keyTime k2) Z).sec = x2 at *
    omega
  obtain ⟨hN, hH⟩ := hN
  subst hN
  obtain ⟨g1, g2, g3⟩ := key_of_absDate k1 k2 N1 b1 b2
  exact ⟨g1, g2, g3, hH⟩

/-- Day labels tell day keys apart. -/
theorem label_inj_day (k1 k2 : StatsDataPointRaw) (Z : Int) (hv1 : validKey k1)
    (hv2 : validKey k2) (hZ : -12 ≤ Z ∧ Z ≤ 12)
    (s1 : k1.Hour = 0 ∧ k1.Minute = 0 ∧ k1.Second = 0)
    (s2 : k2.Hour = 0 ∧ k2.Minute = 0 ∧ k2.Second = 0)
    (h : formatLabel (plusHours (keyTime k1) Z) day = formatLabel (plusHours (keyTime k2) Z) day) :
    k1.Year = k2.Year ∧ defaulted k1.Month = defaulted k2.Month
      ∧ defaulted k1.Day = defaulted k2.Day := by
  have f1 := shifted_fields k1 Z hv1 hZ
  have f2 := shifted_fields k2 Z hv2 hZ
  rw [(formatLabel_texts _ f1.1.1).2.2.1, (formatLabel_texts _ f2.1.1).2.2.1] at h
  obtain ⟨e1, e2, e3⟩ := (texts_inj _ _ _ 0 _ _ _ 0 ⟨f1.1, f1.2.1, f1.2.2.1, by omega⟩
    ⟨f2.1, f2.2.1, f2.2.2.1, by omega⟩).2.1 h
  have n1 := dayNumber_fields (plusHours (keyTime k1) Z)
  have n2 := dayNumber_fields (plusHours (keyTime k2) Z)
  rw [e1, e2, e3] at n1
  obtain ⟨N1, a1, b1, _⟩ := shifted_sec k1 Z hv1
  obtain ⟨N2, a2, b2, _⟩ := shifted_sec k2 Z hv2
  rw [s1.1, s1.2.1, s1.2.2] at a1
  rw [s2.1, s2.2.1, s2.2.2] at a2
  have hN : N1 = N2 := by
    generalize (plusHours (keyTime k1) Z).sec = x1 at *
    generalize (plusHours (keyTime k2) Z).sec = x2 at *
    omega
  subst hN
  exact key_of_absDate k1 k2 N1 b1 b2

/-- The day before the first day of a month is the last day of its month. -/
theorem month_end (a : Time) (N Y M : Int) (hn : a.sec / 86400 = N - 1)
    (hN : absDate N = (Y, M, 1)) : a.Day = daysIn a.Month a.Year := by
  obtain ⟨hm, hd, _⟩ := absDate_valid (a.sec / 86400)
  have n1 := dayNumber_fields a
  by_contra hc
  have hlt : a.Day + 1 ≤ daysIn a.Month a.Year := by
    unfold Time.Day Time.Month Time.Year at hc ⊢
    omega
  have hm2 : 1 ≤ a.Month ∧ a.Month ≤ 12 := hm
  have hd2 : 1 ≤ a.Day := hd.1
  have ha := absDate_dayOfYear a.Year a.Month (a.Day + 1) hm2 ⟨by omega, hlt⟩
  have e : daysSinceEpoch a.Year + dayOfYear a.Year a.Month (a.Day + 1) = N := by
    unfold dayOfYear at n1 ⊢
    omega
  rw [e, hN] at ha
  simp only [Prod.mk.injEq] at ha
  omega

/-- Month labels tell month keys apart. -/
theorem label_inj_month (k1 k2 : StatsDataPointRaw) (Z : Int) (hv1 : validKey k1)
    (hv2 : validKey k2) (hZ : -12 ≤ Z ∧ Z ≤ 12)
    (s1 : k1.Day = 0 ∧ k1.Hour = 0 ∧ k1.Minute = 0 ∧ k1.Second = 0)
    (s2 : k2.Day = 0 ∧ k2.Hour = 0 ∧ k2.Minute = 0 ∧ k2.Second = 0)
    (h : formatLabel (plusHours (keyTime k1) Z) month
      = formatLabel (plusHours (keyTime k2) Z) month) :
    k1.Year = k2.Year ∧ defaulted k1.Month = defaulted k2.Month := by
  have f1 := shifted_fields k1 Z hv1 hZ
  have f2 := shifted_fields k2 Z hv2 hZ
  rw [(formatLabel_texts _ f1.1.1).2.2.2.1, (formatLabel_texts _ f2.1.1).2.2.2.1] at h
  obtain ⟨e1, e2⟩ := (texts_inj _ _ 0 0 _ _ 0 0 ⟨f1.1, f1.2.1, by omega, by omega⟩
    ⟨f2.1, f2.2.1, by omega, by omega⟩).2.2.1 h
  obtain ⟨N1, a1, b1, _⟩ := shifted_sec k1 Z hv1
  obtain ⟨N2, a2, b2, _⟩ := shifted_sec k2 Z hv2
  rw [s1.2.1, s1.2.2.1, s1.2.2.2] at a1
  rw [s2.2.1, s2.2.2.1, s2.2.2.2] at a2
  have d0 : ((defaulted 0 : Nat) : Int) = 1 := rfl
  rw [s1.1, d0] at b1
  rw [s2.1, d0] at b2
  have hN : N1 = N2 := by
    by_cases hz : 0 ≤ Z
    · have q1 : (plusHours (keyTime k1) Z).sec / 86400 = N1 := by omega
      have q2 : (plusHours (keyTime k2) Z).sec / 86400 = N2 := by omega
      have y1 : (plusHours (keyTime k1) Z).Year = k1.Year := by
        unfold Time.Year; rw [q1, b1]
      have y2 : (plusHours (keyTime k2) Z).Year = k2.Year := by
        unfold Time.Year; rw [q2, b2]
      have m1 : (plusHours (keyTime k1) Z).Month = (defaulted k1.Month : Nat) := by
        unfold Time.Month; rw [q1, b1]
      have m2 : (plusHours (keyTime k2) Z).Month = (defaulted k2.Month : Nat) := by
        unfold Time.Month; rw [q2, b2]
      have hh := (absDate_valid N1).2.2
      have hh2 := (absDate_valid N2).2.2
      rw [b1] at hh
      rw [b2] at hh2
      simp only at hh hh2
      rw [← y1, ← m1, e1, e2, y2, m2] at hh
      omega
    · have q1 : (plusHours (keyTime k1) Z).sec / 86400 = N1 - 1 := by omega
      have q2 : (plusHours (keyTime k2) Z).sec / 86400 = N2 - 1 := by omega
      have g1 := month_end _ N1 _ _ q1 b1
      have g2 := month_end _ N2 _ _ q2 b2
      have n1 := dayNumber_fields (plusHours (keyTime k1) Z)
      have n2 := dayNumber_fields (plusHours (keyTime k2) Z)
      rw [g1, e1, e2] at n1
      rw [g2] at n2
      omega
  subst hN
  rw [b1] at b2
  simp only [Prod.mk.injEq, Nat.cast_inj, and_true] at b2
  exact b2

theorem dayOfYear_first (y : Int) : dayOfYear y 1 1 = 0 := by
  unfold dayOfYear
  simp [daysBefore_vals.1]

/-- Year labels tell year keys apart. -/
theorem label_inj_year (k1 k2 : StatsDataPointRaw) (Z : Int) (hv1 : validKey k1)
    (hv2 : validKey k2) (hZ : -12 ≤ Z ∧ Z ≤ 12)
    (s1 : k1.Month = 0 ∧ k1.Day = 0 ∧ k1.Hour = 0 ∧ k1.Minute = 0 ∧ k1.Second = 0)
    (s2 : k2.Month = 0 ∧ k2.Day = 0 ∧ k2.Hour = 0 ∧ k2.Minute = 0 ∧ k2.Second = 0)
    (h : formatLabel (plusHours (keyTime k1) Z) year
      = formatLabel (plusHours (keyTime k2) Z) year) :
    k1.Year = k2.Year := by
  have f1 := shifted_fields k1 Z hv1 hZ
  have f2 := shifted_fields k2 Z hv2 hZ
  rw [(formatLabel_texts _ f1.1.1).2.2.2.2, (formatLabel_texts _ f2.1.1).2.2.2.2] at h
  have e1 := (texts_inj _ 0 0 0 _ 0 0 0 ⟨f1.1, by omega, by omega, by omega⟩
    ⟨f2.1, by omega, by omega, by omega⟩).2.2.2 h
  obtain ⟨N1, a1, b1, c1⟩ := shifted_sec k1 Z hv1
  obtain ⟨N2, a2, b2, c2⟩ := shifted_sec k2 Z hv2
  rw [s1.2.2.1, s1.2.2.2.1, s1.2.2.2.2] at a1
  rw [s2.2.2.1, s2.2.2.2.1, s2.2.2.2.2] at a2
  have d0 : ((defaulted 0 : Nat) : Int) = 1 := rfl
  rw [s1.1, s1.2.1, d0, dayOfYear_first] at c1
  rw [s2.1, s2.2.1, d0, dayOfYear_first] at c2
  rw [s1.1, s1.2.1, d0] at b1
  rw [s2.1, s2.2.1, d0] at b2
  by_cases hz : 0 ≤ Z
  · have q1 : (plusHours (keyTime k1) Z).sec / 86400 = N1 := by omega
    have q2 : (plusHours (keyTime k2) Z).sec / 86400 = N2 := by omega
    have y1 : (plusHours (keyTime k1) Z).Year = k1.Year := by
      unfold Time.Year; rw [q1, b1]
    have y2 : (plusHours (keyTime k2) Z).Year = k2.Year := by
      unfold Time.Year; rw [q2, b2]
    omega
  · have q1 : (plusHours (keyTime k1) Z).sec / 86400 = N1 - 1 := by omega
    have q2 : (plusHours (keyTime k2) Z).sec / 86400 = N2 - 1 := by omega
    have key : ∀ (a : Time) (Y : Int), a.sec / 86400 = daysSinceEpoch Y - 1 →
        Y = a.Year + 1 := by
      intro a Y hq
      have n := dayNumber_fields a
      obtain ⟨hm, hd, _⟩ := absDate_valid (a.sec / 86400)
      have r := dayOfYear_range a.Year a.Month a.Day hm hd
      have hs := daysSinceEpoch_succ a.Year
      by_contra hc
      rcases lt_or_gt_of_ne hc with c | c
      · have := daysSinceEpoch_mono (show Y ≤ a.Year by omega)
        omega
      · have := daysSinceEpoch_lt c
        have := yearLen_pos (a.Year + 1)
        omega
    have k1y := key _ (k1.Year : Int) (by rw [q1, c1]; simp)
    have k2y := key _ (k2.Year : Int) (by rw [q2, c2]; simp)
    omega

theorem dateToString_rowKey (row : StatsDataPointRaw) (Z : Int) (mt : String) :
    dateToString (rowKey row) Z mt = dateToString row Z mt := rfl

theorem groupKey_other (it : String) (u : Time) (h1 : it ≠ hour) (h2 : it ≠ day)
    (h3 : it ≠ month) (h4 : it ≠ year) : groupKey it u = { Year := 0 } := by
  unfold groupKey
  rw [if_neg h1, if_neg h2, if_neg h3, if_neg h4]

/-- Two bucket keys of one interval type that render to the same label are
the same key. -/
theorem groupKey_label_inj (it : String) (Z : Int) (hZ : -12 ≤ Z ∧ Z ≤ 12) (u1 u2 : Time)
    (h1 : (dateToString (groupKey it u1) Z it).2 = none)
    (h2 : (dateToString (groupKey it u2) Z it).2 = none)
    (h : (dateToString (groupKey it u1) Z it).1 = (dateToString (groupKey it u2) Z it).1) :
    groupKey it u1 = groupKey it u2 := by
  have v1 := validKey_of_success _ Z it h1
  have v2 := validKey_of_success _ Z it h2
  rw [dateToString_shift _ Z it v1 hZ, dateToString_shift _ Z it v2 hZ] at h
  simp only at h
  obtain ⟨⟨am, ad, ah, _, _⟩, _⟩ := Time_fields u1
  obtain ⟨⟨bm, bd, bh, _, _⟩, _⟩ := Time_fields u2
  have p1 : 1 ≤ u1.Month.toNat := by omega
  have p2 : 1 ≤ u2.Month.toNat := by omega
  have p3 : 1 ≤ u1.Day.toNat := by omega
  have p4 : 1 ≤ u2.Day.toNat := by omega
  by_cases c1 : it = hour
  · subst c1
    simp only [(groupKey_cases u1).1, (groupKey_cases u2).1] at v1 v2 h ⊢
    have := label_inj_hour _ _ Z v1 v2 hZ ⟨rfl, rfl⟩ ⟨rfl, rfl⟩ h
    simp only [defaulted_of_pos _ p1, defaulted_of_pos _ p2, defaulted_of_pos _ p3,
      defaulted_of_pos _ p4] at this
    obtain ⟨e1, e2, e3, e4⟩ := this
    rw [e1, e2, e3, e4]
  by_cases c2 : it = day
  · subst c2
    simp only [(groupKey_cases u1).2.1, (groupKey_cases u2).2.1] at v1 v2 h ⊢
    have := label_inj_day _ _ Z v1 v2 hZ ⟨rfl, rfl, rfl⟩ ⟨rfl, rfl, rfl⟩ h
    simp only [defaulted_of_pos _ p1, defaulted_of_pos _ p2, defaulted_of_pos _ p3,
      defaulted_of_pos _ p4] at this
    obtain ⟨e1, e2, e3⟩ := this
    rw [e1, e2, e3]
  by_cases c3 : it = month
  · subst c3
    simp only [(groupKey_cases u1).2.2.1, (groupKey_cases u2).2.2.1] at v1 v2 h ⊢
    have := label_inj_month _ _ Z v1 v2 hZ ⟨rfl, rfl, rfl, rfl⟩ ⟨rfl, rfl, rfl, rfl⟩ h
    simp only [defaulted_of_pos _ p1, defaulted_of_pos _ p2] at this
    obtain ⟨e1, e2⟩ := this
    rw [e1, e2]
  by_cases c4 : it = year
  · subst c4
    simp only [(groupKey_cases u1).2.2.2, (groupKey_cases u2).2.2.2] at v1 v2 h ⊢
    have := label_inj_year _ _ Z v1 v2 hZ ⟨rfl, rfl, rfl, rfl, rfl⟩ ⟨rfl, rfl, rfl, rfl, rfl⟩ h
    simp only at this
    rw [this]
  rw [groupKey_other it u1 c1 c2 c3 c4, groupKey_other it u2 c1 c2 c3 c4]

/-- Sorting two arrangements of points whose X values are pairwise distinct
gives one list. -/
theorem sorted_points_unique (sortSlice : List StatsDataPoint → List StatsDataPoint)
    (hs : SortsByX sortSlice) (l1 l2 : List StatsDataPoint) (hp : l1.Perm l2)
    (hn : (l1.map (fun p => p.X)).Nodup) : sortSlice l1 = sortSlice l2 := by
  have strict : ∀ l : List StatsDataPoint, (l.map (fun p => p.X)).Nodup →
      (sortSlice l).Pairwise (fun a b => lexLt a.X.data b.X.data = true) := by
    intro l hl
    have hn2 : ((sortSlice l).map (fun p => p.X)).Nodup :=
      (((hs l).1.map _).nodup_iff).2 hl
    have hne : (sortSlice l).Pairwise (fun a b => a.X ≠ b.X) := by
      have := hn2
      unfold List.Nodup at this
      rwa [List.pairwise_map] at this
    refine ((hs l).2.and hne).imp ?_
    intro a b hab
    by_contra hc
    simp only [Bool.not_eq_true] at hc
    exact hab.2 (String.ext (lexLt_trichotomy _ _ hc hab.1))
  haveI : IsAntisymm StatsDataPoint (fun a b => lexLt a.X.data b.X.data = true) :=
    ⟨fun a b hab hba => by
      have := lexLt_asymm _ _ hab
      rw [hba] at this
      exact absurd this (by decide)⟩
  have hn2 : (l2.map (fun p => p.X)).Nodup := ((hp.map _).nodup_iff).1 hn
  exact List.eq_of_perm_of_sorted (((hs l1).1.trans hp).trans (hs l2).1.symm)
    (strict l1 hn) (strict l2 hn2)

/-- The labels of rows with pairwise distinct bucket keys that all render
are pairwise distinct. -/
theorem labels_nodup (sq : Stats) (hZ : -12 ≤ sq.Timezone ∧ sq.Timezone ≤ 12)
    (rows : List StatsDataPointRaw)
    (hk : ∀ row ∈ rows, ∃ ts, rowKey row = groupKey sq.AxisX.IntervalType ts)
    (hd : (rows.map rowKey).Nodup)
    (hr : ∀ row ∈ rows, (dateToString row sq.Timezone sq.AxisX.IntervalType).2 = none) :
    (rows.map (fun r => (dateToString r sq.Timezone sq.AxisX.IntervalType).1)).Nodup := by
  refine List.Nodup.map_on ?_ hd.of_map
  intro x hx y hy hxy
  apply List.inj_on_of_nodup_map hd hx hy
  obtain ⟨u1, e1⟩ := hk x hx
  obtain ⟨u2, e2⟩ := hk y hy
  have r1 := hr x hx
  have r2 := hr y hy
  rw [← dateToString_rowKey, e1] at r1
  rw [← dateToString_rowKey, e2] at r2
  rw [← dateToString_rowKey x, ← dateToString_rowKey y, e1, e2] at hxy
  rw [e1, e2]
  exact groupKey_label_inj _ _ hZ u1 u2 r1 r2 hxy

/-- C16: the series of `StatsGetGate` and `StatsGetSpace` do not depend on
the order in which the cursor delivers the rows.  For a `sort.Slice` that meets its guarantee,
a request whose timezone is in -12..12, and two arrangements of the same rows,
one row per bucket with pairwise distinct bucket keys of the request's
interval type, both functions return the same request value and the same
error, whatever the cursor reports at its end: the same series, point by
point. -/
theorem C16_order_independent (sortSlice : SortSlice)
    (hs : SortsByLess sortSlice) (sq : Stats) (hZ : -12 ≤ sq.Timezone ∧ sq.Timezone ≤ 12)
    (rows1 rows2 : List StatsDataPointRaw) (hp : rows1.Perm rows2)
    (hk : ∀ row ∈ rows1, ∃ ts, rowKey row = groupKey sq.AxisX.IntervalType ts)
    (hd : (rows1.map rowKey).Nodup) (err closeErr : Bool) :
    StatsGetGate sortSlice (cursorDatabase (rows1.map some) err closeErr) sq
      = StatsGetGate sortSlice (cursorDatabase (rows2.map some) err closeErr) sq
    ∧ StatsGetSpace sortSlice (cursorDatabase (rows1.map some) err closeErr) sq
      = StatsGetSpace sortSlice (cursorDatabase (rows2.map some) err closeErr) sq := by
  have hs := sortsByX_of_contract sortSlice hs
  unfold StatsGetGate StatsGetSpace cursorDatabase
  simp only [gateLoop_rows, spaceLoop_rows, List.nil_append]
  by_cases hr : ∀ row ∈ rows1, (dateToString row sq.Timezone sq.AxisX.IntervalType).2 = none
  · have hr2 : ∀ row ∈ rows2,
        (dateToString row sq.Timezone sq.AxisX.IntervalType).2 = none :=
      fun row h => hr row (hp.mem_iff.2 h)
    have hl := labels_nodup sq hZ rows1 hk hd hr
    have e1 : sortSlice lessX (rows1.map (enteredPoint sq)) = sortSlice lessX (rows2.map (enteredPoint sq)) :=
      sorted_points_unique (sortSlice lessX) hs _ _ (hp.map _) (by rw [enteredPoint_X]; exact hl)
    have e2 : sortSlice lessX (rows1.map (exitedPoint sq)) = sortSlice lessX (rows2.map (exitedPoint sq)) :=
      sorted_points_unique (sortSlice lessX) hs _ _ (hp.map _) (by rw [exitedPoint_X]; exact hl)
    have e3 : sortSlice lessX (rows1.map (maxCountPoint sq))
        = sortSlice lessX (rows2.map (maxCountPoint sq)) :=
      sorted_points_unique (sortSlice lessX) hs _ _ (hp.map _) (by
        have : (rows1.map (maxCountPoint sq)).map (fun p => p.X)
            = rows1.map (fun r => (dateToString r sq.Timezone sq.AxisX.IntervalType).1) := by
          simp [maxCountPoint, Function.comp]
        rw [this]; exact hl)
    simp only [if_pos hr, if_pos hr2, e1, e2, e3, and_self]
  · have hr2 : ¬ ∀ row ∈ rows2,
        (dateToString row sq.Timezone sq.AxisX.IntervalType).2 = none :=
      fun h => hr (fun row hrow => h row (hp.mem_iff.1 hrow))
    simp only [if_neg hr, if_neg hr2, and_self]

/-- The two example rows delivered in either order give the same result. -/
theorem C16_order_independent_witness :
    StatsGetGate insertionSort (cursorDatabase (exampleRows.map some) false false)
        exampleRequest
      = StatsGetGate insertionSort
          (cursorDatabase (exampleRows.reverse.map some) false false) exampleRequest
    ∧ StatsGetSpace insertionSort (cursorDatabase (exampleRows.map some) false false)
        exampleRequest
      = StatsGetSpace insertionSort
          (cursorDatabase (exampleRows.reverse.map some) false false) exampleRequest :=
  C16_order_independent insertionSort insertionSort_sorts exampleRequest (by decide)
    exampleRows exampleRows.reverse (List.reverse_perm _).symm
    (by
      intro row hrow
      simp only [exampleRows, List.mem_cons, List.mem_singleton, List.not_mem_nil,
        or_false] at hrow
      rcases hrow with rfl | rfl
      · exact ⟨Date 2023 6 1 11 0 0 0, by decide⟩
      · exact ⟨Date 2023 6 1 10 0 0 0, by decide⟩)
    (by decide) false false

theorem norm_nsec (hi lo : Int) :
    0 ≤ (norm hi lo 1000000000).2 ∧ (norm hi lo 1000000000).2 < 1000000000 := by
  unfold norm
  simp only
  split <;> split <;> simp only at * <;> omega

theorem Date_nsec (y mo d h mi s n : Int) :
    0 ≤ (Date y mo d h mi s n).nsec ∧ (Date y mo d h mi s n).nsec < 1000000000 :=
  norm_nsec s n

theorem parseFractionAndZone_nsec (y mo d h mi sc : Int) (v : List Char) (t : Time)
    (h : parseFractionAndZone y mo d h mi sc v = some t) :
    0 ≤ t.nsec ∧ t.nsec < 1000000000 := by
  unfold parseFractionAndZone at h
  simp only [] at h
  generalize decide (v.length ≥ 2 ∧ ((v.headD (Char.ofNat 0)).toNat = 46
    ∨ (v.headD (Char.ofNat 0)).toNat = 44) ∧ isDigit v 1 = true) = frac at h
  generalize List.takeWhile _ (List.drop 1 v) = digits at h
  generalize (if frac = true then List.drop (1 + digits.length) v else v) = value at h
  generalize (if frac = true then parseNanoseconds digits else 0) = nsec at h
  split at h
  · split at h
    · cases h
    split at h
    · cases h
    simp only [Option.some.injEq] at h
    rw [← h]
    exact Date_nsec _ _ _ _ _ _ _
  split at h
  · cases h
  split at h
  · cases h
  split at h
  · cases h
  split at h
  · cases h
  split at h
  · cases h
  split at h
  · cases h
  split at h
  · cases h
  simp only [Option.some.injEq] at h
  rw [← h]
  simp only
  exact Date_nsec _ _ _ _ _ _ _

/-- An instant that `time.Parse` returns has its nanoseconds within a second. -/
theorem ParseRFC3339_nsec (v : List Char) (t : Time) (h : ParseRFC3339 v = some t) :
    0 ≤ t.nsec ∧ t.nsec < 1000000000 := by
  unfold ParseRFC3339 at h
  generalize hF : parseFractionAndZone = F at h
  repeat' split at h
  all_goals first
    | (rw [← hF] at h; exact parseFractionAndZone_nsec _ _ _ _ _ _ _ _ h)
    | (cases h)

/-- The correction by a timezone of -12..12 hours keeps the order of two
instants that `time.Parse` returned. -/
theorem correctForTimezone_le (s e : Time) (t : Int) (ht : -12 ≤ t ∧ t ≤ 12)
    (hs : 0 ≤ s.nsec ∧ s.nsec < 1000000000) (he : 0 ≤ e.nsec ∧ e.nsec < 1000000000) :
    Time.le (correctForTimezone s t) (correctForTimezone e t) = Time.le s e := by
  rw [correctForTimezone_eq s t hs ht, correctForTimezone_eq e t he ht]
  unfold Time.le plusHours
  simp only [add_lt_add_iff_right, add_left_inj]

/-- When `StatsGetData` calls a statistics function, it returns what the
function returned. -/
theorem StatsGetData_of_call (sortSlice : SortSlice)
    (m : Database) (qp : QueryParams) (sq : Stats) :
    ((StatsGetData sortSlice m qp).calls = [Call.StatsGetGate sq] →
      (StatsGetData sortSlice m qp).result =
        match (StatsGetGate sortSlice m sq).2 with
        | some err => .error err
        | none => .ok (StatsGetGate sortSlice m sq).1)
    ∧ ((StatsGetData sortSlice m qp).calls = [Call.StatsGetSpace sq] →
      (StatsGetData sortSlice m qp).result =
        match (StatsGetSpace sortSlice m sq).2 with
        | some err => .error err
        | none => .ok (StatsGetSpace sortSlice m sq).1) := by
  rcases StatsGetData_cases sortSlice m qp with ⟨h0, _⟩ | ⟨id, s, e, t, _, _, _, _, _,
    hl, _, _, _, hd⟩
  · rw [h0]
    exact ⟨fun h => by simp at h, fun h => by simp at h⟩
  rw [hd]
  simp only [List.mem_cons, List.mem_singleton, List.not_mem_nil, or_false] at hl
  rcases hl with hl | hl
  · obtain ⟨c1, c2⟩ := dispatch_gate sortSlice m (builtRequest qp id s e t) hl
    rw [c1, c2]
    constructor
    · intro h
      simp only [List.cons.injEq, Call.StatsGetGate.injEq, and_true] at h
      subst h
      rfl
    · intro h
      simp at h
  · obtain ⟨c1, c2⟩ := dispatch_space sortSlice m (builtRequest qp id s e t) hl
    rw [c1, c2]
    constructor
    · intro h
      simp at h
    · intro h
      simp only [List.cons.injEq, Call.StatsGetSpace.injEq, and_true] at h
      subst h
      rfl

/-- C12, as the code has it: when the cursor reports an iteration error after
rows that all decoded and rendered, `StatsGetGate` (and likewise
`StatsGetSpace`) returns `ErrDBCursorIterate`, and `sq.Data` then holds the
series built from those rows, appended to what it held before the call: the
`append` comes before the check of `cur.Err()`.  The partial series do not
reach the response: a run of `StatsGetData` that made this call returns the
error and hands no data to `HTTPSuccess`. -/
theorem C12_iteration_error_keeps_series
    (sortSlice : SortSlice) (m : Database) (sq : Stats)
    (cur : Cursor) (rows : List StatsDataPointRaw) (hdocs : cur.docs = rows.map some)
    (herr : cur.Err = true)
    (hrender : ∀ row ∈ rows, (dateToString row sq.Timezone sq.AxisX.IntervalType).2 = none) :
    (m.Aggregate eventsCollectionName sq = some cur →
      StatsGetGate sortSlice m sq =
        ({ sq with Data := sq.Data ++
            [⟨sq.ChartType, "Entered", true, sq.AxisX.ValueFormat,
                sortSlice lessX (rows.map (enteredPoint sq))⟩,
              ⟨sq.ChartType, "Exited", true, sq.AxisX.ValueFormat,
                sortSlice lessX (rows.map (exitedPoint sq))⟩] },
          some (NewError ErrDBCursorIterate))
      ∧ ∀ qp, (StatsGetData sortSlice m qp).calls = [Call.StatsGetGate sq] →
          (StatsGetData sortSlice m qp).result = .error (NewError ErrDBCursorIterate))
    ∧ (m.Aggregate spaceResultsCollectionName sq = some cur →
      StatsGetSpace sortSlice m sq =
        ({ sq with Data := sq.Data ++
            [⟨sq.ChartType, "Max count", true, sq.AxisX.ValueFormat,
                sortSlice lessX (rows.map (maxCountPoint sq))⟩] },
          some (NewError ErrDBCursorIterate))
      ∧ ∀ qp, (StatsGetData sortSlice m qp).calls = [Call.StatsGetSpace sq] →
          (StatsGetData sortSlice m qp).result = .error (NewError ErrDBCursorIterate)) := by
  constructor
  · intro hagg
    have hg : StatsGetGate sortSlice m sq =
        ({ sq with Data := sq.Data ++
            [⟨sq.ChartType, "Entered", true, sq.AxisX.ValueFormat,
                sortSlice lessX (rows.map (enteredPoint sq))⟩,
              ⟨sq.ChartType, "Exited", true, sq.AxisX.ValueFormat,
                sortSlice lessX (rows.map (exitedPoint sq))⟩] },
          some (NewError ErrDBCursorIterate)) := by
      unfold StatsGetGate
      simp only [hagg, hdocs, gateLoop_rows, if_pos hrender, List.nil_append, herr, if_true]
    refine ⟨hg, ?_⟩
    intro qp hc
    rw [(StatsGetData_of_call sortSlice m qp sq).1 hc, hg]
  · intro hagg
    have hg : StatsGetSpace sortSlice m sq =
        ({ sq with Data := sq.Data ++
            [⟨sq.ChartType, "Max count", true, sq.AxisX.ValueFormat,
                sortSlice lessX (rows.map (maxCountPoint sq))⟩] },
          some (NewError ErrDBCursorIterate)) := by
      unfold StatsGetSpace
      simp only [hagg, hdocs, spaceLoop_rows, if_pos hrender, List.nil_append, herr, if_true]
    refine ⟨hg, ?_⟩
    intro qp hc
    rw [(StatsGetData_of_call sortSlice m qp sq).2 hc, hg]

/-- A cursor that delivers the two example rows and then reports an error:
both functions return `ErrDBCursorIterate` with the series stored. -/
theorem C12_iteration_error_keeps_series_witness :
    (StatsGetGate insertionSort (cursorDatabase (exampleRows.map some) true false)
        exampleRequest).2 = some (NewError ErrDBCursorIterate)
    ∧ (StatsGetSpace insertionSort (cursorDatabase (exampleRows.map some) true false)
        exampleRequest).2 = some (NewError ErrDBCursorIterate)
    ∧ (StatsGetData insertionSort (cursorDatabase (exampleRows.map some) true false)
        exampleQuery).result = .error (NewError ErrDBCursorIterate) :=
  have h := C12_iteration_error_keeps_series insertionSort
    (cursorDatabase (exampleRows.map some) true false) exampleRequest
    ⟨exampleRows.map some, true, false⟩ exampleRows rfl rfl (by decide)
  ⟨by rw [(h.1 rfl).1], by rw [(h.2 rfl).1], (h.1 rfl).2 exampleQuery (by decide)⟩

/-- C12 as stated fails: after the iteration error the request holds the two
series of the rows decoded so far, not the series list it held before. -/
theorem C12_counterexample :
    (StatsGetGate insertionSort (cursorDatabase (exampleRows.map some) true false)
        exampleRequest).2 = some (NewError ErrDBCursorIterate)
    ∧ (StatsGetGate insertionSort (cursorDatabase (exampleRows.map some) true false)
        exampleRequest).1.Data ≠ exampleRequest.Data
    ∧ (StatsGetGate insertionSort (cursorDatabase (exampleRows.map some) true false)
        exampleRequest).1.Data =
      [⟨"line", "Entered", true, "DD-MM-YYYY HH:mm:ss",
          [⟨"2023-06-01 10:00 - 10:59", "2023-06-01 10:00 - 10:59", 1⟩,
            ⟨"2023-06-01 11:00 - 11:59", "2023-06-01 11:00 - 11:59", 2⟩]⟩,
        ⟨"line", "Exited", true, "DD-MM-YYYY HH:mm:ss",
          [⟨"2023-06-01 10:00 - 10:59", "2023-06-01 10:00 - 10:59", 1⟩,
            ⟨"2023-06-01 11:00 - 11:59", "2023-06-01 11:00 - 11:59", 3⟩]⟩] := by
  decide

/-- C19, as the code has it: `StatsGetData` does not compare the start of the
window with its end.  The request it hands to `StatsGetGate` or
`StatsGetSpace` has as `Start` and `End` the parsed `start` and `end`
parameters, each corrected by the timezone, so `Start <= End` holds exactly
when the `start` parameter is not later than the `end` parameter. -/
theorem C19_window_as_given (sortSlice : SortSlice)
    (m : Database) (qp : QueryParams) (c : Call)
    (h : c ∈ (StatsGetData sortSlice m qp).calls) :
    ∃ (sq : Stats) (s e : Time),
      (c = Call.StatsGetGate sq ∨ c = Call.StatsGetSpace sq)
      ∧ ParseRFC3339 (qp.Get "start").data = some s
      ∧ ParseRFC3339 (qp.Get "end").data = some e
      ∧ sq.Start = correctForTimezone s sq.Timezone
      ∧ sq.End = correctForTimezone e sq.Timezone
      ∧ Time.le sq.Start sq.End = Time.le s e := by
  rcases StatsGetData_cases sortSlice m qp with ⟨h0, _⟩ | ⟨id, s, e, t, _, hs, he, _, htr,
    hl, _, _, _, hd⟩
  · rw [h0] at h
    simp at h
  rw [hd] at h
  refine ⟨builtRequest qp id s e t, s, e, ?_, hs, he, rfl, rfl,
    correctForTimezone_le s e t htr (ParseRFC3339_nsec _ s hs) (ParseRFC3339_nsec _ e he)⟩
  simp only [List.mem_cons, List.mem_singleton, List.not_mem_nil, or_false] at hl
  rcases hl with hl | hl
  · rw [(dispatch_gate sortSlice m (builtRequest qp id s e t) hl).1] at h
    exact Or.inl (by simpa using h)
  · rw [(dispatch_space sortSlice m (builtRequest qp id s e t) hl).1] at h
    exact Or.inr (by simpa using h)

/-- The example request reaches `StatsGetGate` with the window it gave. -/
theorem C19_window_as_given_witness :
    ∃ (sq : Stats) (s e : Time),
      (Call.StatsGetGate exampleRequest = Call.StatsGetGate sq
        ∨ Call.StatsGetGate exampleRequest = Call.StatsGetSpace sq)
      ∧ ParseRFC3339 (exampleQuery.Get "start").data = some s
      ∧ ParseRFC3339 (exampleQuery.Get "end").data = some e
      ∧ sq.Start = correctForTimezone s sq.Timezone
      ∧ sq.End = correctForTimezone e sq.Timezone
      ∧ Time.le sq.Start sq.End = Time.le s e :=
  C19_window_as_given insertionSort (cursorDatabase (exampleRows.map some) false false)
    exampleQuery (Call.StatsGetGate exampleRequest) (by decide)

/-- C19 as stated fails: a request whose start is a day after its end passes
every check and reaches `StatsGetGate` with `Start` later than `End`. -/
theorem C19_counterexample :
    (StatsGetData insertionSort (cursorDatabase (exampleRows.map some) false false)
        reversedQuery).calls = [Call.StatsGetGate reversedRequest]
    ∧ Time.le reversedRequest.Start reversedRequest.End = false
    ∧ ParseRFC3339 (reversedQuery.Get "start").data = some (Date 2023 6 2 0 0 0 0)
    ∧ ParseRFC3339 (reversedQuery.Get "end").data = some (Date 2023 6 1 23 59 59 0) := by
  decide

/-- C20: with id, start, end, timezone, chart type and interval type valid,
a request for a gate fails with `ErrBEQPInvalidIsInside` exactly when the
`isInside` parameter is empty or no boolean; a request for a space never reads
`isInside`: `StatsGetSpace` is called with `IsInside = false`, the result is
not that error, and every request with the same other parameters, whatever
its `isInside`, has the same outcome. -/
theorem C20_is_inside_required (sortSlice : SortSlice)
    (m : Database) (qp : QueryParams) (id : ObjectID) (s e : Time) (t : Int)
    (hid : DecodeQueryParameterID qp "id" = .ok id)
    (hs : ParseRFC3339 (qp.Get "start").data = some s)
    (he : ParseRFC3339 (qp.Get "end").data = some e)
    (ht : Atoi (qp.Get "timezone") = some t) (htr : -12 ≤ t ∧ t ≤ 12)
    (hct : qp.Get "chartType" ∈ ["area", "line", "spline", "column", "stackedColumn", "bar"])
    (hit : qp.Get "intervalType" ∈ ["none", "hour", "day", "month", "year"]) :
    (qp.Get "location" = "gate" →
      ((StatsGetData sortSlice m qp).result = .error (NewError ErrBEQPInvalidIsInside)
        ↔ (qp.Get "isInside" = "" ∨ ParseBool (qp.Get "isInside") = none)))
    ∧ (qp.Get "location" = "space" →
      (StatsGetData sortSlice m qp).calls = [Call.StatsGetSpace (builtRequest qp id s e t)]
      ∧ (builtRequest qp id s e t).IsInside = false
      ∧ (StatsGetData sortSlice m qp).result ≠ .error (NewError ErrBEQPInvalidIsInside)
      ∧ ∀ qp2 : QueryParams, (∀ k, k ≠ "isInside" → qp2.Get k = qp.Get k) →
          StatsGetData sortSlice m qp2 = StatsGetData sortSlice m qp) := by
  have hce := chartType_ne_empty _ hct
  have hci := (InSlice_iff _ _).2 hct
  have hii : InSlice (qp.Get "intervalType") [none_, hour, "day", "month", "year"] = true :=
    (InSlice_iff _ _).2 hit
  have hie : qp.Get "intervalType" ≠ "" := by
    intro h0
    rw [h0] at hit
    exact absurd hit (by decide)
  have chain : ∀ q : QueryParams, q.Get "location" = "space" →
      q.Get "chartType" = qp.Get "chartType" → q.Get "intervalType" = qp.Get "intervalType" →
      DecodeQueryParameterID q "id" = .ok id → ParseRFC3339 (q.Get "start").data = some s →
      ParseRFC3339 (q.Get "end").data = some e → Atoi (q.Get "timezone") = some t →
      StatsGetData sortSlice m q = dispatch sortSlice m (builtRequest q id s e t) := by
    intro q hl h1 h2 qid qs qe qt
    rw [StatsGetData_read sortSlice m q id s e t qid qs qe qt htr]
    rw [if_neg (by rw [hl]; decide), if_neg (by rw [h1]; simp [hce, hci]),
      if_neg (by rw [h2]; simp [hie, hii]),
      if_neg (by rw [hl]; intro h; exact absurd h.1 (by decide)),
      if_neg (by rw [hl]; intro h; exact absurd h.2 (by decide))]
  constructor
  · intro hl
    rw [StatsGetData_read sortSlice m qp id s e t hid hs he ht htr]
    rw [if_neg (by rw [hl]; decide), if_neg (by simp [hce, hci]), if_neg (by simp [hie, hii])]
    constructor
    · intro hres
      by_contra hc
      have hc2 : ¬ (qp.Get "location" = gate ∧ (qp.Get "isInside" = ""
          ∨ ParseBool (qp.Get "isInside") = none)) := fun h => hc h.2
      rw [if_neg hc2] at hres
      by_cases h5 : qp.Get "intervalType" = none_ ∧ qp.Get "location" = gate
      · rw [if_pos h5] at hres
        exact absurd hres (by decide)
      · rw [if_neg h5, (dispatch_gate sortSlice m _ hl).2] at hres
        cases hr : (StatsGetGate sortSlice m (builtRequest qp id s e t)).2 with
        | none =>
          rw [hr] at hres
          simp at hres
        | some err =>
          rw [hr] at hres
          have := (errors_differ err (StatsGetGate_errors sortSlice m _ err hr)).2
          simp only [Except.error.injEq] at hres
          exact this hres
    · intro hc
      rw [if_pos ⟨hl, hc⟩]
  · intro hl
    rw [chain qp hl rfl rfl hid hs he ht]
    have hloc : (builtRequest qp id s e t).Location = "space" := hl
    obtain ⟨d1, d2⟩ := dispatch_space sortSlice m _ hloc
    refine ⟨d1, ?_, ?_, ?_⟩
    · show (if qp.Get "location" = gate then (ParseBool (qp.Get "isInside")).getD false
        else false) = false
      rw [if_neg (by rw [hl]; decide)]
    · rw [d2]
      cases hr : (StatsGetSpace sortSlice m (builtRequest qp id s e t)).2 with
      | none => simp
      | some err =>
        have := (errors_differ err (StatsGetSpace_errors sortSlice m _ err hr)).2
        simpa using this
    · intro qp2 hk
      have g : ∀ k, k ≠ "isInside" → qp2.Get k = qp.Get k := hk
      have e1 := g "id" (by decide)
      have e2 := g "start" (by decide)
      have e3 := g "end" (by decide)
      have e4 := g "timezone" (by decide)
      have e5 := g "location" (by decide)
      have e6 := g "chartType" (by decide)
      have e7 := g "intervalType" (by decide)
      have qid : DecodeQueryParameterID qp2 "id" = .ok id := by
        unfold DecodeQueryParameterID at hid ⊢
        rw [e1]
        exact hid
      rw [chain qp2 (by rw [e5, hl]) e6 e7 qid (by rw [e2]; exact hs) (by rw [e3]; exact he)
        (by rw [e4]; exact ht)]
      have hb : builtRequest qp2 id s e t = builtRequest qp id s e t := by
        unfold builtRequest
        rw [e5, e6, e7, hl, if_neg (by decide), if_neg (by decide)]
      rw [hb]

/-- The example request for a gate needs its `isInside`; the example request
for a space is served with an `isInside` that is no boolean. -/
theorem C20_is_inside_required_witness :
    ((StatsGetData insertionSort (cursorDatabase (exampleRows.map some) false false)
        exampleQuery).result = .error (NewError ErrBEQPInvalidIsInside)
      ↔ (exampleQuery.Get "isInside" = "" ∨ ParseBool (exampleQuery.Get "isInside") = none))
    ∧ (StatsGetData insertionSort (cursorDatabase (exampleRows.map some) false false)
        spaceQuery).calls = [Call.StatsGetSpace (builtRequest spaceQuery
          "5f1a2b3c4d5e6f7a8b9c0d1e" (Date 2023 6 1 0 0 0 0) (Date 2023 6 1 23 59 59 0) 0)]
    ∧ ParseBool (spaceQuery.Get "isInside") = none :=
  ⟨(C20_is_inside_required insertionSort
      (cursorDatabase (exampleRows.map some) false false) exampleQuery
      "5f1a2b3c4d5e6f7a8b9c0d1e" (Date 2023 6 1 0 0 0 0) (Date 2023 6 1 23 59 59 0) 0
      (by decide) (by decide) (by decide) (by decide) (by decide) (by decide) (by decide)).1
      (by decide),
    ((C20_is_inside_required insertionSort
      (cursorDatabase (exampleRows.map some) false false) spaceQuery
      "5f1a2b3c4d5e6f7a8b9c0d1e" (Date 2023 6 1 0 0 0 0) (Date 2023 6 1 23 59 59 0) 0
      (by decide) (by decide) (by decide) (by decide) (by decide) (by decide) (by decide)).2
      (by decide)).1,
    by decide⟩

/-- C21: on a response that is not committed yet, `ErrorHandler` answers a
backend error with the JSON body `error = true`, `message` = the message of
the error, `data = nil`, and a status code that its message alone decides:
404 for `ErrDBNoData`; 500 for `ErrBETimeConversion`, `ErrDBQuery`,
`ErrDBDecode`, `ErrDBCursorIterate` and `ErrDBCursorClose`; 400 for
`ErrBEQPNoRawOnGate` and the other errors of an invalid query parameter.  On a
committed response it sends nothing. -/
theorem C21_error_status :
    (∀ e : Error, ErrorHandler (.Backend e) false
        = .JSON (backendCode e.Message) true e.Message none)
    ∧ (∀ e1 e2 : Error, e1.Message = e2.Message → ∀ committed : Bool,
        ErrorHandler (.Backend e1) committed = ErrorHandler (.Backend e2) committed)
    ∧ ErrorHandler (.Backend (NewError ErrDBNoData)) false = .JSON 404 true ErrDBNoData none
    ∧ (∀ message ∈ [ErrBETimeConversion, ErrDBQuery, ErrDBDecode, ErrDBCursorIterate,
          ErrDBCursorClose],
        ErrorHandler (.Backend (NewError message)) false = .JSON 500 true message none)
    ∧ (∀ message ∈ [ErrBEQPNoRawOnGate, ErrBEQPInvalidChartType, ErrBEQPInvalidDateTime,
          ErrBEQPInvalidIsInside, ErrBEQPInvalidIntervalType, ErrBEQPInvalidLocation,
          ErrBEQPInvalidMobile, ErrBEQPInvalidTimezone, ErrBEQPMissing],
        ErrorHandler (.Backend (NewError message)) false = .JSON 400 true message none)
    ∧ (∀ err : HandlerError, ErrorHandler err true = .nothing) := by
  refine ⟨fun e => rfl, ?_, by decide, ?_, ?_, fun err => rfl⟩
  · intro e1 e2 h committed
    cases e1
    cases e2
    simp only at h
    rw [h]
  · intro message hm
    simp only [List.mem_cons, List.mem_singleton, List.not_mem_nil, or_false] at hm
    rcases hm with rfl | rfl | rfl | rfl | rfl <;> decide
  · intro message hm
    simp only [List.mem_cons, List.mem_singleton, List.not_mem_nil, or_false] at hm
    rcases hm with rfl | rfl | rfl | rfl | rfl | rfl | rfl | rfl | rfl <;> decide

theorem Time_le_iff (a b : Time) :
    Time.le a b = true ↔ (a.sec < b.sec ∨ (a.sec = b.sec ∧ a.nsec ≤ b.nsec)) := by
  unfold Time.le
  simp

/-- The comparisons of BSON datetimes in the order of instants. -/
theorem dateTime_le (a b t : Time) (ha : validNsec a) (hb : validNsec b)
    (ht : wholeMilliseconds t) :
    (NewDateTimeFromTime a ≤ NewDateTimeFromTime t ↔ Time.le (floorMilliseconds a) t = true)
    ∧ (NewDateTimeFromTime t ≤ NewDateTimeFromTime b ↔ Time.le t b = true)
    ∧ (Time.le a t = true → NewDateTimeFromTime a ≤ NewDateTimeFromTime t)
    ∧ (a.nsec % 1000000 = 0 → floorMilliseconds a = a) := by
  unfold validNsec at ha hb
  obtain ⟨⟨t0, t1⟩, t2⟩ := ht
  unfold NewDateTimeFromTime floorMilliseconds
  rw [Time_le_iff, Time_le_iff, Time_le_iff]
  simp only
  refine ⟨?_, ?_, ?_, ?_⟩
  · constructor <;> intro h <;> omega
  · constructor <;> intro h <;> omega
  · intro h
    omega
  · intro h
    have : a.nsec / 1000000 * 1000000 = a.nsec := by omega
    rw [this]

/-- C22, as the code has it: the driver encodes `sq.Start` and `sq.End` as
BSON datetimes, which hold whole milliseconds, so the `$match` stage of
`StatsGetGate` (resp. `StatsGetSpace`) selects exactly the documents whose
`gate_id` (resp. `space_id`) equals `sq.ID` and whose timestamp `t` (a whole
number of milliseconds) satisfies `floor(sq.Start) <= t <= sq.End`, where
`floor` drops what `Start` holds below a millisecond; only these documents
reach the groups of the `$group` stage.  Every document of the window
`sq.Start <= t <= sq.End` is selected, and when `Start` is a whole number of
milliseconds exactly these are.  Both bounds are inclusive: a document stamped
exactly at such a `Start`, or exactly at `End`, of a non-empty window is
selected; one stamped a second before `Start` or a second after `End` is
not. -/
theorem C22_match_window (sq : Stats) (hs : validNsec sq.Start) (he : validNsec sq.End) :
    (∀ e : Event, wholeMilliseconds e.timestamp →
      (gateMatch sq e = true ↔
        (e.gate_id = sq.ID ∧ Time.le (floorMilliseconds sq.Start) e.timestamp = true
          ∧ Time.le e.timestamp sq.End = true)))
    ∧ (∀ r : SpaceResult, wholeMilliseconds r.timestamp →
      (spaceMatch sq r = true ↔
        (r.space_id = sq.ID ∧ Time.le (floorMilliseconds sq.Start) r.timestamp = true
          ∧ Time.le r.timestamp sq.End = true)))
    ∧ (∀ e : Event, wholeMilliseconds e.timestamp → e.gate_id = sq.ID →
        Time.le sq.Start e.timestamp = true → Time.le e.timestamp sq.End = true →
        gateMatch sq e = true)
    ∧ (∀ r : SpaceResult, wholeMilliseconds r.timestamp → r.space_id = sq.ID →
        Time.le sq.Start r.timestamp = true → Time.le r.timestamp sq.End = true →
        spaceMatch sq r = true)
    ∧ (sq.Start.nsec % 1000000 = 0 →
        (∀ e : Event, wholeMilliseconds e.timestamp →
          (gateMatch sq e = true ↔
            (e.gate_id = sq.ID ∧ Time.le sq.Start e.timestamp = true
              ∧ Time.le e.timestamp sq.End = true)))
        ∧ (∀ r : SpaceResult, wholeMilliseconds r.timestamp →
          (spaceMatch sq r = true ↔
            (r.space_id = sq.ID ∧ Time.le sq.Start r.timestamp = true
              ∧ Time.le r.timestamp sq.End = true))))
    ∧ (∀ (events : List Event) (k : StatsDataPointRaw) (e : Event),
        e ∈ gateBucket sq events k ↔
          (e ∈ events ∧ gateMatch sq e = true
            ∧ groupKey sq.AxisX.IntervalType e.timestamp = k))
    ∧ (∀ (results : List SpaceResult) (k : StatsDataPointRaw) (r : SpaceResult),
        r ∈ spaceBucket sq results k ↔
          (r ∈ results ∧ spaceMatch sq r = true
            ∧ groupKey sq.AxisX.IntervalType r.timestamp = k))
    ∧ (Time.le sq.Start sq.End = true → sq.Start.nsec % 1000000 = 0 →
        ∀ c : Int, gateMatch sq ⟨sq.ID, sq.Start, c⟩ = true
          ∧ spaceMatch sq ⟨sq.ID, sq.Start, c⟩ = true)
    ∧ (Time.le sq.Start sq.End = true → sq.End.nsec % 1000000 = 0 →
        ∀ c : Int, gateMatch sq ⟨sq.ID, sq.End, c⟩ = true
          ∧ spaceMatch sq ⟨sq.ID, sq.End, c⟩ = true)
    ∧ (∀ (c n : Int), 0 ≤ n → n < 1000000000 →
        gateMatch sq ⟨sq.ID, ⟨sq.Start.sec - 1, n⟩, c⟩ = false
        ∧ gateMatch sq ⟨sq.ID, ⟨sq.End.sec + 1, n⟩, c⟩ = false
        ∧ spaceMatch sq ⟨sq.ID, ⟨sq.Start.sec - 1, n⟩, c⟩ = false
        ∧ spaceMatch sq ⟨sq.ID, ⟨sq.End.sec + 1, n⟩, c⟩ = false) := by
  have hg : ∀ e : Event, gateMatch sq e = true ↔
      (e.gate_id = sq.ID ∧ NewDateTimeFromTime sq.Start ≤ NewDateTimeFromTime e.timestamp
        ∧ NewDateTimeFromTime e.timestamp ≤ NewDateTimeFromTime sq.End) := by
    intro e
    unfold gateMatch
    simp
  have hsp : ∀ r : SpaceResult, spaceMatch sq r = true ↔
      (r.space_id = sq.ID ∧ NewDateTimeFromTime sq.Start ≤ NewDateTimeFromTime r.timestamp
        ∧ NewDateTimeFromTime r.timestamp ≤ NewDateTimeFromTime sq.End) := by
    intro r
    unfold spaceMatch
    simp
  have g1 : ∀ e : Event, wholeMilliseconds e.timestamp →
      (gateMatch sq e = true ↔
        (e.gate_id = sq.ID ∧ Time.le (floorMilliseconds sq.Start) e.timestamp = true
          ∧ Time.le e.timestamp sq.End = true)) := by
    intro e ht
    obtain ⟨d1, d2, _, _⟩ := dateTime_le sq.Start sq.End e.timestamp hs he ht
    rw [hg, d1, d2]
  have s1 : ∀ r : SpaceResult, wholeMilliseconds r.timestamp →
      (spaceMatch sq r = true ↔
        (r.space_id = sq.ID ∧ Time.le (floorMilliseconds sq.Start) r.timestamp = true
          ∧ Time.le r.timestamp sq.End = true)) := by
    intro r ht
    obtain ⟨d1, d2, _, _⟩ := dateTime_le sq.Start sq.End r.timestamp hs he ht
    rw [hsp, d1, d2]
  have mono : NewDateTimeFromTime sq.Start ≤ NewDateTimeFromTime sq.End
      ∨ Time.le sq.Start sq.End = false := by
    unfold validNsec at hs he
    by_cases h : Time.le sq.Start sq.End = true
    · left
      rw [Time_le_iff] at h
      unfold NewDateTimeFromTime
      omega
    · right
      simpa using h
  refine ⟨g1, s1, ?_, ?_, ?_, ?_, ?_, ?_, ?_, ?_⟩
  · intro e ht hid h1 h2
    obtain ⟨_, d2, d3, _⟩ := dateTime_le sq.Start sq.End e.timestamp hs he ht
    exact (hg e).2 ⟨hid, d3 h1, d2.2 h2⟩
  · intro r ht hid h1 h2
    obtain ⟨_, d2, d3, _⟩ := dateTime_le sq.Start sq.End r.timestamp hs he ht
    exact (hsp r).2 ⟨hid, d3 h1, d2.2 h2⟩
  · intro ha
    constructor
    · intro e ht
      have := g1 e ht
      rwa [(dateTime_le sq.Start sq.End e.timestamp hs he ht).2.2.2 ha] at this
    · intro r ht
      have := s1 r ht
      rwa [(dateTime_le sq.Start sq.End r.timestamp hs he ht).2.2.2 ha] at this
  · intro events k e
    unfold gateBucket
    simp only [List.mem_filter, decide_eq_true_eq, and_assoc]
  · intro results k r
    unfold spaceBucket
    simp only [List.mem_filter, decide_eq_true_eq, and_assoc]
  · intro hle _ c
    rcases mono with hm | hm
    · exact ⟨(hg _).2 ⟨rfl, le_refl _, hm⟩, (hsp _).2 ⟨rfl, le_refl _, hm⟩⟩
    · rw [hm] at hle
      exact absurd hle (by decide)
  · intro hle _ c
    rcases mono with hm | hm
    · exact ⟨(hg _).2 ⟨rfl, hm, le_refl _⟩, (hsp _).2 ⟨rfl, hm, le_refl _⟩⟩
    · rw [hm] at hle
      exact absurd hle (by decide)
  · intro c n hn0 hn1
    unfold validNsec at hs he
    have out1 : ¬ NewDateTimeFromTime sq.Start
        ≤ NewDateTimeFromTime ⟨sq.Start.sec - 1, n⟩ := by
      unfold NewDateTimeFromTime
      simp only
      omega
    have out2 : ¬ NewDateTimeFromTime ⟨sq.End.sec + 1, n⟩
        ≤ NewDateTimeFromTime sq.End := by
      unfold NewDateTimeFromTime
      simp only
      omega
    refine ⟨?_, ?_, ?_, ?_⟩
    · rw [← Bool.not_eq_true, hg]
      exact fun h => out1 h.2.1
    · rw [← Bool.not_eq_true, hg]
      exact fun h => out2 h.2.2
    · rw [← Bool.not_eq_true, hsp]
      exact fun h => out1 h.2.1
    · rw [← Bool.not_eq_true, hsp]
      exact fun h => out2 h.2.2

/-- The window of the example request holds the events stamped at its two
ends and not the events a second outside. -/
theorem C22_match_window_witness :
    gateMatch exampleRequest (exampleEvent (Date 2023 6 1 0 0 0 0)) = true
    ∧ gateMatch exampleRequest (exampleEvent (Date 2023 6 1 23 59 59 0)) = true
    ∧ gateMatch exampleRequest (exampleEvent (Date 2023 5 31 23 59 59 0)) = false
    ∧ gateMatch exampleRequest (exampleEvent (Date 2023 6 2 0 0 0 0)) = false :=
  have h := (C22_match_window exampleRequest (by decide) (by decide)).2.2.2.2.2.2.2
  ⟨(h.1 (by decide) (by decide) 1).1, (h.2.1 (by decide) (by decide) 1).1,
    (h.2.2 1 0 (by decide) (by decide)).1, (h.2.2 1 0 (by decide) (by decide)).2.1⟩

/-- C22 as stated fails for a start that is not a whole number of
milliseconds: the request with start `2023-06-01T00:00:00.0005Z` passes the
handler, and its `$match` stage selects the event stamped at midnight, which
is earlier than `sq.Start`. -/
theorem C22_counterexample :
    (StatsGetData insertionSort (cursorDatabase (exampleRows.map some) false false)
        fractionQuery).calls = [Call.StatsGetGate fractionRequest]
    ∧ gateMatch fractionRequest (exampleEvent (Date 2023 6 1 0 0 0 0)) = true
    ∧ Time.le fractionRequest.Start (Date 2023 6 1 0 0 0 0) = false := by
  decide

/-- C23: the group document that `StatsGetGate` and `StatsGetSpace` choose
from the interval type is the same in both functions; its keys are `year` for
`year`, `year, month` for `month`, `year, month, day` for `day` and
`year, month, day, hour` for `hour`, each computed from the timestamp by the
operator of that calendar component; the document of every coarser interval
type is a proper head part of the next finer one; and the row key that the
model of the pipelines uses (`groupKey`) is this document, evaluated and
decoded. -/
theorem C23_group_keys :
    (∀ it : String, gateGroup it = spaceGroup it)
    ∧ (∀ ts : Time, evalGroup (gateGroup "year") ts = [("year", ts.Year)])
    ∧ (∀ ts : Time, evalGroup (gateGroup "month") ts = [("year", ts.Year), ("month", ts.Month)])
    ∧ (∀ ts : Time, evalGroup (gateGroup "day") ts
        = [("year", ts.Year), ("month", ts.Month), ("day", ts.Day)])
    ∧ (∀ ts : Time, evalGroup (gateGroup "hour") ts
        = [("year", ts.Year), ("month", ts.Month), ("day", ts.Day), ("hour", ts.Hour)])
    ∧ (gateGroup "year" <+: gateGroup "month" ∧ gateGroup "year" ≠ gateGroup "month")
    ∧ (gateGroup "month" <+: gateGroup "day" ∧ gateGroup "month" ≠ gateGroup "day")
    ∧ (gateGroup "day" <+: gateGroup "hour" ∧ gateGroup "day" ≠ gateGroup "hour")
    ∧ (∀ (it : String) (ts : Time), decodeDate (evalGroup (gateGroup it) ts) = groupKey it ts) := by
  refine ⟨?_, fun ts => rfl, fun ts => rfl, fun ts => rfl, fun ts => rfl,
    ⟨⟨_, rfl⟩, by decide⟩, ⟨⟨_, rfl⟩, by decide⟩, ⟨⟨_, rfl⟩, by decide⟩, ?_⟩
  · intro it
    rfl
  · intro it ts
    by_cases c1 : it = hour
    · subst c1
      rw [(groupKey_cases ts).1]
      rfl
    by_cases c2 : it = day
    · subst c2
      rw [(groupKey_cases ts).2.1]
      rfl
    by_cases c3 : it = month
    · subst c3
      rw [(groupKey_cases ts).2.2.1]
      rfl
    by_cases c4 : it = year
    · subst c4
      rw [(groupKey_cases ts).2.2.2]
      rfl
    rw [groupKey_other it ts c1 c2 c3 c4]
    unfold gateGroup
    rw [if_neg c1, if_neg c2, if_neg c3, if_neg c4]
    rfl

theorem secondText_inj (y1 m1 d1 h1 i1 s1 y2 m2 d2 h2 i2 s2 : Int)
    (r1 : (0 ≤ y1 ∧ y1 ≤ 10000) ∧ (0 ≤ m1 ∧ m1 < 100) ∧ (0 ≤ d1 ∧ d1 < 100) ∧ (0 ≤ h1 ∧ h1 < 100)
      ∧ (0 ≤ i1 ∧ i1 < 100) ∧ (0 ≤ s1 ∧ s1 < 100))
    (r2 : (0 ≤ y2 ∧ y2 ≤ 10000) ∧ (0 ≤ m2 ∧ m2 < 100) ∧ (0 ≤ d2 ∧ d2 < 100) ∧ (0 ≤ h2 ∧ h2 < 100)
      ∧ (0 ≤ i2 ∧ i2 < 100) ∧ (0 ≤ s2 ∧ s2 < 100))
    (h : secondText y1 m1 d1 h1 i1 s1 = secondText y2 m2 d2 h2 i2 s2) :
    y1 = y2 ∧ m1 = m2 ∧ d1 = d2 ∧ h1 = h2 ∧ i1 = i2 ∧ s1 = s2 := by
  have two : ∀ (a b : Int) (x y : List Char), (0 ≤ a ∧ a < 100) → (0 ≤ b ∧ b < 100) →
      twoDigits a ++ x = twoDigits b ++ y → a = b ∧ x = y := by
    intro a b x y ha hb h
    obtain ⟨e1, e2⟩ := List.append_inj h rfl
    exact ⟨twoDigits_inj a b ha hb e1, e2⟩
  have h := congrArg String.data h
  simp only [secondText, String.toList, List.append_assoc, List.cons_append,
    List.nil_append, List.singleton_append] at h
  obtain ⟨e1, h⟩ := yearDigits_inj y1 y2 r1.1 r2.1 _ _ (Or.inr ⟨_, rfl⟩) (Or.inr ⟨_, rfl⟩) h
  obtain ⟨e2, h⟩ := two _ _ _ _ r1.2.1 r2.2.1 (List.cons.inj h).2
  obtain ⟨e3, h⟩ := two _ _ _ _ r1.2.2.1 r2.2.2.1 (List.cons.inj h).2
  obtain ⟨e4, h⟩ := two _ _ _ _ r1.2.2.2.1 r2.2.2.2.1 (List.cons.inj h).2
  obtain ⟨e5, h⟩ := two _ _ _ _ r1.2.2.2.2.1 r2.2.2.2.2.1 (List.cons.inj h).2
  have e6 := twoDigits_inj _ _ r1.2.2.2.2.2 r2.2.2.2.2.2 (List.cons.inj h).2
  exact ⟨e1, e2, e3, e4, e5, e6⟩

/-- Second labels tell keys apart. -/
theorem label_inj_second (k1 k2 : StatsDataPointRaw) (Z : Int) (hv1 : validKey k1)
    (hv2 : validKey k2) (hZ : -12 ≤ Z ∧ Z ≤ 12)
    (h : formatLabel (plusHours (keyTime k1) Z) second
      = formatLabel (plusHours (keyTime k2) Z) second) :
    k1.Year = k2.Year ∧ defaulted k1.Month = defaulted k2.Month
      ∧ defaulted k1.Day = defaulted k2.Day ∧ k1.Hour = k2.Hour ∧ k1.Minute = k2.Minute
      ∧ k1.Second = k2.Second := by
  have f1 := shifted_fields k1 Z hv1 hZ
  have f2 := shifted_fields k2 Z hv2 hZ
  obtain ⟨⟨_, _, _, ai, as⟩, t1⟩ := Time_fields (plusHours (keyTime k1) Z)
  obtain ⟨⟨_, _, _, bi, bs⟩, t2⟩ := Time_fields (plusHours (keyTime k2) Z)
  rw [(formatLabel_texts _ f1.1.1).1, (formatLabel_texts _ f2.1.1).1] at h
  obtain ⟨e1, e2, e3, e4, e5, e6⟩ := secondText_inj _ _ _ _ _ _ _ _ _ _ _ _
    ⟨f1.1, f1.2.1, f1.2.2.1, f1.2.2.2, by omega, by omega⟩
    ⟨f2.1, f2.2.1, f2.2.2.1, f2.2.2.2, by omega, by omega⟩ h
  rw [e1, e2, e3, e4, e5, e6, t2] at t1
  have hsec : (plusHours (keyTime k2) Z).sec = (plusHours (keyTime k1) Z).sec := by
    simpa using t1
  obtain ⟨N1, a1, b1, _⟩ := shifted_sec k1 Z hv1
  obtain ⟨N2, a2, b2, _⟩ := shifted_sec k2 Z hv2
  obtain ⟨_, _, _, hh1, hm1, hs1⟩ := (validKey_iff k1).1 hv1
  obtain ⟨_, _, _, hh2, hm2, hs2⟩ := (validKey_iff k2).1 hv2
  have hN : N1 = N2 ∧ k1.Hour = k2.Hour ∧ k1.Minute = k2.Minute ∧ k1.Second = k2.Second := by
    generalize (plusHours (keyTime k1) Z).sec = x1 at *
    generalize (plusHours (keyTime k2) Z).sec = x2 at *
    omega
  obtain ⟨hN, hH, hM, hS⟩ := hN
  subst hN
  obtain ⟨g1, g2, g3⟩ := key_of_absDate k1 k2 N1 b1 b2
  exact ⟨g1, g2, g3, hH, hM, hS⟩

/-- Two keys that hold every field of an instant and render to the same
second label are the same key. -/
theorem timeKey_label_inj (Z : Int) (hZ : -12 ≤ Z ∧ Z ≤ 12) (u1 u2 : Time)
    (h1 : (dateToString (timeKey u1) Z second).2 = none)
    (h2 : (dateToString (timeKey u2) Z second).2 = none)
    (h : (dateToString (timeKey u1) Z second).1 = (dateToString (timeKey u2) Z second).1) :
    timeKey u1 = timeKey u2 := by
  have v1 := validKey_of_success _ Z second h1
  have v2 := validKey_of_success _ Z second h2
  rw [dateToString_shift _ Z second v1 hZ, dateToString_shift _ Z second v2 hZ] at h
  simp only at h
  obtain ⟨⟨am, ad, _, _, _⟩, _⟩ := Time_fields u1
  obtain ⟨⟨bm, bd, _, _, _⟩, _⟩ := Time_fields u2
  have p1 : 1 ≤ u1.Month.toNat := by omega
  have p2 : 1 ≤ u2.Month.toNat := by omega
  have p3 : 1 ≤ u1.Day.toNat := by omega
  have p4 : 1 ≤ u2.Day.toNat := by omega
  have := label_inj_second _ _ Z v1 v2 hZ h
  unfold timeKey at this ⊢
  simp only [defaulted_of_pos _ p1, defaulted_of_pos _ p2, defaulted_of_pos _ p3,
    defaulted_of_pos _ p4] at this
  obtain ⟨e1, e2, e3, e4, e5, e6⟩ := this
  rw [e1, e2, e3, e4, e5, e6]

/-- C24: for each interval type among second, hour, day, month and year and
each offset that `dateToString` receives (`sq.Timezone`, which the handler
bounds to -12..12), `dateToString` is injective on the bucket keys of that
granularity on which it succeeds.  A bucket key of hour, day, month or year is
the key that the `$group` stage builds from a timestamp for that interval
type; a bucket key of second holds every calendar field of a timestamp.  Two
such keys that differ never render to the same label, so no two buckets of
one response collapse into the same X value. -/
theorem C24_label_injective (it : String) (Z : Int) (hZ : -12 ≤ Z ∧ Z ≤ 12) (u1 u2 : Time) :
    ((dateToString (groupKey it u1) Z it).2 = none →
      (dateToString (groupKey it u2) Z it).2 = none →
      groupKey it u1 ≠ groupKey it u2 →
      (dateToString (groupKey it u1) Z it).1 ≠ (dateToString (groupKey it u2) Z it).1)
    ∧ ((dateToString (timeKey u1) Z second).2 = none →
      (dateToString (timeKey u2) Z second).2 = none →
      timeKey u1 ≠ timeKey u2 →
      (dateToString (timeKey u1) Z second).1 ≠ (dateToString (timeKey u2) Z second).1) :=
  ⟨fun h1 h2 hne h => hne (groupKey_label_inj it Z hZ u1 u2 h1 h2 h),
    fun h1 h2 hne h => hne (timeKey_label_inj Z hZ u1 u2 h1 h2 h)⟩

/-- Two month keys and two second keys of June 2023 at offset 5 render to
different labels. -/
theorem C24_label_injective_witness :
    (dateToString (groupKey "month" (Date 2023 6 1 10 15 0 0)) 5 "month").1
      ≠ (dateToString (groupKey "month" (Date 2023 7 1 10 15 0 0)) 5 "month").1
    ∧ (dateToString (timeKey (Date 2023 6 1 10 15 0 0)) 5 second).1
      ≠ (dateToString (timeKey (Date 2023 6 1 10 15 1 0)) 5 second).1 :=
  ⟨(C24_label_injective "month" 5 (by decide) (Date 2023 6 1 10 15 0 0)
      (Date 2023 7 1 10 15 0 0)).1 (by decide) (by decide) (by decide),
    (C24_label_injective "month" 5 (by decide) (Date 2023 6 1 10 15 0 0)
      (Date 2023 6 1 10 15 1 0)).2 (by decide) (by decide) (by decide)⟩

/-- C25: `dateToString` succeeds exactly when the key is valid: the year is
in 1000..9999 (it prints as four digits) and the defaulted month and day with
the hour, minute and second are a valid date and time of day, whatever the
offset and the interval type.  On every failure the label is the empty string
and the error is `ErrBETimeConversion`; a key with a year below 1000 or above
9999 fails although its fields are a valid calendar instant. -/
theorem C25_success_iff_valid (sd : StatsDataPointRaw) (Z : Int) (mt : String) :
    ((dateToString sd Z mt).2 = none ↔
      ((1000 ≤ sd.Year ∧ sd.Year ≤ 9999) ∧ defaulted sd.Month ≤ 12
        ∧ defaulted sd.Day ≤ monthLength sd.Year (defaulted sd.Month)
        ∧ sd.Hour ≤ 23 ∧ sd.Minute ≤ 59 ∧ sd.Second ≤ 59))
    ∧ ((dateToString sd Z mt).2 ≠ none →
        dateToString sd Z mt = ("", some (NewError ErrBETimeConversion)))
    ∧ (validCalendar sd → (sd.Year < 1000 ∨ 9999 < sd.Year) →
        dateToString sd Z mt = ("", some (NewError ErrBETimeConversion)))
    ∧ dateToString ⟨999, 6, 1, 10, 0, 0, 0, 0, 0⟩ 0 "hour"
        = ("", some (NewError ErrBETimeConversion))
    ∧ dateToString ⟨10000, 6, 1, 10, 0, 0, 0, 0, 0⟩ 0 "hour"
        = ("", some (NewError ErrBETimeConversion))
    ∧ validCalendar ⟨999, 6, 1, 10, 0, 0, 0, 0, 0⟩
    ∧ validCalendar ⟨10000, 6, 1, 10, 0, 0, 0, 0, 0⟩ := by
  have hiff : (dateToString sd Z mt).2 = none ↔ validKey sd := by
    constructor
    · exact validKey_of_success sd Z mt
    · intro hv
      rw [dateToString_valid sd Z mt hv]
  refine ⟨hiff, ?_, ?_, by decide, by decide, by decide, by decide⟩
  · intro h
    have hv : ¬ validKey sd := fun hv => h (hiff.2 hv)
    exact dateToString_invalid sd Z mt hv
  · intro _ hy
    have hv : ¬ validKey sd := by
      intro hv
      have := hv.1
      omega
    exact dateToString_invalid sd Z mt hv

/-- C26: for an interval type that is none of second, hour, day, month and
year, `dateToString` on a valid bucket key returns the empty string as the
label and no error, for every offset. -/
theorem C26_unknown_interval (sd : StatsDataPointRaw) (Z : Int) (mt : String)
    (hv : validKey sd) (hmt : mt ∉ ["second", "hour", "day", "month", "year"]) :
    dateToString sd Z mt = ("", none) := by
  rw [dateToString_valid sd Z mt hv]
  simp only [List.mem_cons, List.mem_singleton, List.not_mem_nil, or_false, not_or] at hmt
  obtain ⟨h1, h2, h3, h4, h5⟩ := hmt
  have h1 : ¬ mt = second := h1
  have h2 : ¬ mt = hour := h2
  have h3 : ¬ mt = day := h3
  have h4 : ¬ mt = month := h4
  have h5 : ¬ mt = year := h5
  unfold formatLabel
  rw [if_neg h1, if_neg h2, if_neg h3, if_neg h4, if_neg h5]

/-- The interval types `none`, `raw` and the empty string on the key of
2023-06-01 10:00, with offsets 0, 5 and -12. -/
theorem C26_unknown_interval_witness :
    dateToString ⟨2023, 6, 1, 10, 0, 0, 0, 0, 0⟩ 0 "none" = ("", none)
    ∧ dateToString ⟨2023, 6, 1, 10, 0, 0, 0, 0, 0⟩ 5 "raw" = ("", none)
    ∧ dateToString ⟨2023, 6, 1, 10, 0, 0, 0, 0, 0⟩ (-12) "" = ("", none) :=
  ⟨C26_unknown_interval ⟨2023, 6, 1, 10, 0, 0, 0, 0, 0⟩ 0 "none" (by decide) (by decide),
    C26_unknown_interval ⟨2023, 6, 1, 10, 0, 0, 0, 0, 0⟩ 5 "raw" (by decide) (by decide),
    C26_unknown_interval ⟨2023, 6, 1, 10, 0, 0, 0, 0, 0⟩ (-12) "" (by decide) (by decide)⟩

/-- Two instants of one UTC day have the same day, month and year label. -/
theorem formatLabel_same_day (a b : Time) (hy : 0 ≤ a.Year)
    (h : a.sec / 86400 = b.sec / 86400) (mt : String)
    (hmt : mt = day ∨ mt = month ∨ mt = year) : formatLabel a mt = formatLabel b mt := by
  have e3 : a.Year = b.Year := by unfold Time.Year; rw [h]
  have e4 : a.Month = b.Month := by unfold Time.Month; rw [h]
  obtain ⟨_, c2, c3, c4⟩ := formatLabel_congr a b hy
  rcases hmt with rfl | rfl | rfl
  · exact c2 h
  · exact c3 e3 e4
  · exact c4 e3

/-- The labels that `dateToString` gives a key of a day, a month or a year:
a shift by 0 to 12 hours stays in the first day of the bucket and gives the
label of the shift by 0, a shift by -12 to -1 hours falls into the day before
the bucket and gives another label. -/
theorem coarse_shift (k : StatsDataPointRaw) (hv : validKey k)
    (h0 : k.Hour = 0 ∧ k.Minute = 0 ∧ k.Second = 0) (Z : Int) (hZ : -12 ≤ Z ∧ Z ≤ 12) :
    (0 ≤ Z → ∀ mt, mt = day ∨ mt = month ∨ mt = year →
      formatLabel (plusHours (keyTime k) Z) mt = formatLabel (plusHours (keyTime k) 0) mt)
    ∧ (Z < 0 → formatLabel (plusHours (keyTime k) Z) day
        ≠ formatLabel (plusHours (keyTime k) 0) day)
    ∧ (Z < 0 → defaulted k.Day = 1 → formatLabel (plusHours (keyTime k) Z) month
        ≠ formatLabel (plusHours (keyTime k) 0) month)
    ∧ (Z < 0 → defaulted k.Month = 1 → defaulted k.Day = 1 →
        formatLabel (plusHours (keyTime k) Z) year
          ≠ formatLabel (plusHours (keyTime k) 0) year) := by
  have hz0 : -12 ≤ (0 : Int) ∧ (0 : Int) ≤ 12 := by omega
  have f1 := shifted_fields k Z hv hZ
  have f0 := shifted_fields k 0 hv hz0
  obtain ⟨N, a1, b1, c1⟩ := shifted_sec k Z hv
  obtain ⟨N0, a0, b0, c0⟩ := shifted_sec k 0 hv
  have hN : N0 = N := c0.trans c1.symm
  subst hN
  rw [h0.1, h0.2.1, h0.2.2] at a1 a0
  have q0 : (plusHours (keyTime k) 0).sec / 86400 = N0 := by omega
  have y0 : (plusHours (keyTime k) 0).Year = k.Year := by
    unfold Time.Year; rw [q0, b0]
  have m0 : (plusHours (keyTime k) 0).Month = (defaulted k.Month : Nat) := by
    unfold Time.Month; rw [q0, b0]
  have d0 : (plusHours (keyTime k) 0).Day = (defaulted k.Day : Nat) := by
    unfold Time.Day; rw [q0, b0]
  have n1 := dayNumber_fields (plusHours (keyTime k) Z)
  have n0 := dayNumber_fields (plusHours (keyTime k) 0)
  refine ⟨?_, ?_, ?_, ?_⟩
  · intro hz mt hmt
    exact formatLabel_same_day _ _ f1.1.1 (by omega) mt hmt
  · intro hz h
    rw [(formatLabel_texts _ f1.1.1).2.2.1, (formatLabel_texts _ f0.1.1).2.2.1] at h
    obtain ⟨e1, e2, e3⟩ := (texts_inj _ _ _ 0 _ _ _ 0 ⟨f1.1, f1.2.1, f1.2.2.1, by omega⟩
      ⟨f0.1, f0.2.1, f0.2.2.1, by omega⟩).2.1 h
    rw [e1, e2, e3] at n1
    omega
  · intro hz hd h
    rw [(formatLabel_texts _ f1.1.1).2.2.2.1, (formatLabel_texts _ f0.1.1).2.2.2.1] at h
    obtain ⟨e1, e2⟩ := (texts_inj _ _ 0 0 _ _ 0 0 ⟨f1.1, f1.2.1, by omega, by omega⟩
      ⟨f0.1, f0.2.1, by omega, by omega⟩).2.2.1 h
    have q1 : (plusHours (keyTime k) Z).sec / 86400 = N0 - 1 := by omega
    have b2 : absDate N0 = ((k.Year : Int), ((defaulted k.Month : Nat) : Int), 1) := by
      rw [b0, hd]; rfl
    have g1 := month_end _ N0 _ _ q1 b2
    obtain ⟨⟨hm, _, _, _, _⟩, _⟩ := Time_fields (plusHours (keyTime k) 0)
    have hb := daysIn_bound _ (plusHours (keyTime k) 0).Year hm
    have d1 : (plusHours (keyTime k) 0).Day = 1 := by rw [d0, hd]; rfl
    rw [g1, e1, e2] at n1
    rw [d1] at n0
    unfold dayOfYear at n1 n0
    omega
  · intro hz hm hd h
    rw [(formatLabel_texts _ f1.1.1).2.2.2.2, (formatLabel_texts _ f0.1.1).2.2.2.2] at h
    have e1 := (texts_inj _ 0 0 0 _ 0 0 0 ⟨f1.1, by omega, by omega, by omega⟩
      ⟨f0.1, by omega, by omega, by omega⟩).2.2.2 h
    have m1 : (plusHours (keyTime k) 0).Month = 1 := by rw [m0, hm]; rfl
    have d1 : (plusHours (keyTime k) 0).Day = 1 := by rw [d0, hd]; rfl
    rw [m1, d1, dayOfYear_first] at n0
    obtain ⟨⟨am, ad, _, _, _⟩, _⟩ := Time_fields (plusHours (keyTime k) Z)
    have r := dayOfYear_range _ _ _ am ad
    rw [e1] at n1 r
    omega

/-- C5, where the code departs from the claim: for an event instant `u`
whose UTC year is from 1000 to 9999 and an offset `Z` of -12 to 12 hours, the
hour label of the bucket key of `u` is the hour label of the viewer-local
instant `u + Z` hours, but for the interval types day, month and year
`dateToString` adds the offset to the start of the UTC bucket and formats the
result: with `0 <= Z` the label is the label of `u` itself (the UTC bucket,
the offset has no effect), with `Z < 0` it is another label (the bucket before
the UTC one).  So the label is not the one of the viewer-local instant
whenever `Z < 0` and the local instant lies in the UTC bucket of `u`, and
whenever `0 <= Z` and it does not. -/
theorem C5_coarse_label_not_local (u : Time) (Z : Int) (hZ : -12 ≤ Z ∧ Z ≤ 12)
    (hy : 1000 ≤ u.Year ∧ u.Year ≤ 9999) :
    dateToString (groupKey hour u) Z hour
        = (hourText (plusHours u Z).Year (plusHours u Z).Month (plusHours u Z).Day
            (plusHours u Z).Hour, none)
    ∧ (∀ mt, mt = day ∨ mt = month ∨ mt = year →
        (dateToString (groupKey mt u) Z mt).2 = none
        ∧ (0 ≤ Z → (dateToString (groupKey mt u) Z mt).1 = formatLabel u mt)
        ∧ (Z < 0 → (dateToString (groupKey mt u) Z mt).1 ≠ formatLabel u mt)
        ∧ (Z < 0 → formatLabel (plusHours u Z) mt = formatLabel u mt →
            (dateToString (groupKey mt u) Z mt).1 ≠ formatLabel (plusHours u Z) mt)
        ∧ (0 ≤ Z → formatLabel (plusHours u Z) mt ≠ formatLabel u mt →
            (dateToString (groupKey mt u) Z mt).1 ≠ formatLabel (plusHours u Z) mt)) := by
  obtain ⟨h1, h2, h3, h4⟩ := bucket_label_local u Z hZ hy
  obtain ⟨_, g2, g3, g4⟩ := groupKey_cases u
  obtain ⟨_, _, t3, t4, t5⟩ := formatLabel_texts u (by omega)
  have hz0 : -12 ≤ (0 : Int) ∧ (0 : Int) ≤ 12 := by omega
  refine ⟨h1, ?_⟩
  -- what is left is the same for the three interval types
  have key : ∀ mt, mt = day ∨ mt = month ∨ mt = year →
      ∀ k : StatsDataPointRaw, dateToString k 0 mt = (formatLabel u mt, none) →
      (k.Hour = 0 ∧ k.Minute = 0 ∧ k.Second = 0) →
      (Z < 0 → formatLabel (plusHours (keyTime k) Z) mt
        ≠ formatLabel (plusHours (keyTime k) 0) mt) →
      (dateToString k Z mt).2 = none
      ∧ (0 ≤ Z → (dateToString k Z mt).1 = formatLabel u mt)
      ∧ (Z < 0 → (dateToString k Z mt).1 ≠ formatLabel u mt)
      ∧ (Z < 0 → formatLabel (plusHours u Z) mt = formatLabel u mt →
          (dateToString k Z mt).1 ≠ formatLabel (plusHours u Z) mt)
      ∧ (0 ≤ Z → formatLabel (plusHours u Z) mt ≠ formatLabel u mt →
          (dateToString k Z mt).1 ≠ formatLabel (plusHours u Z) mt) := by
    intro mt hmt k hk h0 hneg
    have hv : validKey k := validKey_of_success k 0 mt (by rw [hk])
    have e0 : formatLabel (plusHours (keyTime k) 0) mt = formatLabel u mt := by
      have := dateToString_shift k 0 mt hv hz0
      rw [hk] at this
      exact (congrArg Prod.fst this).symm
    have eZ := dateToString_shift k Z mt hv hZ
    have pos := (coarse_shift k hv h0 Z hZ).1
    rw [eZ]
    simp only
    refine ⟨trivial, ?_, ?_, ?_, ?_⟩
    · intro hz
      rw [pos hz mt hmt, e0]
    · intro hz
      rw [← e0]
      exact hneg hz
    · intro hz hl
      rw [hl, ← e0]
      exact hneg hz
    · intro hz hl
      rw [pos hz mt hmt, e0]
      exact fun h => hl h.symm
  intro mt hmt
  rcases hmt with rfl | rfl | rfl
  · have hk : dateToString (groupKey day u) 0 day = (formatLabel u day, none) := by
      rw [h2, t3]
    have hv : validKey (groupKey day u) := validKey_of_success _ 0 day (by rw [hk])
    have h0 : (groupKey day u).Hour = 0 ∧ (groupKey day u).Minute = 0
        ∧ (groupKey day u).Second = 0 := by
      rw [g2]; exact ⟨rfl, rfl, rfl⟩
    exact key day (Or.inl rfl) _ hk h0 (coarse_shift _ hv h0 Z hZ).2.1
  · have hk : dateToString (groupKey month u) 0 month = (formatLabel u month, none) := by
      rw [h3, t4]
    have hv : validKey (groupKey month u) := validKey_of_success _ 0 month (by rw [hk])
    have h0 : (groupKey month u).Hour = 0 ∧ (groupKey month u).Minute = 0
        ∧ (groupKey month u).Second = 0 := by
      rw [g3]; exact ⟨rfl, rfl, rfl⟩
    have hd : defaulted (groupKey month u).Day = 1 := by
      rw [g3]; rfl
    exact key month (Or.inr (Or.inl rfl)) _ hk h0
      (fun hz => (coarse_shift _ hv h0 Z hZ).2.2.1 hz hd)
  · have hk : dateToString (groupKey year u) 0 year = (formatLabel u year, none) := by
      rw [h4, t5]
    have hv : validKey (groupKey year u) := validKey_of_success _ 0 year (by rw [hk])
    have h0 : (groupKey year u).Hour = 0 ∧ (groupKey year u).Minute = 0
        ∧ (groupKey year u).Second = 0 := by
      rw [g4]; exact ⟨rfl, rfl, rfl⟩
    have hm : defaulted (groupKey year u).Month = 1 := by
      rw [g4]; rfl
    have hd : defaulted (groupKey year u).Day = 1 := by
      rw [g4]; rfl
    exact key year (Or.inr (Or.inr rfl)) _ hk h0
      (fun hz => (coarse_shift _ hv h0 Z hZ).2.2.2 hz hm hd)

/-- The failing inputs: for the event 2023-06-01T10:15:00Z and offset -5 the
day bucket is labelled `2023-05-31` although the viewer-local instant 05:15
lies on `2023-06-01`; with offset -1 the year bucket of the same event is
labelled `2022`. -/
theorem C5_coarse_label_not_local_witness :
    (dateToString (groupKey day (Date 2023 6 1 10 15 0 0)) (-5) day).1
      ≠ formatLabel (plusHours (Date 2023 6 1 10 15 0 0) (-5)) day
    ∧ dateToString (groupKey day (Date 2023 6 1 10 15 0 0)) (-5) day = ("2023-05-31", none)
    ∧ formatLabel (plusHours (Date 2023 6 1 10 15 0 0) (-5)) day = "2023-06-01"
    ∧ dateToString (groupKey year (Date 2023 6 1 10 15 0 0)) (-1) year = ("2022", none)
    ∧ formatLabel (plusHours (Date 2023 6 1 10 15 0 0) (-1)) year = "2023"
    ∧ dateToString (groupKey hour (Date 2023 6 1 10 15 0 0)) (-5) hour
        = ("2023-06-01 05:00 - 05:59", none) :=
  ⟨((C5_coarse_label_not_local (Date 2023 6 1 10 15 0 0) (-5) (by decide) (by decide)).2
      day (Or.inl rfl)).2.2.2.1 (by decide) (by decide),
    by decide, by decide, by decide, by decide, by decide⟩

end EchoRestApi
